import Mathlib

/-!
# Julia Set Explorer: palette engine, custom gradient editor and escape-time loop

A shallow embedding of `src/julia-set/app.js`.

Numbers: JavaScript numbers are IEEE doubles.  The embedding uses exact rational
arithmetic (`ℚ`) for positions, sample points and plane coordinates, and `Int`
for colour channels, so a statement about `samplePalette`, `juliaPixel`,
`juliaPlanePoint`, `handleMandelbrotClick` or `drawMandelbrotCrosshair` is
about the program run in exact arithmetic.  Comparisons between non-NaN numbers
are the same in both readings; the places where the source can produce `NaN`
(a `0/0` quotient) or throw are modelled explicitly as separate outcomes.

The same code is transcribed a second time with every arithmetic operation
rounded to binary64 (`fl64`, the definitions with the suffix `F64`).  Where the
two readings differ, the theorems on the `F64` definitions give the run of the
program and the theorems on the exact definitions say so in their statement.

Layout: the data model and the functions of the source first (palette
sampling, lookup table, application state and editor handlers, escape-time
loop), then the specification predicates, then the theorems.
-/

namespace JuliaSet

/-! ## Data model -/

/-- A colour `[r, g, b]`, the `color` array of a stop. -/
structure Color where
  r : Int
  g : Int
  b : Int
  deriving DecidableEq, Repr

/-- A gradient stop `{ pos, color }`. -/
structure Stop where
  pos : ℚ
  color : Color
  deriving DecidableEq, Repr

/-- The value `samplePalette` produces.
* `rgb c`: an array of three integers;
* `nan`: the array `[NaN, NaN, NaN]`, which is what the interpolation branch
  yields when `localT` is `0/0`;
* `typeError`: `stops[0]` is `undefined` (empty array), reading `.pos` throws. -/
inductive Sampled where
  | rgb (c : Color)
  | nan
  | typeError
  deriving DecidableEq, Repr

/-- The function `Math.round`: nearest integer, ties towards `+∞`. -/
def mathRound (x : ℚ) : Int := ⌊x + 1 / 2⌋

/-- One channel of the interpolation branch:
`Math.round(a + (b - a) * localT)`, the argument of `Math.round` evaluated in
exact arithmetic (`lerpChannelF64` rounds every operation to binary64). -/
def lerpChannel (a b : Int) (localT : ℚ) : Int :=
  mathRound ((a : ℚ) + ((b : ℚ) - (a : ℚ)) * localT)

/-- The body of the `if` inside the loop of `samplePalette`, for the pair
`s0 = stops[i]`, `s1 = stops[i + 1]`.  It is entered only with
`s0.pos ≤ t ≤ s1.pos`, so a zero denominator means `localT = 0 / 0 = NaN`
and every channel is `Math.round(NaN) = NaN`. -/
def interpolate (s0 s1 : Stop) (t : ℚ) : Sampled :=
  if s1.pos - s0.pos = 0 then Sampled.nan
  else
    let localT := (t - s0.pos) / (s1.pos - s0.pos)
    Sampled.rgb
      { r := lerpChannel s0.color.r s1.color.r localT
        g := lerpChannel s0.color.g s1.color.g localT
        b := lerpChannel s0.color.b s1.color.b localT }

/-- The `for` loop of `samplePalette` from index `i` on, where the argument list
is `stops.slice(i)`: it visits the adjacent pairs in order and returns from the
first one with `stops[i].pos ≤ t ≤ stops[i+1].pos`; when the loop runs out, the
statement after it returns the last stop's colour `lastColor`. -/
def sampleLoop (lastColor : Color) : List Stop → ℚ → Sampled
  | s0 :: s1 :: rest, t =>
    if s0.pos ≤ t ∧ t ≤ s1.pos then interpolate s0 s1 t
    else sampleLoop lastColor (s1 :: rest) t
  | _, _ => Sampled.rgb lastColor

/-- The function `samplePalette(stops, t)` for a number `t` that is not NaN.
The guards are comparisons and are the same in double arithmetic; the
interpolation branch is evaluated in exact arithmetic here and with rounded
operations in `samplePaletteF64`. -/
def samplePalette (stops : List Stop) (t : ℚ) : Sampled :=
  match stops.head?, stops.getLast? with
  | some first, some last =>
    if t ≤ first.pos then Sampled.rgb first.color
    else if last.pos ≤ t then Sampled.rgb last.color
    else sampleLoop last.color stops t
  | _, _ => Sampled.typeError

/-- The function `samplePalette(stops, t)` for `t = NaN`: every comparison with
NaN is false, so neither guard fires, no loop test succeeds, and the statement
after the loop returns the last stop's colour (reading `stops[0].pos` throws
first on an empty array). -/
def samplePaletteNaN (stops : List Stop) : Sampled :=
  match stops.head?, stops.getLast? with
  | some _, some last => Sampled.rgb last.color
  | _, _ => Sampled.typeError

/-- Positions ascending: `stops[i].pos ≤ stops[j].pos` for `i < j`. -/
def SortedStops (stops : List Stop) : Prop :=
  stops.Pairwise (fun a b => a.pos ≤ b.pos)

/-- Every channel is an integer in `0..255`. -/
def Color.InRange (c : Color) : Prop :=
  (0 ≤ c.r ∧ c.r ≤ 255) ∧ (0 ≤ c.g ∧ c.g ≤ 255) ∧ (0 ≤ c.b ∧ c.b ≤ 255)

/-- The palette invariants of the data model: at least two stops, positions in
`[0, 1]`, sorted ascending by position, channels in `0..255`. -/
structure ValidPalette (stops : List Stop) : Prop where
  two_le : 2 ≤ stops.length
  pos_range : ∀ s ∈ stops, 0 ≤ s.pos ∧ s.pos ≤ 1
  sorted : SortedStops stops
  channels : ∀ s ∈ stops, s.color.InRange

/-! ## The built-in palette catalog -/

/-- The palette `PALETTES['inferno']`. -/
def inferno : List Stop :=
  [ { pos := 0, color := ⟨0, 0, 0⟩ },
    { pos := 25 / 100, color := ⟨80, 18, 123⟩ },
    { pos := 5 / 10, color := ⟨187, 55, 84⟩ },
    { pos := 75 / 100, color := ⟨249, 142, 9⟩ },
    { pos := 1, color := ⟨252, 255, 164⟩ } ]

/-- The palette `PALETTES['crimson-night']`. -/
def crimsonNight : List Stop :=
  [ { pos := 0, color := ⟨0, 0, 0⟩ },
    { pos := 3 / 10, color := ⟨100, 0, 0⟩ },
    { pos := 6 / 10, color := ⟨200, 20, 20⟩ },
    { pos := 85 / 100, color := ⟨255, 60, 40⟩ },
    { pos := 1, color := ⟨255, 200, 200⟩ } ]

/-- The palette `PALETTES['ice-fire']`. -/
def iceFire : List Stop :=
  [ { pos := 0, color := ⟨5, 5, 40⟩ },
    { pos := 3 / 10, color := ⟨15, 80, 120⟩ },
    { pos := 5 / 10, color := ⟨30, 180, 170⟩ },
    { pos := 75 / 100, color := ⟨240, 140, 20⟩ },
    { pos := 1, color := ⟨220, 30, 10⟩ } ]

/-- The palette `PALETTES['monochrome']`. -/
def monochrome : List Stop :=
  [ { pos := 0, color := ⟨0, 0, 0⟩ },
    { pos := 5 / 10, color := ⟨128, 128, 128⟩ },
    { pos := 1, color := ⟨255, 255, 255⟩ } ]

/-- The palette `PALETTES['neon-abyss']`. -/
def neonAbyss : List Stop :=
  [ { pos := 0, color := ⟨0, 0, 0⟩ },
    { pos := 3 / 10, color := ⟨60, 0, 120⟩ },
    { pos := 6 / 10, color := ⟨30, 60, 220⟩ },
    { pos := 1, color := ⟨0, 240, 255⟩ } ]

/-- The palette `PALETTES['gold-vein']`. -/
def goldVein : List Stop :=
  [ { pos := 0, color := ⟨0, 0, 0⟩ },
    { pos := 3 / 10, color := ⟨60, 30, 5⟩ },
    { pos := 65 / 100, color := ⟨200, 160, 30⟩ },
    { pos := 1, color := ⟨255, 255, 230⟩ } ]

/-- The lookup `PALETTES[key]`; `none` stands for `undefined`. -/
def PALETTES (key : String) : Option (List Stop) :=
  if key = "inferno" then some inferno
  else if key = "crimson-night" then some crimsonNight
  else if key = "ice-fire" then some iceFire
  else if key = "monochrome" then some monochrome
  else if key = "neon-abyss" then some neonAbyss
  else if key = "gold-vein" then some goldVein
  else none

/-! ## The colour lookup table -/

/-- Storing an integer into a `Uint8Array` element reduces it modulo 256. -/
def toUint8 (v : Int) : Nat := (v % 256).toNat

/-- The call `samplePalette(palette, t)` of `buildColorLUT` for slot `i`, with
`t = i / (size - 1)`.  For `size = 1` the quotient is `0 / 0 = NaN`. -/
def sampleAtSlot (palette : List Stop) (size i : Nat) : Sampled :=
  if size = 1 then samplePaletteNaN palette
  else samplePalette palette ((i : ℚ) / ((size : ℚ) - 1))

/-- The three writes `lut[i*3] = r; lut[i*3+1] = g; lut[i*3+2] = b`. -/
def lutWrite (lut : List Nat) (i : Nat) (r g b : Nat) : List Nat :=
  ((lut.set (i * 3) r).set (i * 3 + 1) g).set (i * 3 + 2) b

/-- One iteration of the loop of `buildColorLUT`; `none` means that an exception
was thrown.  A NaN channel is stored as `0`. -/
def lutStep (palette : List Stop) (size : Nat) (acc : Option (List Nat)) (i : Nat) :
    Option (List Nat) :=
  match acc with
  | none => none
  | some lut =>
    match sampleAtSlot palette size i with
    | Sampled.rgb c => some (lutWrite lut i (toUint8 c.r) (toUint8 c.g) (toUint8 c.b))
    | Sampled.nan => some (lutWrite lut i 0 0 0)
    | Sampled.typeError => none

/-- The function `buildColorLUT(palette, size)`: a zero-filled `Uint8Array` of
`size * 3` elements, filled slot by slot for `i = 0 .. size - 1`. -/
def buildColorLUT (palette : List Stop) (size : Nat) : Option (List Nat) :=
  (List.range size).foldl (lutStep palette size) (some (List.replicate (size * 3) 0))

/-! ## Application state and the custom gradient editor -/

/-- The object `state`.  `customStops` is `none` while it is `null`. -/
structure State where
  cReal : ℚ
  cImag : ℚ
  maxIter : Nat
  zoom : ℚ
  panX : ℚ
  panY : ℚ
  palette : String
  customStops : Option (List Stop)
  activePreset : Int
  rendering : Bool
  deriving DecidableEq

/-- The initial value of `state`. -/
def initialState : State :=
  { cReal := -7 / 10, cImag := 27 / 100, maxIter := 200, zoom := 1, panX := 0, panY := 0,
    palette := "crimson-night", customStops := none, activePreset := -1,
    rendering := false }

/-- The function `deepCopyPalette`: a fresh array of fresh stops with the same
values. -/
def deepCopyPalette (palette : List Stop) : List Stop :=
  palette.map (fun s => { pos := s.pos, color := ⟨s.color.r, s.color.g, s.color.b⟩ })

/-- The function `initCustomStops`. -/
def initCustomStops (s : State) : State :=
  { s with customStops := some (deepCopyPalette crimsonNight) }

/-- The order used by `customStops.sort((a, b) => a.pos - b.pos)`. -/
def Stop.posLe (a b : Stop) : Prop := a.pos ≤ b.pos

instance : DecidableRel Stop.posLe := fun a b => inferInstanceAs (Decidable (a.pos ≤ b.pos))

instance : IsTotal Stop Stop.posLe := ⟨fun a b => le_total a.pos b.pos⟩

instance : IsTrans Stop Stop.posLe := ⟨fun _ _ _ h1 h2 => le_trans h1 h2⟩

/-- The call `customStops.sort((a, b) => a.pos - b.pos)`.  `Array.prototype.sort`
is stable, so its result is the stable sort by position, which insertion sort
computes. -/
def sortStops (stops : List Stop) : List Stop :=
  List.insertionSort Stop.posLe stops

/-- The click handler of `btnAddStop`.  On `null` stops reading `.length` throws
and nothing is written. -/
def addStop (s : State) : State :=
  match s.customStops with
  | none => s
  | some stops =>
    if stops.length ≥ 5 then s
    else
      { s with
        customStops := some (sortStops (stops ++ [{ pos := 1 / 2, color := ⟨255, 0, 0⟩ }]))
        palette := "custom" }

/-- The click handler of the remove button of row `i`.  Rows exist for the
indices of `customStops` only. -/
def removeStop (i : Nat) (s : State) : State :=
  match s.customStops with
  | none => s
  | some stops =>
    if i < stops.length then
      if stops.length ≤ 2 then s
      else { s with customStops := some (stops.eraseIdx i), palette := "custom" }
    else s

/-- The input handler of the position slider of row `i`, whose value is an
integer `k` in `0..100`: `stop.pos = k / 100`, then sort. -/
def moveStop (i : Nat) (k : Fin 101) (s : State) : State :=
  match s.customStops with
  | none => s
  | some stops =>
    match stops[i]? with
    | none => s
    | some stop =>
      { s with
        customStops := some (sortStops (stops.set i { stop with pos := (k.val : ℚ) / 100 }))
        palette := "custom" }

/-- The input handler of the colour input of row `i`: `stop.color = hexToRgb(..)`. -/
def recolorStop (i : Nat) (c : Color) (s : State) : State :=
  match s.customStops with
  | none => s
  | some stops =>
    match stops[i]? with
    | none => s
    | some stop =>
      { s with customStops := some (stops.set i { stop with color := c }), palette := "custom" }

/-- The change handler of `selectPalette` with selected value `key`.  For a key
that is neither `'custom'` nor in `PALETTES`, `deepCopyPalette(undefined)` throws
after `state.palette` was assigned. -/
def selectPalette (key : String) (s : State) : State :=
  if key ≠ "custom" then
    match PALETTES key with
    | some p => { s with palette := key, customStops := some (deepCopyPalette p) }
    | none => { s with palette := key }
  else { s with palette := key }

/-- The custom-gradient operations. -/
inductive Edit where
  | add
  | remove (i : Nat)
  | move (i : Nat) (k : Fin 101)
  | recolor (i : Nat) (c : Color)
  | select (key : String)

/-- Running one operation's handler. -/
def applyEdit (s : State) : Edit → State
  | Edit.add => addStop s
  | Edit.remove i => removeStop i s
  | Edit.move i k => moveStop i k s
  | Edit.recolor i c => recolorStop i c s
  | Edit.select key => selectPalette key s

/-- Running a sequence of operations, starting after `initCustomStops`. -/
def runEdits (edits : List Edit) : State :=
  edits.foldl applyEdit (initCustomStops initialState)

/-- The custom-palette invariant: stops present, sorted ascending by position,
at least 2 and at most 5 of them. -/
def CustomInv (s : State) : Prop :=
  ∃ stops, s.customStops = some stops ∧ SortedStops stops ∧
    2 ≤ stops.length ∧ stops.length ≤ 5

/-! ## The escape-time loop -/

/-- The variables of the pixel loop of `renderJulia`. -/
structure EscState where
  zrCur : ℚ
  ziCur : ℚ
  zrSq : ℚ
  ziSq : ℚ
  iter : Nat
  deriving DecidableEq

/-- The body of the `while` loop: `newZr = zrSq - ziSq + cReal;
ziCur = 2.0 * zrCur * ziCur + cImag; zrCur = newZr; zrSq = zrCur * zrCur;
ziSq = ziCur * ziCur; iter++`. -/
def escapeBody (cReal cImag : ℚ) (s : EscState) : EscState :=
  let newZr := s.zrSq - s.ziSq + cReal
  let ziCur := 2 * s.zrCur * s.ziCur + cImag
  let zrCur := newZr
  { zrCur := zrCur, ziCur := ziCur, zrSq := zrCur * zrCur, ziSq := ziCur * ziCur,
    iter := s.iter + 1 }

/-- The loop `while (zrSq + ziSq <= 4.0 && iter < maxIter) { ... }`.  It is
total: `maxIter - iter` decreases in every iteration. -/
def escapeLoop (cReal cImag : ℚ) (maxIter : Nat) (s : EscState) : EscState :=
  if s.zrSq + s.ziSq ≤ 4 ∧ s.iter < maxIter then
    escapeLoop cReal cImag maxIter (escapeBody cReal cImag s)
  else s
termination_by maxIter - s.iter
decreasing_by
  simp_wf
  simp only [escapeBody]
  omega

/-- The pixel loop of `renderJulia` for the plane point `(zr, zi)`: the
initialisation of `zrCur, ziCur, iter, zrSq, ziSq` followed by the `while`
loop, evaluated in exact arithmetic; `juliaPixelF64` is the same code with
rounded operations. -/
def juliaPixel (cReal cImag : ℚ) (maxIter : Nat) (zr zi : ℚ) : EscState :=
  escapeLoop cReal cImag maxIter
    { zrCur := zr, ziCur := zi, zrSq := zr * zr, ziSq := zi * zi, iter := 0 }

/-- The orbit `z_0 = (zr, zi)`, `z_{k+1} = z_k² + c` in real and imaginary
parts. -/
def orbit (cReal cImag zr zi : ℚ) : Nat → ℚ × ℚ
  | 0 => (zr, zi)
  | k + 1 =>
    let z := orbit cReal cImag zr zi k
    (z.1 * z.1 - z.2 * z.2 + cReal, 2 * z.1 * z.2 + cImag)

/-- The squared modulus `|z|²`. -/
def normSq (z : ℚ × ℚ) : ℚ := z.1 * z.1 + z.2 * z.2

/-! ## Rendering -/

/-- The function `getActivePalette`: the custom stops when `'custom'` is selected
and `customStops` is not `null`, otherwise `PALETTES[state.palette]`, with
`PALETTES['crimson-night']` when that is `undefined`. -/
def getActivePalette (s : State) : List Stop :=
  match s.customStops with
  | some stops =>
    if s.palette = "custom" then stops else (PALETTES s.palette).getD crimsonNight
  | none => (PALETTES s.palette).getD crimsonNight

/-- The conversion `x | 0` (ToInt32) of a finite number: truncate towards zero,
then wrap modulo `2^32` into the signed 32-bit range. -/
def toInt32 (x : ℚ) : Int :=
  let n : Int := if 0 ≤ x then ⌊x⌋ else ⌈x⌉
  let m := n % 4294967296
  if m ≥ 2147483648 then m - 4294967296 else m

/-- The expression `Math.max(0, Math.min(LUT_SIZE - 1, (t * LUT_SIZE) | 0))`. -/
def lutIndex (lutSize : Nat) (t : ℚ) : Int :=
  max 0 (min ((lutSize : Int) - 1) (toInt32 (t * (lutSize : ℚ))))

/-- The four bytes written to `data[idx .. idx + 3]` by the colouring code
`if (iter === maxIter) { ... } else { ... }`, which is textually the same in
`renderJulia`, `renderJuliaThumbnail` and `renderMandelbrot` (each with its own
`LUT_SIZE` and `maxIter`).

`logLog x` stands for the number
`Math.log(Math.log(Math.sqrt(x))) / Math.log(2)`; the library functions are not
rational-valued, so their result is a parameter.  The branch that uses it is
reached only with `iter < maxIter`, after the loop left with `x > 4`.  A read
of `colorLUT` outside its length gives `undefined`, stored as `0`. -/
def shadePixel (logLog : ℚ → ℚ) (lutSize : Nat) (colorLUT : List Nat) (maxIter iter : Nat)
    (zrSq ziSq : ℚ) : List Nat :=
  if iter = maxIter then [5, 2, 2, 255]
  else
    let smoothed := (iter : ℚ) - logLog (zrSq + ziSq)
    let t := smoothed / (maxIter : ℚ)
    let lutIdx := (lutIndex lutSize t).toNat
    [colorLUT.getD (lutIdx * 3) 0, colorLUT.getD (lutIdx * 3 + 1) 0,
      colorLUT.getD (lutIdx * 3 + 2) 0, 255]

/-- The contents of `imageData.data` after the loops
`for (py < height) for (px < width)`, which write the four bytes of pixel
`(px, py)` at `idx = (py * width + px) * 4`: every element is written exactly
once, in increasing order of `idx`. -/
def fillImage (width height : Nat) (pixel : Nat → Nat → List Nat) : List Nat :=
  (List.range height).flatMap (fun py => (List.range width).flatMap (fun px => pixel px py))

/-- The plane point `(zr, zi)` of pixel `(px, py)` in `renderJulia`
(`state.zoom` is `10^slider`, never `0`), evaluated in exact arithmetic;
`juliaPlanePointF64` is the same code with rounded operations. -/
def juliaPlanePoint (s : State) (width height px py : Nat) : ℚ × ℚ :=
  let aspectRatio := (width : ℚ) / (height : ℚ)
  let halfW := 2 / s.zoom
  let halfH := halfW / aspectRatio
  let xMin := s.panX - halfW
  let xMax := s.panX + halfW
  let yMin := s.panY - halfH
  let yMax := s.panY + halfH
  let dx := (xMax - xMin) / (width : ℚ)
  let dy := (yMax - yMin) / (height : ℚ)
  (xMin + (px : ℚ) * dx, yMin + (py : ℚ) * dy)

/-- The body of the two pixel loops of `renderJulia` for pixel `(px, py)`. -/
def renderJuliaPixel (logLog : ℚ → ℚ) (s : State) (colorLUT : List Nat)
    (width height px py : Nat) : List Nat :=
  let z := juliaPlanePoint s width height px py
  let r := juliaPixel s.cReal s.cImag s.maxIter z.1 z.2
  shadePixel logLog 1024 colorLUT s.maxIter r.iter r.zrSq r.ziSq

/-- What a call of `renderJulia` leaves behind: the `state` object, the image
given to `putImageData` (`none` when it was not called), and whether the call
ended in an exception. -/
structure RenderOutcome where
  state : State
  image : Option (List Nat)
  threw : Bool

/-- The function `renderJulia` on a canvas of the given size. -/
def renderJulia (logLog : ℚ → ℚ) (s : State) (width height : Nat) : RenderOutcome :=
  if width = 0 ∨ height = 0 then { state := s, image := none, threw := false }
  else
    match buildColorLUT (getActivePalette s) 1024 with
    | none => { state := { s with rendering := true }, image := none, threw := true }
    | some colorLUT =>
      { state := { s with rendering := false }
        image := some (fillImage width height (renderJuliaPixel logLog s colorLUT width height))
        threw := false }

/-- The plane point of pixel `(px, py)` in `renderJuliaThumbnail`. -/
def thumbnailPlanePoint (w h px py : Nat) : ℚ × ℚ :=
  let aspectRatio := (w : ℚ) / (h : ℚ)
  let halfW : ℚ := 2
  let halfH := halfW / aspectRatio
  let dx := (2 * halfW) / (w : ℚ)
  let dy := (2 * halfH) / (h : ℚ)
  (-halfW + (px : ℚ) * dx, -halfH + (py : ℚ) * dy)

/-- The body of the pixel loops of `renderJuliaThumbnail`; its `while` loop is
the one of `renderJulia`, with `maxIter = 80`. -/
def renderJuliaThumbnailPixel (logLog : ℚ → ℚ) (colorLUT : List Nat) (cReal cImag : ℚ)
    (w h px py : Nat) : List Nat :=
  let z := thumbnailPlanePoint w h px py
  let r := juliaPixel cReal cImag 80 z.1 z.2
  shadePixel logLog 256 colorLUT 80 r.iter r.zrSq r.ziSq

/-- The image that `renderJuliaThumbnail(canvas, cReal, cImag)` puts on a
`w × h` canvas; `none` when `buildColorLUT` throws. -/
def renderJuliaThumbnail (logLog : ℚ → ℚ) (s : State) (w h : Nat) (cReal cImag : ℚ) :
    Option (List Nat) :=
  match buildColorLUT (getActivePalette s) 256 with
  | none => none
  | some colorLUT =>
    some (fillImage w h (renderJuliaThumbnailPixel logLog colorLUT cReal cImag w h))

/-- The body of the `while` loop of `renderMandelbrot`:
`zi = 2.0 * zr * zi + ci; zr = zrSq - ziSq + cr; zrSq = zr * zr; ziSq = zi * zi;
iter++` (`zrCur`, `ziCur` hold `zr`, `zi`). -/
def mandelbrotBody (cr ci : ℚ) (s : EscState) : EscState :=
  let zi := 2 * s.zrCur * s.ziCur + ci
  let zr := s.zrSq - s.ziSq + cr
  { zrCur := zr, ziCur := zi, zrSq := zr * zr, ziSq := zi * zi, iter := s.iter + 1 }

/-- The `while` loop of `renderMandelbrot`. -/
def mandelbrotLoop (cr ci : ℚ) (maxIter : Nat) (s : EscState) : EscState :=
  if s.zrSq + s.ziSq ≤ 4 ∧ s.iter < maxIter then
    mandelbrotLoop cr ci maxIter (mandelbrotBody cr ci s)
  else s
termination_by maxIter - s.iter
decreasing_by
  simp_wf
  simp only [mandelbrotBody]
  omega

/-- The pixel loop of `renderMandelbrot` for the parameter `(cr, ci)`:
`zr = 0, zi = 0, iter = 0, zrSq = 0, ziSq = 0`, then the `while` loop. -/
def mandelbrotPixel (cr ci : ℚ) (maxIter : Nat) : EscState :=
  mandelbrotLoop cr ci maxIter { zrCur := 0, ziCur := 0, zrSq := 0, ziSq := 0, iter := 0 }

/-- The parameter `(cr, ci)` of pixel `(px, py)` in `renderMandelbrot`. -/
def mandelbrotPlanePoint (w h px py : Nat) : ℚ × ℚ :=
  let xMin : ℚ := -22 / 10
  let xMax : ℚ := 8 / 10
  let yMin : ℚ := -12 / 10
  let yMax : ℚ := 12 / 10
  let dx := (xMax - xMin) / (w : ℚ)
  let dy := (yMax - yMin) / (h : ℚ)
  (xMin + (px : ℚ) * dx, yMin + (py : ℚ) * dy)

/-- The body of the pixel loops of `renderMandelbrot`, with `maxIter = 100`. -/
def renderMandelbrotPixel (logLog : ℚ → ℚ) (colorLUT : List Nat) (w h px py : Nat) :
    List Nat :=
  let c := mandelbrotPlanePoint w h px py
  let r := mandelbrotPixel c.1 c.2 100
  shadePixel logLog 256 colorLUT 100 r.iter r.zrSq r.ziSq

/-- The image that `renderMandelbrot` puts on a `w × h` canvas; `none` when
`buildColorLUT` throws. -/
def renderMandelbrot (logLog : ℚ → ℚ) (s : State) (w h : Nat) : Option (List Nat) :=
  match buildColorLUT (getActivePalette s) 256 with
  | none => none
  | some colorLUT => some (fillImage w h (renderMandelbrotPixel logLog colorLUT w h))

/-! ## The Mandelbrot navigator: click and crosshair -/

/-- The digits of `x.toFixed(4)` read as one integer: the integer `n` for which
`n / 10^4` is closest to `|x|`, the larger one on a tie (for `|x| < 10^21`). -/
def toFixed4Digits (x : ℚ) : Nat := (⌊|x| * 10000 + 1 / 2⌋).toNat

/-- The number `parseFloat(x.toFixed(4))`. -/
def roundTo4 (x : ℚ) : ℚ :=
  if x < 0 then -((toFixed4Digits x : ℚ) / 10000) else (toFixed4Digits x : ℚ) / 10000

/-- The string `x.toFixed(4)`: a minus sign when `x < 0`, the integer part, a
point and exactly four decimals. -/
def toFixed4 (x : ℚ) : String :=
  let n := toFixed4Digits x
  (if x < 0 then "-" else "") ++ Nat.repr (n / 10000) ++ "." ++
    String.mk [Nat.digitChar (n / 1000 % 10), Nat.digitChar (n / 100 % 10),
      Nat.digitChar (n / 10 % 10), Nat.digitChar (n % 10)]

/-- The writes of `handleMandelbrotClick` to `state` for a click at canvas pixel
`(px, py)` on a `w × h` canvas (it then redraws the crosshair and calls
`scheduleJuliaRender`), evaluated in exact arithmetic;
`handleMandelbrotClickF64` is the same code with rounded operations. -/
def handleMandelbrotClick (px py : ℚ) (w h : Nat) (s : State) : State :=
  let xMin : ℚ := -22 / 10
  let xMax : ℚ := 8 / 10
  let yMin : ℚ := -12 / 10
  let yMax : ℚ := 12 / 10
  let cReal := xMin + (px / (w : ℚ)) * (xMax - xMin)
  let cImag := yMin + (py / (h : ℚ)) * (yMax - yMin)
  { s with cReal := roundTo4 cReal, cImag := roundTo4 cImag, activePreset := -1 }

/-- The pixel `(px, py)` at which `drawMandelbrotCrosshair` draws the marker,
evaluated in exact arithmetic; `drawMandelbrotCrosshairF64` is the same code
with rounded operations. -/
def drawMandelbrotCrosshair (s : State) (w h : Nat) : ℚ × ℚ :=
  let xMin : ℚ := -22 / 10
  let xMax : ℚ := 8 / 10
  let yMin : ℚ := -12 / 10
  let yMax : ℚ := 12 / 10
  (((s.cReal - xMin) / (xMax - xMin)) * (w : ℚ), ((s.cImag - yMin) / (yMax - yMin)) * (h : ℚ))

/-- The value that `exportPNG` assigns to `link.download`. -/
def exportPNG (s : State) : String :=
  "julia-set-" ++ toFixed4 s.cReal ++ "-" ++ toFixed4 s.cImag ++ ".png"

/-! ## The render scheduler -/

/-- The scheduler variables together with their environment: the `state`
object and the canvas size that `renderJulia` reads, the variables
`renderTimeout` and `renderRequestId` (`none` is `null`), the timers set by
`setTimeout` that have neither fired nor been cleared, the animation-frame
requests that have neither run nor been cancelled, the next handle that the
browser hands out (handles are positive), and the executions of `renderJulia`
so far, each with the `state` it read. -/
structure Scheduler where
  app : State
  canvasWidth : Nat
  canvasHeight : Nat
  renderTimeout : Option Nat
  renderRequestId : Option Nat
  timers : List Nat
  frames : List Nat
  nextId : Nat
  renders : List State

/-- The scheduler when the page has loaded and nothing is scheduled. -/
def Scheduler.init (app : State) (width height : Nat) : Scheduler :=
  { app := app, canvasWidth := width, canvasHeight := height, renderTimeout := none,
    renderRequestId := none, timers := [], frames := [], nextId := 1, renders := [] }

/-- The guarded cancellation `if (handle) cancel(handle)` on a set of live
handles. -/
def cancelHandle (handle : Option Nat) (live : List Nat) : List Nat :=
  match handle with
  | some id => if id ≠ 0 then live.erase id else live
  | none => live

/-- The function `scheduleJuliaRender`. -/
def scheduleJuliaRender (σ : Scheduler) : Scheduler :=
  { σ with
    timers := cancelHandle σ.renderTimeout σ.timers ++ [σ.nextId]
    renderTimeout := some σ.nextId
    nextId := σ.nextId + 1 }

/-- The callback given to `setTimeout`: cancel the requested frame, if any, and
request a new one for `renderJulia`. -/
def timeoutCallback (σ : Scheduler) : Scheduler :=
  { σ with
    frames := cancelHandle σ.renderRequestId σ.frames ++ [σ.nextId]
    renderRequestId := some σ.nextId
    nextId := σ.nextId + 1 }

/-- The events of the scheduler: a handler writes to `state` and calls
`scheduleJuliaRender`; a live timer fires; a live animation frame runs. -/
inductive SchedEvent where
  | change (write : State → State)
  | timerFires (id : Nat)
  | frameFires (id : Nat)

/-- One event.  Firing a handle that is not live does nothing. -/
def schedStep (logLog : ℚ → ℚ) (σ : Scheduler) : SchedEvent → Scheduler
  | SchedEvent.change write => scheduleJuliaRender { σ with app := write σ.app }
  | SchedEvent.timerFires id =>
    if id ∈ σ.timers then timeoutCallback { σ with timers := σ.timers.erase id } else σ
  | SchedEvent.frameFires id =>
    if id ∈ σ.frames then
      { σ with
        frames := σ.frames.erase id
        renders := σ.renders ++ [σ.app]
        app := (renderJulia logLog σ.app σ.canvasWidth σ.canvasHeight).state }
    else σ

/-- A sequence of events. -/
def schedRun (logLog : ℚ → ℚ) (events : List SchedEvent) (σ : Scheduler) : Scheduler :=
  events.foldl (schedStep logLog) σ

/-- The number of pending renders: live debounce timers plus requested
animation frames. -/
def pendingRenders (σ : Scheduler) : Nat := σ.timers.length + σ.frames.length

/-- The scheduler invariant: at most one live timer, which is the one in
`renderTimeout`; at most one requested frame, which is the one in
`renderRequestId`; handles are positive. -/
def SchedInv (σ : Scheduler) : Prop :=
  (σ.timers = [] ∨ ∃ t, t ≠ 0 ∧ σ.timers = [t] ∧ σ.renderTimeout = some t) ∧
    (σ.frames = [] ∨ ∃ f, f ≠ 0 ∧ σ.frames = [f] ∧ σ.renderRequestId = some f) ∧
    σ.nextId ≠ 0

/-- The `state` object after the writes of a sequence of handlers. -/
def applyWrites (writes : List (State → State)) (app : State) : State :=
  writes.foldl (fun a w => w a) app

/-- The values `a` and `b` agree within the relative tolerance `1e-9`. -/
def WithinRelTol (a b : ℚ) : Prop := |a - b| ≤ (1 / 1000000000) * |b|

/-! ## The escape-time loop in IEEE double arithmetic

The loop of `renderJulia` again, now with every arithmetic operation rounded
as JavaScript does it: to the nearest binary64 number, ties to even.  All
binary64 numbers are rationals, so the rounding is a function on `ℚ`.
Overflow to `Infinity` is outside this model; the values used below stay
far from it. -/

/-- The power `2^k` for an integer exponent. -/
def twoPow (k : Int) : ℚ :=
  if 0 ≤ k then ((2 ^ k.toNat : Nat) : ℚ) else 1 / ((2 ^ (-k).toNat : Nat) : ℚ)

/-- Halving `n` until it is below `2`, counting the steps (at most `fuel`). -/
def halvings : Nat → Nat → Nat
  | 0, _ => 0
  | fuel + 1, n => if 2 ≤ n then halvings fuel (n / 2) + 1 else 0

/-- The position of the leading bit of `n`: `⌊log₂ n⌋` for `n > 0`. -/
def floorLog2 (n : Nat) : Nat := halvings n n

/-- The binary exponent of a positive rational `a`: the `e` with
`2^e ≤ a < 2^(e+1)`.  The difference `k` of the leading-bit positions of
numerator and denominator is `e` or `e + 1`. -/
def binaryExponent (a : ℚ) : Int :=
  let k : Int := (floorLog2 a.num.natAbs : Int) - (floorLog2 a.den : Int)
  if twoPow k ≤ a then k else k - 1

/-- Rounding to the nearest integer, ties to the even one. -/
def roundHalfEven (m : ℚ) : Int :=
  let f := ⌊m⌋
  let r := m - (f : ℚ)
  if r < 1 / 2 then f
  else if 1 / 2 < r then f + 1
  else if f % 2 = 0 then f else f + 1

/-- Rounding to binary64: 53 significant bits, so one unit in the last place
of `x` is `2^(e - 52)` where `e` is the binary exponent of `|x|` (and never
below `2^(-1074)`, the subnormal spacing). -/
def fl64 (x : ℚ) : ℚ :=
  if x = 0 then 0
  else
    let a := if x < 0 then -x else x
    let ulp := twoPow (max (binaryExponent a - 52) (-1074))
    let r := (roundHalfEven (a / ulp) : ℚ) * ulp
    if x < 0 then -r else r

/-- The body of the `while` loop of `renderJulia` with every operation rounded:
`newZr = zrSq - ziSq + cReal`, `ziCur = 2.0 * zrCur * ziCur + cImag`,
`zrSq = zrCur * zrCur`, `ziSq = ziCur * ziCur`, `iter++`. -/
def escapeBodyF64 (cReal cImag : ℚ) (s : EscState) : EscState :=
  let newZr := fl64 (fl64 (s.zrSq - s.ziSq) + cReal)
  let ziCur := fl64 (fl64 (fl64 (2 * s.zrCur) * s.ziCur) + cImag)
  let zrCur := newZr
  { zrCur := zrCur, ziCur := ziCur, zrSq := fl64 (zrCur * zrCur),
    ziSq := fl64 (ziCur * ziCur), iter := s.iter + 1 }

/-- The loop `while (zrSq + ziSq <= 4.0 && iter < maxIter)` in double
arithmetic, unrolled at most `fuel` times. -/
def escapeLoopF64 (cReal cImag : ℚ) (maxIter : Nat) : Nat → EscState → EscState
  | 0, s => s
  | fuel + 1, s =>
    if fl64 (s.zrSq + s.ziSq) ≤ 4 ∧ s.iter < maxIter then
      escapeLoopF64 cReal cImag maxIter fuel (escapeBodyF64 cReal cImag s)
    else s

/-- The pixel loop of `renderJulia` in double arithmetic for the start point
`(zr, zi)`, a pair of binary64 numbers.  The loop runs at most `maxIter` times
(`iter` counts them), so `maxIter` unrollings are all of it. -/
def juliaPixelF64 (cReal cImag : ℚ) (maxIter : Nat) (zr zi : ℚ) : EscState :=
  escapeLoopF64 cReal cImag maxIter maxIter
    { zrCur := zr, ziCur := zi, zrSq := fl64 (zr * zr), ziSq := fl64 (zi * zi), iter := 0 }

/-- A start point within rounding distance of the unit circle, inside the
closed unit disk: the binary64 numbers `0.9999124487923244` and
`0.013232337289274018`. -/
def nearCircleRe : ℚ := 9006410663568465 / 9007199254740992

/-- The imaginary part of the start point `nearCircleRe + i * nearCircleIm`. -/
def nearCircleIm : ℚ := 953490388563443 / 72057594037927936

/-- Truncation towards zero. -/
def truncQ (x : ℚ) : Int := if 0 ≤ x then ⌊x⌋ else ⌈x⌉

/-! ## Comparing the 256-entry and the 1024-entry lookup table -/

/-- The largest channel difference between two samples as they are stored in
a lookup table; `256` when one of them is not a colour. -/
def channelGap (a b : Sampled) : Nat :=
  match a, b with
  | Sampled.rgb x, Sampled.rgb y =>
    max (max (((toUint8 x.r : Nat) : Int) - ((toUint8 y.r : Nat) : Int)).natAbs
        (((toUint8 x.g : Nat) : Int) - ((toUint8 y.g : Nat) : Int)).natAbs)
      (((toUint8 x.b : Nat) : Int) - ((toUint8 y.b : Nat) : Int)).natAbs
  | _, _ => 256

/-- The channel gap between slot `j` of the 1024-entry table and slot `j / 4`
of the 256-entry table, the two slots that one nominal `t` selects. -/
def slotGap (palette : List Stop) (j : Nat) : Nat :=
  channelGap (sampleAtSlot palette 256 (j / 4)) (sampleAtSlot palette 1024 j)

/-- A stop whose position is written as a fraction `num / den`. -/
structure FracStop where
  num : Int
  den : Nat
  color : Color

/-- The stop that a `FracStop` stands for. -/
def FracStop.toStop (s : FracStop) : Stop :=
  { pos := (s.num : ℚ) / (s.den : ℚ), color := s.color }

/-- The value `Math.round(a + (b - a) * (N / D))` for `D > 0`, in integer
arithmetic. -/
def lerpChannelInt (a b N D : Int) : Int :=
  (2 * a * D + 2 * (b - a) * N + D) / (2 * D)

/-- The function `interpolate` at `t = i / n`, in integer arithmetic. -/
def interpolateInt (s0 s1 : FracStop) (i n : Nat) : Sampled :=
  if s1.num * (s0.den : Int) - s0.num * (s1.den : Int) = 0 then Sampled.nan
  else
    let N := ((i : Int) * (s0.den : Int) - s0.num * (n : Int)) * (s1.den : Int)
    let D := (n : Int) * (s1.num * (s0.den : Int) - s0.num * (s1.den : Int))
    Sampled.rgb
      { r := lerpChannelInt s0.color.r s1.color.r N D
        g := lerpChannelInt s0.color.g s1.color.g N D
        b := lerpChannelInt s0.color.b s1.color.b N D }

/-- The function `sampleLoop` at `t = i / n`, in integer arithmetic. -/
def sampleLoopInt (lastColor : Color) : List FracStop → Nat → Nat → Sampled
  | s0 :: s1 :: rest, i, n =>
    if s0.num * (n : Int) ≤ (i : Int) * (s0.den : Int) ∧
        (i : Int) * (s1.den : Int) ≤ s1.num * (n : Int) then
      interpolateInt s0 s1 i n
    else sampleLoopInt lastColor (s1 :: rest) i n
  | _, _, _ => Sampled.rgb lastColor

/-- The function `samplePalette` at `t = i / n`, in integer arithmetic. -/
def samplePaletteInt (stops : List FracStop) (i n : Nat) : Sampled :=
  match stops.head?, stops.getLast? with
  | some first, some last =>
    if (i : Int) * (first.den : Int) ≤ first.num * (n : Int) then Sampled.rgb first.color
    else if last.num * (n : Int) ≤ (i : Int) * (last.den : Int) then Sampled.rgb last.color
    else sampleLoopInt last.color stops i n
  | _, _ => Sampled.typeError

/-- The function `slotGap` in integer arithmetic. -/
def slotGapInt (stops : List FracStop) (j : Nat) : Nat :=
  channelGap (samplePaletteInt stops (j / 4) 255) (samplePaletteInt stops j 1023)

/-- The stops of `inferno` with their positions as fractions. -/
def infernoFrac : List FracStop :=
  [ { num := 0, den := 1, color := ⟨0, 0, 0⟩ },
    { num := 25, den := 100, color := ⟨80, 18, 123⟩ },
    { num := 5, den := 10, color := ⟨187, 55, 84⟩ },
    { num := 75, den := 100, color := ⟨249, 142, 9⟩ },
    { num := 1, den := 1, color := ⟨252, 255, 164⟩ } ]

/-- The stops of `crimsonNight` with their positions as fractions. -/
def crimsonNightFrac : List FracStop :=
  [ { num := 0, den := 1, color := ⟨0, 0, 0⟩ },
    { num := 3, den := 10, color := ⟨100, 0, 0⟩ },
    { num := 6, den := 10, color := ⟨200, 20, 20⟩ },
    { num := 85, den := 100, color := ⟨255, 60, 40⟩ },
    { num := 1, den := 1, color := ⟨255, 200, 200⟩ } ]

/-- The stops of `iceFire` with their positions as fractions. -/
def iceFireFrac : List FracStop :=
  [ { num := 0, den := 1, color := ⟨5, 5, 40⟩ },
    { num := 3, den := 10, color := ⟨15, 80, 120⟩ },
    { num := 5, den := 10, color := ⟨30, 180, 170⟩ },
    { num := 75, den := 100, color := ⟨240, 140, 20⟩ },
    { num := 1, den := 1, color := ⟨220, 30, 10⟩ } ]

/-- The stops of `monochrome` with their positions as fractions. -/
def monochromeFrac : List FracStop :=
  [ { num := 0, den := 1, color := ⟨0, 0, 0⟩ },
    { num := 5, den := 10, color := ⟨128, 128, 128⟩ },
    { num := 1, den := 1, color := ⟨255, 255, 255⟩ } ]

/-- The stops of `neonAbyss` with their positions as fractions. -/
def neonAbyssFrac : List FracStop :=
  [ { num := 0, den := 1, color := ⟨0, 0, 0⟩ },
    { num := 3, den := 10, color := ⟨60, 0, 120⟩ },
    { num := 6, den := 10, color := ⟨30, 60, 220⟩ },
    { num := 1, den := 1, color := ⟨0, 240, 255⟩ } ]

/-- The stops of `goldVein` with their positions as fractions. -/
def goldVeinFrac : List FracStop :=
  [ { num := 0, den := 1, color := ⟨0, 0, 0⟩ },
    { num := 3, den := 10, color := ⟨60, 30, 5⟩ },
    { num := 65, den := 100, color := ⟨200, 160, 30⟩ },
    { num := 1, den := 1, color := ⟨255, 255, 230⟩ } ]

/-- The largest gap per built-in palette. -/
def lutGapBound (key : String) : Nat :=
  if key = "crimson-night" then 3 else if key = "monochrome" then 1 else 2

/-! ## Palette sampling, viewport and navigator in IEEE double arithmetic

The remaining arithmetic of the program with every operation rounded to
binary64 (`fl64`).  The arguments are binary64 numbers (rationals that `fl64`
leaves unchanged); comparisons and `Math.round` are exact on them. -/

/-- One channel of the interpolation branch in double arithmetic:
`Math.round(a + (b - a) * localT)` with the difference, the product and the sum
rounded to binary64; `Math.round` is exact on the double it is given. -/
def lerpChannelF64 (a b : Int) (localT : ℚ) : Int :=
  mathRound (fl64 ((a : ℚ) + fl64 (fl64 ((b : ℚ) - (a : ℚ)) * localT)))

/-- The body of the `if` inside the loop of `samplePalette` in double
arithmetic: `localT = (t - stops[i].pos) / (stops[i + 1].pos - stops[i].pos)`
with both differences and the quotient rounded.  The difference of two doubles
is `0` only when they are equal, and then `localT` is `0 / 0 = NaN`. -/
def interpolateF64 (s0 s1 : Stop) (t : ℚ) : Sampled :=
  if fl64 (s1.pos - s0.pos) = 0 then Sampled.nan
  else
    let localT := fl64 (fl64 (t - s0.pos) / fl64 (s1.pos - s0.pos))
    Sampled.rgb
      { r := lerpChannelF64 s0.color.r s1.color.r localT
        g := lerpChannelF64 s0.color.g s1.color.g localT
        b := lerpChannelF64 s0.color.b s1.color.b localT }

/-- The `for` loop of `samplePalette` in double arithmetic. -/
def sampleLoopF64 (lastColor : Color) : List Stop → ℚ → Sampled
  | s0 :: s1 :: rest, t =>
    if s0.pos ≤ t ∧ t ≤ s1.pos then interpolateF64 s0 s1 t
    else sampleLoopF64 lastColor (s1 :: rest) t
  | _, _ => Sampled.rgb lastColor

/-- The function `samplePalette(stops, t)` in double arithmetic, for stops with
binary64 positions and a binary64 number `t`. -/
def samplePaletteF64 (stops : List Stop) (t : ℚ) : Sampled :=
  match stops.head?, stops.getLast? with
  | some first, some last =>
    if t ≤ first.pos then Sampled.rgb first.color
    else if last.pos ≤ t then Sampled.rgb last.color
    else sampleLoopF64 last.color stops t
  | _, _ => Sampled.typeError

/-- The plane point `(zr, zi)` of pixel `(px, py)` in `renderJulia` in double
arithmetic: `aspectRatio = width / height`, `halfW = 2.0 / zoom`,
`halfH = halfW / aspectRatio`, the four bounds, `dx = (xMax - xMin) / width`,
`dy = (yMax - yMin) / height`, `zr = xMin + px * dx`, `zi = yMin + py * dy`,
each operation rounded. -/
def juliaPlanePointF64 (s : State) (width height px py : Nat) : ℚ × ℚ :=
  let aspectRatio := fl64 ((width : ℚ) / (height : ℚ))
  let halfW := fl64 (2 / s.zoom)
  let halfH := fl64 (halfW / aspectRatio)
  let xMin := fl64 (s.panX - halfW)
  let xMax := fl64 (s.panX + halfW)
  let yMin := fl64 (s.panY - halfH)
  let yMax := fl64 (s.panY + halfH)
  let dx := fl64 (fl64 (xMax - xMin) / (width : ℚ))
  let dy := fl64 (fl64 (yMax - yMin) / (height : ℚ))
  (fl64 (xMin + fl64 ((px : ℚ) * dx)), fl64 (yMin + fl64 ((py : ℚ) * dy)))

/-- The number `parseFloat(x.toFixed(4))` for a double `x`: `toFixed` rounds
the exact value of `x` to four decimals, `parseFloat` takes the double nearest
to that decimal. -/
def roundTo4F64 (x : ℚ) : ℚ := fl64 (roundTo4 x)

/-- The writes of `handleMandelbrotClick` in double arithmetic; the bounds are
the doubles nearest to `-2.2`, `0.8`, `-1.2` and `1.2`. -/
def handleMandelbrotClickF64 (px py : ℚ) (w h : Nat) (s : State) : State :=
  let xMin : ℚ := fl64 (-22 / 10)
  let xMax : ℚ := fl64 (8 / 10)
  let yMin : ℚ := fl64 (-12 / 10)
  let yMax : ℚ := fl64 (12 / 10)
  let cReal := fl64 (xMin + fl64 (fl64 (px / (w : ℚ)) * fl64 (xMax - xMin)))
  let cImag := fl64 (yMin + fl64 (fl64 (py / (h : ℚ)) * fl64 (yMax - yMin)))
  { s with cReal := roundTo4F64 cReal, cImag := roundTo4F64 cImag, activePreset := -1 }

/-- The pixel at which `drawMandelbrotCrosshair` draws the marker, in double
arithmetic. -/
def drawMandelbrotCrosshairF64 (s : State) (w h : Nat) : ℚ × ℚ :=
  let xMin : ℚ := fl64 (-22 / 10)
  let xMax : ℚ := fl64 (8 / 10)
  let yMin : ℚ := fl64 (-12 / 10)
  let yMax : ℚ := fl64 (12 / 10)
  (fl64 (fl64 (fl64 (s.cReal - xMin) / fl64 (xMax - xMin)) * (w : ℚ)),
    fl64 (fl64 (fl64 (s.cImag - yMin) / fl64 (yMax - yMin)) * (h : ℚ)))

/-! ## Sample inputs and specification predicates -/

/-- A valid palette whose stops all sit at position `1`: reachable in the custom
editor by dragging both stops of a two-stop gradient to 100%. -/
def allAtOne : List Stop :=
  [ { pos := 1, color := ⟨255, 0, 0⟩ }, { pos := 1, color := ⟨0, 0, 255⟩ } ]

/-- A sorted palette whose first two stops share a position. -/
def dupFront : List Stop :=
  [ { pos := 1 / 2, color := ⟨10, 20, 30⟩ }, { pos := 1 / 2, color := ⟨40, 50, 60⟩ },
    { pos := 1, color := ⟨70, 80, 90⟩ } ]

/-- The stop that the add-stop handler pushes. -/
def addedStop : Stop := { pos := 1 / 2, color := ⟨255, 0, 0⟩ }

/-- A state whose custom gradient has two stops. -/
def twoStopState : State :=
  { initialState with
    customStops := some [ { pos := 0, color := ⟨0, 0, 0⟩ }, { pos := 1, color := ⟨9, 9, 9⟩ } ] }

/-- The state after `initCustomStops` with the parameter set to `c = 0`. -/
def originState : State :=
  { initCustomStops initialState with cReal := 0, cImag := 0 }

/-- The state after `initCustomStops` with the parameter of the preset
"Douady's Rabbit", `maxIter = 200`, pan `(0, 0)` and zoom `1`. -/
def rabbitState : State :=
  { initCustomStops initialState with cReal := -1226 / 10000, cImag := 7449 / 10000 }

/-- Index `i` brackets `t`: `stops[i].pos ≤ t ≤ stops[i+1].pos`. -/
def Bracket (stops : List Stop) (t : ℚ) (i : Nat) : Prop :=
  ∃ a b, stops[i]? = some a ∧ stops[i + 1]? = some b ∧ a.pos ≤ t ∧ t ≤ b.pos

/-- Index `i` is the first index that brackets `t`. -/
def FirstBracket (stops : List Stop) (t : ℚ) (i : Nat) : Prop :=
  Bracket stops t i ∧ ∀ j, j < i → ¬ Bracket stops t j

/-- The exact linear interpolation between channel values `a` (at position
`pa`) and `b` (at position `pb`), evaluated at `t`. -/
def linearAt (a b : Int) (pa pb t : ℚ) : ℚ :=
  (a : ℚ) + ((b : ℚ) - (a : ℚ)) * ((t - pa) / (pb - pa))

/-- The integer `n` is `x` rounded to the nearest integer (ties upwards). -/
def IsRounding (n : Int) (x : ℚ) : Prop :=
  x - 1 / 2 < (n : ℚ) ∧ (n : ℚ) ≤ x + 1 / 2

/-- The integer `x` lies between `a` and `b`, in either order, inclusive. -/
def BetweenInt (x a b : Int) : Prop :=
  (a ≤ x ∧ x ≤ b) ∨ (b ≤ x ∧ x ≤ a)

/-- Channel-wise `BetweenInt`. -/
def Color.Between (c a b : Color) : Prop :=
  BetweenInt c.r a.r b.r ∧ BetweenInt c.g a.g b.g ∧ BetweenInt c.b a.b b.b

/-- The loop invariant of the pixel loop: `(zrCur, ziCur)` is the orbit point
number `iter`, the cached squares are up to date, `iter ≤ maxIter`, and every
earlier orbit point has squared modulus at most `4`. -/
def OrbitInv (cReal cImag zr zi : ℚ) (maxIter : Nat) (s : EscState) : Prop :=
  (s.zrCur, s.ziCur) = orbit cReal cImag zr zi s.iter ∧
    s.zrSq = s.zrCur * s.zrCur ∧ s.ziSq = s.ziCur * s.ziCur ∧ s.iter ≤ maxIter ∧
    ∀ k, k < s.iter → normSq (orbit cReal cImag zr zi k) ≤ 4

/-- The invariant for `c = 0` inside the closed unit disk. -/
def UnitDiskInv (maxIter : Nat) (s : EscState) : Prop :=
  s.zrSq = s.zrCur * s.zrCur ∧ s.ziSq = s.ziCur * s.ziCur ∧ s.zrSq + s.ziSq ≤ 1 ∧
    s.iter ≤ maxIter

/-- The sample point `0.0046875 - 2^(-60)`, a binary64 number in `[0, 1]`. -/
def nearTieT : ℚ := 5404319552844595 / 1152921504606846976

/-- The binary64 number nearest to `1.6`. -/
def edgeRe : ℚ := 3602879701896397 / 2251799813685248

/-- The binary64 number nearest to `-1.2`. -/
def edgeIm : ℚ := -5404319552844595 / 4503599627370496

/-- The binary64 number next below `edgeIm`, `-1.2000000000000002`. -/
def edgeImBelow : ℚ := -1351079888211149 / 1125899906842624

/-- The initial state as the program holds it: `c` is the pair of binary64
numbers nearest to `-0.7` and `0.27`. -/
def initialStateF64 : State :=
  { initialState with cReal := fl64 (-7 / 10), cImag := fl64 (27 / 100) }

/-- The initial state with the view dragged to the pan `(1.6, -1.2)`. -/
def pannedState : State :=
  { initialStateF64 with panX := edgeRe, panY := edgeIm }

/-! ## Lemmas on rounding and interpolation -/

theorem mathRound_isRounding (x : ℚ) : IsRounding (mathRound x) x := by
  unfold IsRounding mathRound
  constructor
  · have := Int.lt_floor_add_one (x + 1 / 2)
    linarith
  · exact Int.floor_le (x + 1 / 2)

theorem lerpChannel_between (a b : Int) (u : ℚ) (h0 : 0 ≤ u) (h1 : u ≤ 1) :
    BetweenInt (lerpChannel a b u) a b := by
  unfold BetweenInt lerpChannel mathRound
  rcases le_total a b with hab | hab
  · left
    have hq : (0 : ℚ) ≤ (b : ℚ) - (a : ℚ) := by
      have : (a : ℚ) ≤ (b : ℚ) := by exact_mod_cast hab
      linarith
    have hm : 0 ≤ ((b : ℚ) - (a : ℚ)) * u := mul_nonneg hq h0
    have hm1 : ((b : ℚ) - (a : ℚ)) * u ≤ (b : ℚ) - (a : ℚ) := by
      have := mul_le_mul_of_nonneg_left h1 hq
      simpa using this
    constructor
    · apply Int.le_floor.mpr
      linarith
    · have : ⌊(a : ℚ) + ((b : ℚ) - (a : ℚ)) * u + 1 / 2⌋ < b + 1 := by
        apply Int.floor_lt.mpr
        push_cast
        linarith
      omega
  · right
    have hq : (0 : ℚ) ≤ (a : ℚ) - (b : ℚ) := by
      have : (b : ℚ) ≤ (a : ℚ) := by exact_mod_cast hab
      linarith
    have hm : 0 ≤ ((a : ℚ) - (b : ℚ)) * u := mul_nonneg hq h0
    have hm1 : ((a : ℚ) - (b : ℚ)) * u ≤ (a : ℚ) - (b : ℚ) := by
      have := mul_le_mul_of_nonneg_left h1 hq
      simpa using this
    have he : ((b : ℚ) - (a : ℚ)) * u = -(((a : ℚ) - (b : ℚ)) * u) := by ring
    constructor
    · apply Int.le_floor.mpr
      rw [he]
      linarith
    · have : ⌊(a : ℚ) + ((b : ℚ) - (a : ℚ)) * u + 1 / 2⌋ < a + 1 := by
        apply Int.floor_lt.mpr
        push_cast
        rw [he]
        linarith
      omega

theorem betweenInt_range {x a b : Int} (h : BetweenInt x a b)
    (ha : 0 ≤ a ∧ a ≤ 255) (hb : 0 ≤ b ∧ b ≤ 255) : 0 ≤ x ∧ x ≤ 255 := by
  unfold BetweenInt at h
  omega

theorem betweenInt_left (a b : Int) : BetweenInt a a b := by
  unfold BetweenInt
  omega

theorem betweenInt_right (a b : Int) : BetweenInt b a b := by
  unfold BetweenInt
  omega

/-- With `s0.pos < t ≤ s1.pos` the interpolation branch divides by a positive
difference and returns the rounded linear interpolation, which lies between
the two stops' colours. -/
theorem interpolate_spec (s0 s1 : Stop) (t : ℚ) (h0 : s0.pos < t) (h1 : t ≤ s1.pos) :
    ∃ c, interpolate s0 s1 t = Sampled.rgb c ∧
      c.r = mathRound (linearAt s0.color.r s1.color.r s0.pos s1.pos t) ∧
      c.g = mathRound (linearAt s0.color.g s1.color.g s0.pos s1.pos t) ∧
      c.b = mathRound (linearAt s0.color.b s1.color.b s0.pos s1.pos t) ∧
      c.Between s0.color s1.color := by
  have hd : 0 < s1.pos - s0.pos := by linarith
  have hne : s1.pos - s0.pos ≠ 0 := ne_of_gt hd
  have hu0 : 0 ≤ (t - s0.pos) / (s1.pos - s0.pos) :=
    div_nonneg (by linarith) (le_of_lt hd)
  have hu1 : (t - s0.pos) / (s1.pos - s0.pos) ≤ 1 := by
    rw [div_le_one hd]
    linarith
  refine ⟨Color.mk
      (lerpChannel s0.color.r s1.color.r ((t - s0.pos) / (s1.pos - s0.pos)))
      (lerpChannel s0.color.g s1.color.g ((t - s0.pos) / (s1.pos - s0.pos)))
      (lerpChannel s0.color.b s1.color.b ((t - s0.pos) / (s1.pos - s0.pos))),
    ?_, rfl, rfl, rfl, ?_⟩
  · simp only [interpolate, if_neg hne]
  · exact ⟨lerpChannel_between _ _ _ hu0 hu1, lerpChannel_between _ _ _ hu0 hu1,
      lerpChannel_between _ _ _ hu0 hu1⟩

/-! ## The loop of `samplePalette` -/

/-- The loop entered at a stop with `s0.pos < t`, with `t` below the last
position: it returns from the first bracketing pair, that pair has
`a.pos < t ≤ b.pos`, and the statement after the loop is not reached. -/
theorem sampleLoop_spec (lc : Color) (t : ℚ) :
    ∀ (rest : List Stop) (s0 : Stop), s0.pos < t →
      (∀ last, (s0 :: rest).getLast? = some last → t < last.pos) →
      ∃ i a b, (s0 :: rest)[i]? = some a ∧ (s0 :: rest)[i + 1]? = some b ∧
        a.pos < t ∧ t ≤ b.pos ∧ (∀ j, j < i → ¬ Bracket (s0 :: rest) t j) ∧
        sampleLoop lc (s0 :: rest) t = interpolate a b t := by
  intro rest
  induction rest with
  | nil =>
    intro s0 h0 hl
    have := hl s0 (by simp)
    exact absurd this (not_lt.mpr (le_of_lt h0))
  | cons s1 rest ih =>
    intro s0 h0 hl
    by_cases h1 : t ≤ s1.pos
    · refine ⟨0, s0, s1, by simp, by simp, h0, h1, fun j hj => by omega, ?_⟩
      simp [sampleLoop, le_of_lt h0, h1]
    · have h1' : s1.pos < t := not_le.mp h1
      obtain ⟨i, a, b, ha, hb, hat, htb, hmin, hres⟩ := ih s1 h1' (by
        intro last hlast
        apply hl
        rw [List.getLast?_cons_cons]
        exact hlast)
      refine ⟨i + 1, a, b, by simpa using ha, by simpa using hb, hat, htb, ?_, ?_⟩
      · intro j hj
        cases j with
        | zero =>
          rintro ⟨a', b', _, hb', _, hb2⟩
          simp at hb'
          subst hb'
          exact h1 hb2
        | succ j =>
          rintro ⟨a', b', ha', hb', h2, h3⟩
          exact hmin j (by omega) ⟨a', b', by simpa using ha', by simpa using hb', h2, h3⟩
      · simp [sampleLoop, h1, hres]

/-- The three-way case split of `samplePalette` on a non-empty stop list. -/
theorem samplePalette_eq (stops : List Stop) (first last : Stop) (t : ℚ)
    (hf : stops.head? = some first) (hl : stops.getLast? = some last) :
    samplePalette stops t =
      if t ≤ first.pos then Sampled.rgb first.color
      else if last.pos ≤ t then Sampled.rgb last.color
      else sampleLoop last.color stops t := by
  simp [samplePalette, hf, hl]

/-- A list with at least two stops has a first and a last stop, at indices `0`
and `length - 1`, and a stop before the last at `length - 2`. -/
theorem ends_of_two_le (stops : List Stop) (h2 : 2 ≤ stops.length) :
    ∃ first second prev last rest, stops = first :: rest ∧
      stops.head? = some first ∧ stops.getLast? = some last ∧
      stops[0]? = some first ∧ stops[1]? = some second ∧
      stops[stops.length - 2]? = some prev ∧
      stops[stops.length - 2 + 1]? = some last := by
  match stops, h2 with
  | first :: second :: rest, _ =>
    have hlen : (first :: second :: rest).length - 2 + 1 =
        (first :: second :: rest).length - 1 := by simp
    have hp : (first :: second :: rest).length - 2 < (first :: second :: rest).length := by
      simp only [List.length_cons]
      omega
    refine ⟨first, second, (first :: second :: rest)[(first :: second :: rest).length - 2],
      (first :: second :: rest).getLast (by simp), second :: rest, rfl, rfl,
      List.getLast?_eq_getLast _ _, rfl, by simp, List.getElem?_eq_getElem hp, ?_⟩
    rw [hlen, ← List.getLast?_eq_getElem?]
    exact List.getLast?_eq_getLast _ _

theorem sorted_getElem_opt {stops : List Stop} (hs : SortedStops stops) {i j : Nat}
    {a b : Stop} (ha : stops[i]? = some a) (hb : stops[j]? = some b) (hij : i < j) :
    a.pos ≤ b.pos := by
  obtain ⟨hi, rfl⟩ := List.getElem?_eq_some.mp ha
  obtain ⟨hj, rfl⟩ := List.getElem?_eq_some.mp hb
  exact (List.pairwise_iff_getElem.mp hs) i j hi hj hij

theorem crimsonNight_valid : ValidPalette crimsonNight := by
  refine ⟨by decide, ?_, ?_, ?_⟩
  · intro s hs
    simp only [crimsonNight, List.mem_cons, List.mem_singleton, List.not_mem_nil, or_false] at hs
    rcases hs with rfl | rfl | rfl | rfl | rfl <;> norm_num
  · simp only [SortedStops, crimsonNight, List.pairwise_cons, List.mem_cons, List.mem_singleton,
      List.not_mem_nil, forall_eq_or_imp, forall_eq, List.Pairwise.nil]
    norm_num
  · intro s hs
    simp only [crimsonNight, List.mem_cons, List.mem_singleton, List.not_mem_nil, or_false] at hs
    rcases hs with rfl | rfl | rfl | rfl | rfl <;> simp [Color.InRange]

/-! ## Sampling at and beyond the ends (C1, C2) -/

/-- C1: for every valid palette and every `t ≤ 0` (in particular `t = 0`),
`samplePalette` returns exactly the first stop's colour. -/
theorem samplePalette_le_zero (stops : List Stop) (t : ℚ) (hv : ValidPalette stops)
    (ht : t ≤ 0) :
    ∃ first, stops.head? = some first ∧
      samplePalette stops t = Sampled.rgb first.color := by
  obtain ⟨first, _, _, last, _, _, hf, hl, h0, _, _, _⟩ := ends_of_two_le stops hv.two_le
  refine ⟨first, hf, ?_⟩
  have hp := (hv.pos_range first (List.getElem?_mem h0)).1
  rw [samplePalette_eq stops first last t hf hl, if_pos (le_trans ht hp)]

theorem samplePalette_le_zero_witness :
    ValidPalette crimsonNight ∧ (0 : ℚ) ≤ 0 ∧
      ∃ first, crimsonNight.head? = some first ∧
        samplePalette crimsonNight 0 = Sampled.rgb first.color :=
  ⟨crimsonNight_valid, le_refl 0,
    samplePalette_le_zero crimsonNight 0 crimsonNight_valid (le_refl 0)⟩

theorem allAtOne_valid : ValidPalette allAtOne := by
  refine ⟨by decide, ?_, ?_, ?_⟩
  · intro s hs
    simp only [allAtOne, List.mem_cons, List.mem_singleton, List.not_mem_nil, or_false] at hs
    rcases hs with rfl | rfl <;> norm_num
  · simp [SortedStops, allAtOne]
  · intro s hs
    simp only [allAtOne, List.mem_cons, List.mem_singleton, List.not_mem_nil, or_false] at hs
    rcases hs with rfl | rfl <;> simp [Color.InRange]

/-- C2, as stated, fails: on the valid palette `allAtOne` at `t = 1` the first
guard `t <= stops[0].pos` fires and the first stop's colour is returned, which
is not the last stop's colour. -/
theorem samplePalette_one_not_last :
    ValidPalette allAtOne ∧ (1 : ℚ) ≤ 1 ∧
      allAtOne.getLast? = some { pos := 1, color := ⟨0, 0, 255⟩ } ∧
      samplePalette allAtOne 1 = Sampled.rgb ⟨255, 0, 0⟩ ∧
      samplePalette allAtOne 1 ≠ Sampled.rgb ⟨0, 0, 255⟩ := by
  refine ⟨allAtOne_valid, le_refl 1, rfl, ?_, ?_⟩
  · simp [samplePalette, allAtOne]
  · simp [samplePalette, allAtOne]

/-- C2, amended: for every valid palette and every `t ≥ 1`, `samplePalette`
returns exactly the last stop's colour whenever `t` lies strictly above the first
stop's position (always so when `t > 1` or the first position is below `1`);
when `t` does not (then `t = 1` and every stop sits at position `1`), it
returns the first stop's colour. -/
theorem samplePalette_ge_one (stops : List Stop) (t : ℚ) (hv : ValidPalette stops)
    (ht : 1 ≤ t) :
    ∃ first last, stops.head? = some first ∧ stops.getLast? = some last ∧
      (first.pos < t → samplePalette stops t = Sampled.rgb last.color) ∧
      (t ≤ first.pos → samplePalette stops t = Sampled.rgb first.color ∧
        t = 1 ∧ ∀ s ∈ stops, s.pos = 1) := by
  obtain ⟨first, _, _, last, rest, hst, hf, hl, h0, _, _, hlast⟩ :=
    ends_of_two_le stops hv.two_le
  refine ⟨first, last, hf, hl, ?_, ?_⟩
  · intro hlt
    have hp := (hv.pos_range last (List.getElem?_mem hlast)).2
    rw [samplePalette_eq stops first last t hf hl, if_neg (not_le.mpr hlt),
      if_pos (le_trans hp ht)]
  · intro hle
    have hp := (hv.pos_range first (List.getElem?_mem h0)).2
    have ht1 : t = 1 := le_antisymm (le_trans hle hp) ht
    refine ⟨?_, ht1, ?_⟩
    · rw [samplePalette_eq stops first last t hf hl, if_pos hle]
    · intro s hs
      have hs1 := (hv.pos_range s hs).2
      have hfs : first.pos ≤ s.pos := by
        subst hst
        rcases List.mem_cons.mp hs with rfl | hmem
        · exact le_refl _
        · exact (List.pairwise_cons.mp hv.sorted).1 s hmem
      linarith

theorem samplePalette_ge_one_witness :
    ValidPalette crimsonNight ∧ (1 : ℚ) ≤ 1 ∧
      ∃ first last, crimsonNight.head? = some first ∧
        crimsonNight.getLast? = some last ∧
        (first.pos < 1 → samplePalette crimsonNight 1 = Sampled.rgb last.color) ∧
        (1 ≤ first.pos → samplePalette crimsonNight 1 = Sampled.rgb first.color ∧
          (1 : ℚ) = 1 ∧ ∀ s ∈ crimsonNight, s.pos = 1) :=
  ⟨crimsonNight_valid, le_refl 1,
    samplePalette_ge_one crimsonNight 1 crimsonNight_valid (le_refl 1)⟩

/-! ## Interpolation between adjacent stops (C3, C4) -/

/-- For any list of at least two stops and any `t`, the sample is a colour
between two adjacent stops; strictly inside the position range it is the
rounded interpolation on the first bracketing pair, whose positions differ. -/
theorem samplePalette_adjacent (stops : List Stop) (t : ℚ) (h2 : 2 ≤ stops.length) :
    ∃ i a b c, stops[i]? = some a ∧ stops[i + 1]? = some b ∧
      samplePalette stops t = Sampled.rgb c ∧ c.Between a.color b.color ∧
      (∀ first last, stops.head? = some first → stops.getLast? = some last →
        first.pos < t → t < last.pos →
        FirstBracket stops t i ∧ a.pos < b.pos ∧
        c.r = mathRound (linearAt a.color.r b.color.r a.pos b.pos t) ∧
        c.g = mathRound (linearAt a.color.g b.color.g a.pos b.pos t) ∧
        c.b = mathRound (linearAt a.color.b b.color.b a.pos b.pos t)) := by
  obtain ⟨first, second, prev, last, rest, hst, hf, hl, h0, h1, hprev, hlast⟩ :=
    ends_of_two_le stops h2
  have heq := samplePalette_eq stops first last t hf hl
  by_cases hc1 : t ≤ first.pos
  · refine ⟨0, first, second, first.color, h0, h1, ?_, ?_, ?_⟩
    · rw [heq, if_pos hc1]
    · exact ⟨betweenInt_left _ _, betweenInt_left _ _, betweenInt_left _ _⟩
    · intro f l hf' _ hlt _
      rw [hf] at hf'
      cases hf'
      exact absurd hc1 (not_le.mpr hlt)
  · by_cases hc2 : last.pos ≤ t
    · refine ⟨stops.length - 2, prev, last, last.color, hprev, hlast, ?_, ?_, ?_⟩
      · rw [heq, if_neg hc1, if_pos hc2]
      · exact ⟨betweenInt_right _ _, betweenInt_right _ _, betweenInt_right _ _⟩
      · intro f l _ hl' _ hlt
        rw [hl] at hl'
        cases hl'
        exact absurd hc2 (not_le.mpr hlt)
    · have hlt1 : first.pos < t := not_le.mp hc1
      have hlt2 : t < last.pos := not_le.mp hc2
      subst hst
      obtain ⟨i, a, b, ha, hb, hat, htb, hmin, hres⟩ :=
        sampleLoop_spec last.color t rest first hlt1 (by
          intro l hl'
          rw [hl] at hl'
          cases hl'
          exact hlt2)
      obtain ⟨c, hc, hr, hg, hbl, hbet⟩ := interpolate_spec a b t hat htb
      refine ⟨i, a, b, c, ha, hb, ?_, hbet, ?_⟩
      · rw [heq, if_neg hc1, if_neg hc2, hres, hc]
      · intro _ _ _ _ _ _
        exact ⟨⟨⟨a, b, ha, hb, le_of_lt hat, htb⟩, hmin⟩, lt_of_lt_of_le hat htb,
          hr, hg, hbl⟩

/-- A colour between two in-range colours is in range. -/
theorem Color.Between.inRange {c a b : Color} (h : c.Between a b) (ha : a.InRange)
    (hb : b.InRange) : c.InRange :=
  ⟨betweenInt_range h.1 ha.1 hb.1, betweenInt_range h.2.1 ha.2.1 hb.2.1,
    betweenInt_range h.2.2 ha.2.2 hb.2.2⟩

/-- On a palette with at least two stops and channels in `0..255`, every sample
is a colour with channels in `0..255`. -/
theorem samplePalette_inRange (stops : List Stop) (t : ℚ) (h2 : 2 ≤ stops.length)
    (hch : ∀ s ∈ stops, s.color.InRange) :
    ∃ c, samplePalette stops t = Sampled.rgb c ∧ c.InRange := by
  obtain ⟨i, a, b, c, ha, hb, hc, hbet, _⟩ := samplePalette_adjacent stops t h2
  exact ⟨c, hc, hbet.inRange (hch a (List.getElem?_mem ha)) (hch b (List.getElem?_mem hb))⟩

/-- C3, amended: when `samplePalette` is evaluated in exact arithmetic, for
every valid palette and every `t` in `[0, 1]` there is an index `i` such that
each channel of `samplePalette stops t` lies between the corresponding channels
of `stops[i]` and `stops[i+1]`; when `t` is strictly between the first and the
last position, `i` is the first index with `stops[i].pos ≤ t ≤ stops[i+1].pos`
and each channel is the nearest-integer rounding of the linear interpolation
between the two stops; every returned channel is in `0..255`. -/
theorem samplePalette_between_adjacent (stops : List Stop) (t : ℚ)
    (hv : ValidPalette stops) (_h0 : 0 ≤ t) (_h1 : t ≤ 1) :
    ∃ i a b c, stops[i]? = some a ∧ stops[i + 1]? = some b ∧
      samplePalette stops t = Sampled.rgb c ∧ c.Between a.color b.color ∧ c.InRange ∧
      (∀ first last, stops.head? = some first → stops.getLast? = some last →
        first.pos < t → t < last.pos →
        FirstBracket stops t i ∧ a.pos ≠ b.pos ∧
        IsRounding c.r (linearAt a.color.r b.color.r a.pos b.pos t) ∧
        IsRounding c.g (linearAt a.color.g b.color.g a.pos b.pos t) ∧
        IsRounding c.b (linearAt a.color.b b.color.b a.pos b.pos t)) := by
  obtain ⟨i, a, b, c, ha, hb, hc, hbet, hin⟩ := samplePalette_adjacent stops t hv.two_le
  refine ⟨i, a, b, c, ha, hb, hc, hbet, ?_, ?_⟩
  · exact hbet.inRange (hv.channels a (List.getElem?_mem ha))
      (hv.channels b (List.getElem?_mem hb))
  · intro first last hf hl hlt1 hlt2
    obtain ⟨hfb, hab, hr, hg, hbl⟩ := hin first last hf hl hlt1 hlt2
    refine ⟨hfb, ne_of_lt hab, ?_, ?_, ?_⟩
    · rw [hr]
      exact mathRound_isRounding _
    · rw [hg]
      exact mathRound_isRounding _
    · rw [hbl]
      exact mathRound_isRounding _

/-- C4: on every palette with at least two stops sorted ascending (duplicate
positions allowed) and every `t` (a number, or NaN), `samplePalette` returns a
colour: it never takes the `0/0` branch, so no channel is NaN; and whenever the
first bracketing pair has equal positions, the colour of the first stop of that
pair is returned. -/
theorem samplePalette_no_zero_division (stops : List Stop) (t : ℚ)
    (h2 : 2 ≤ stops.length) (hs : SortedStops stops) :
    (∃ c, samplePalette stops t = Sampled.rgb c) ∧
      samplePalette stops t ≠ Sampled.nan ∧
      (∃ c, samplePaletteNaN stops = Sampled.rgb c) ∧
      (∀ i a b, stops[i]? = some a → stops[i + 1]? = some b →
        FirstBracket stops t i → a.pos = b.pos →
        samplePalette stops t = Sampled.rgb a.color) := by
  obtain ⟨_, _, _, c, _, _, hc, _, _⟩ := samplePalette_adjacent stops t h2
  refine ⟨⟨c, hc⟩, by rw [hc]; exact fun h => Sampled.noConfusion h, ?_, ?_⟩
  · obtain ⟨_, _, _, last, _, _, hf, hl, _⟩ := ends_of_two_le stops h2
    exact ⟨last.color, by simp [samplePaletteNaN, hf, hl]⟩
  intro i a b ha hb hfb hab
  obtain ⟨⟨a', b', ha', hb', hat, htb⟩, hmin⟩ := hfb
  rw [ha] at ha'
  rw [hb] at hb'
  cases ha'
  cases hb'
  have hta : t = a.pos := le_antisymm (hab ▸ htb) hat
  obtain ⟨first, _, _, last, _, _, hf, hl, h0, _, _, _⟩ := ends_of_two_le stops h2
  cases i with
  | zero =>
    have hfa : first = a := by
      rw [h0] at ha
      exact Option.some.inj ha
    rw [samplePalette_eq stops first last t hf hl, hfa, if_pos (le_of_eq hta)]
  | succ j =>
    exfalso
    have hj : j < stops.length := by
      obtain ⟨hlt, _⟩ := List.getElem?_eq_some.mp ha
      omega
    have hp : stops[j]? = some stops[j] := List.getElem?_eq_getElem hj
    have hle := sorted_getElem_opt hs hp ha (Nat.lt_succ_self j)
    exact hmin j (Nat.lt_succ_self j) ⟨stops[j], a, hp, ha, hta ▸ hle, le_of_eq hta⟩

theorem samplePalette_between_adjacent_witness :
    ValidPalette crimsonNight ∧ (0 : ℚ) ≤ 1 / 2 ∧ (1 / 2 : ℚ) ≤ 1 ∧
      ∃ i a b c, crimsonNight[i]? = some a ∧ crimsonNight[i + 1]? = some b ∧
        samplePalette crimsonNight (1 / 2) = Sampled.rgb c ∧
        c.Between a.color b.color ∧ c.InRange ∧
        (∀ first last, crimsonNight.head? = some first →
          crimsonNight.getLast? = some last → first.pos < 1 / 2 → 1 / 2 < last.pos →
          FirstBracket crimsonNight (1 / 2) i ∧ a.pos ≠ b.pos ∧
          IsRounding c.r (linearAt a.color.r b.color.r a.pos b.pos (1 / 2)) ∧
          IsRounding c.g (linearAt a.color.g b.color.g a.pos b.pos (1 / 2)) ∧
          IsRounding c.b (linearAt a.color.b b.color.b a.pos b.pos (1 / 2))) :=
  ⟨crimsonNight_valid, by norm_num, by norm_num,
    samplePalette_between_adjacent crimsonNight (1 / 2) crimsonNight_valid
      (by norm_num) (by norm_num)⟩

theorem samplePalette_no_zero_division_witness :
    2 ≤ dupFront.length ∧ SortedStops dupFront ∧
      (∃ c, samplePalette dupFront (1 / 2) = Sampled.rgb c) ∧
      samplePalette dupFront (1 / 2) ≠ Sampled.nan ∧
      (∃ c, samplePaletteNaN dupFront = Sampled.rgb c) ∧
      (∀ i a b, dupFront[i]? = some a → dupFront[i + 1]? = some b →
        FirstBracket dupFront (1 / 2) i → a.pos = b.pos →
        samplePalette dupFront (1 / 2) = Sampled.rgb a.color) :=
  ⟨by decide, by simp [SortedStops, dupFront]; norm_num,
    samplePalette_no_zero_division dupFront (1 / 2) (by decide)
      (by simp [SortedStops, dupFront]; norm_num)⟩

/-! ## The lookup table (C5) -/

theorem lutWrite_length (lut : List Nat) (i r g b : Nat) :
    (lutWrite lut i r g b).length = lut.length := by
  simp [lutWrite]

theorem lutWrite_get_other (lut : List Nat) (i j d r g b : Nat) (hij : j ≠ i)
    (hd : d < 3) : (lutWrite lut i r g b)[j * 3 + d]? = lut[j * 3 + d]? := by
  unfold lutWrite
  rw [List.getElem?_set_ne (by omega), List.getElem?_set_ne (by omega),
    List.getElem?_set_ne (by omega)]

theorem lutWrite_get_self (lut : List Nat) (i r g b : Nat)
    (h : i * 3 + 2 < lut.length) :
    (lutWrite lut i r g b)[i * 3]? = some r ∧
      (lutWrite lut i r g b)[i * 3 + 1]? = some g ∧
      (lutWrite lut i r g b)[i * 3 + 2]? = some b := by
  unfold lutWrite
  refine ⟨?_, ?_, ?_⟩
  · rw [List.getElem?_set_ne (by omega), List.getElem?_set_ne (by omega),
      List.getElem?_set, if_pos rfl, if_pos (by omega)]
  · rw [List.getElem?_set_ne (by omega), List.getElem?_set, if_pos rfl,
      if_pos (by rw [List.length_set]; omega)]
  · rw [List.getElem?_set, if_pos rfl,
      if_pos (by rw [List.length_set, List.length_set]; omega)]

/-- Loop invariant of `buildColorLUT`: after the slots below `k` have been
processed, no exception was thrown, the table still has `size * 3` elements and
every processed slot holds the three channels of its sample. -/
theorem buildColorLUT_prefix (palette : List Stop) (size : Nat)
    (hs : ∀ i, i < size → ∃ c, sampleAtSlot palette size i = Sampled.rgb c) :
    ∀ k, k ≤ size → ∃ lut,
      (List.range k).foldl (lutStep palette size) (some (List.replicate (size * 3) 0)) =
        some lut ∧ lut.length = size * 3 ∧
      ∀ i, i < k → ∃ c, sampleAtSlot palette size i = Sampled.rgb c ∧
        lut[i * 3]? = some (toUint8 c.r) ∧ lut[i * 3 + 1]? = some (toUint8 c.g) ∧
        lut[i * 3 + 2]? = some (toUint8 c.b) := by
  intro k
  induction k with
  | zero =>
    intro _
    exact ⟨List.replicate (size * 3) 0, rfl, by simp, fun i hi => absurd hi (Nat.not_lt_zero i)⟩
  | succ k ih =>
    intro hk
    obtain ⟨lut, hfold, hlen, hslots⟩ := ih (by omega)
    obtain ⟨c, hc⟩ := hs k (by omega)
    refine ⟨lutWrite lut k (toUint8 c.r) (toUint8 c.g) (toUint8 c.b), ?_, ?_, ?_⟩
    · rw [List.range_succ, List.foldl_append, hfold]
      simp [lutStep, hc]
    · rw [lutWrite_length, hlen]
    · intro i hi
      by_cases hik : i = k
      · subst hik
        obtain ⟨h0, h1, h2⟩ :=
          lutWrite_get_self lut i (toUint8 c.r) (toUint8 c.g) (toUint8 c.b)
            (by omega)
        exact ⟨c, hc, h0, h1, h2⟩
      · obtain ⟨c', hc', h0, h1, h2⟩ := hslots i (by omega)
        refine ⟨c', hc', ?_, ?_, ?_⟩
        · have := lutWrite_get_other lut k i 0 (toUint8 c.r) (toUint8 c.g)
            (toUint8 c.b) hik (by omega)
          rw [Nat.add_zero] at this
          rw [this, h0]
        · rw [lutWrite_get_other lut k i 1 _ _ _ hik (by omega), h1]
        · rw [lutWrite_get_other lut k i 2 _ _ _ hik (by omega), h2]

theorem toUint8_of_range {v : Int} (h : 0 ≤ v ∧ v ≤ 255) : ((toUint8 v : Nat) : Int) = v := by
  unfold toUint8
  have : v % 256 = v := Int.emod_eq_of_lt h.1 (by omega)
  rw [this]
  exact Int.toNat_of_nonneg h.1

/-- C5: for every valid palette and every `size ≥ 2`, `buildColorLUT` returns a
table of length `3 * size` whose triple at every index `i < size` equals
`samplePalette(palette, i / (size - 1))`; in particular the triple at index `0`
equals `samplePalette(palette, 0)` and the triple at index `size - 1` equals
`samplePalette(palette, 1)`. -/
theorem buildColorLUT_spec (palette : List Stop) (size : Nat) (hv : ValidPalette palette)
    (hsize : 2 ≤ size) :
    ∃ lut, buildColorLUT palette size = some lut ∧ lut.length = 3 * size ∧
      (∀ i, i < size → ∃ r g b : Nat,
        lut[3 * i]? = some r ∧ lut[3 * i + 1]? = some g ∧ lut[3 * i + 2]? = some b ∧
        samplePalette palette ((i : ℚ) / ((size : ℚ) - 1)) = Sampled.rgb ⟨r, g, b⟩) ∧
      (∃ r g b : Nat, lut[0]? = some r ∧ lut[1]? = some g ∧ lut[2]? = some b ∧
        samplePalette palette 0 = Sampled.rgb ⟨r, g, b⟩) ∧
      (∃ r g b : Nat, lut[3 * (size - 1)]? = some r ∧ lut[3 * (size - 1) + 1]? = some g ∧
        lut[3 * (size - 1) + 2]? = some b ∧
        samplePalette palette 1 = Sampled.rgb ⟨r, g, b⟩) := by
  have hne : size ≠ 1 := by omega
  have hslot : ∀ i, sampleAtSlot palette size i =
      samplePalette palette ((i : ℚ) / ((size : ℚ) - 1)) := by
    intro i
    simp [sampleAtSlot, hne]
  have hs : ∀ i, i < size → ∃ c, sampleAtSlot palette size i = Sampled.rgb c := by
    intro i _
    obtain ⟨c, hc, _⟩ := samplePalette_inRange palette ((i : ℚ) / ((size : ℚ) - 1))
      hv.two_le hv.channels
    exact ⟨c, by rw [hslot, hc]⟩
  obtain ⟨lut, hfold, hlen, hslots⟩ := buildColorLUT_prefix palette size hs size (le_refl _)
  have hall : ∀ i, i < size → ∃ r g b : Nat,
      lut[3 * i]? = some r ∧ lut[3 * i + 1]? = some g ∧ lut[3 * i + 2]? = some b ∧
      samplePalette palette ((i : ℚ) / ((size : ℚ) - 1)) = Sampled.rgb ⟨r, g, b⟩ := by
    intro i hi
    obtain ⟨c, hc, h0, h1, h2⟩ := hslots i hi
    obtain ⟨c', hc', hin⟩ := samplePalette_inRange palette ((i : ℚ) / ((size : ℚ) - 1))
      hv.two_le hv.channels
    rw [hslot, hc'] at hc
    cases hc
    refine ⟨toUint8 c.r, toUint8 c.g, toUint8 c.b, ?_, ?_, ?_, ?_⟩
    · rw [Nat.mul_comm, h0]
    · rw [Nat.mul_comm, h1]
    · rw [Nat.mul_comm, h2]
    · rw [hc', toUint8_of_range hin.1, toUint8_of_range hin.2.1, toUint8_of_range hin.2.2]
  refine ⟨lut, hfold, by rw [hlen, Nat.mul_comm], hall, ?_, ?_⟩
  · obtain ⟨r, g, b, h0, h1, h2, hsm⟩ := hall 0 (by omega)
    refine ⟨r, g, b, by simpa using h0, by simpa using h1, by simpa using h2, ?_⟩
    simpa using hsm
  · obtain ⟨r, g, b, h0, h1, h2, hsm⟩ := hall (size - 1) (by omega)
    refine ⟨r, g, b, h0, h1, h2, ?_⟩
    have hq : (((size - 1 : Nat) : ℚ)) / ((size : ℚ) - 1) = 1 := by
      have h1le : 1 ≤ size := by omega
      rw [Nat.cast_sub h1le, Nat.cast_one]
      have : (size : ℚ) - 1 ≠ 0 := by
        have : (2 : ℚ) ≤ (size : ℚ) := by exact_mod_cast hsize
        intro h0
        linarith
      exact div_self this
    rw [hq] at hsm
    exact hsm

theorem buildColorLUT_spec_witness :
    ValidPalette crimsonNight ∧ 2 ≤ 4 ∧
    ∃ lut, buildColorLUT crimsonNight 4 = some lut ∧ lut.length = 3 * 4 ∧
      (∀ i : Nat, i < 4 → ∃ r g b : Nat,
        lut[3 * i]? = some r ∧ lut[3 * i + 1]? = some g ∧ lut[3 * i + 2]? = some b ∧
        samplePalette crimsonNight ((i : ℚ) / (((4 : Nat) : ℚ) - 1)) =
          Sampled.rgb ⟨r, g, b⟩) ∧
      (∃ r g b : Nat, lut[0]? = some r ∧ lut[1]? = some g ∧ lut[2]? = some b ∧
        samplePalette crimsonNight 0 = Sampled.rgb ⟨r, g, b⟩) ∧
      (∃ r g b : Nat, lut[3 * (4 - 1)]? = some r ∧ lut[3 * (4 - 1) + 1]? = some g ∧
        lut[3 * (4 - 1) + 2]? = some b ∧
        samplePalette crimsonNight 1 = Sampled.rgb ⟨r, g, b⟩) :=
  ⟨crimsonNight_valid, by decide, buildColorLUT_spec crimsonNight 4 crimsonNight_valid (by decide)⟩

/-! ## The custom gradient editor (C6, C7) -/

theorem deepCopyPalette_eq (palette : List Stop) : deepCopyPalette palette = palette := by
  unfold deepCopyPalette
  induction palette with
  | nil => rfl
  | cons s rest ih => rw [List.map_cons, ih]

theorem sortStops_sorted (stops : List Stop) : SortedStops (sortStops stops) :=
  List.sorted_insertionSort Stop.posLe stops

theorem sortStops_length (stops : List Stop) : (sortStops stops).length = stops.length :=
  List.length_insertionSort Stop.posLe stops

theorem sortStops_perm (stops : List Stop) : (sortStops stops).Perm stops :=
  List.perm_insertionSort Stop.posLe stops

/-- Every built-in palette is sorted and has between 2 and 5 stops. -/
theorem PALETTES_shape (key : String) (p : List Stop) (h : PALETTES key = some p) :
    SortedStops p ∧ 2 ≤ p.length ∧ p.length ≤ 5 := by
  unfold PALETTES at h
  split_ifs at h <;> cases h
  · refine ⟨?_, by decide, by decide⟩
    simp only [SortedStops, inferno, List.pairwise_cons, List.mem_cons, List.mem_singleton,
      List.not_mem_nil, forall_eq_or_imp, forall_eq, List.Pairwise.nil]
    norm_num
  · refine ⟨?_, by decide, by decide⟩
    simp only [SortedStops, crimsonNight, List.pairwise_cons, List.mem_cons,
      List.mem_singleton, List.not_mem_nil, forall_eq_or_imp, forall_eq, List.Pairwise.nil]
    norm_num
  · refine ⟨?_, by decide, by decide⟩
    simp only [SortedStops, iceFire, List.pairwise_cons, List.mem_cons, List.mem_singleton,
      List.not_mem_nil, forall_eq_or_imp, forall_eq, List.Pairwise.nil]
    norm_num
  · refine ⟨?_, by decide, by decide⟩
    simp only [SortedStops, monochrome, List.pairwise_cons, List.mem_cons,
      List.mem_singleton, List.not_mem_nil, forall_eq_or_imp, forall_eq, List.Pairwise.nil]
    norm_num
  · refine ⟨?_, by decide, by decide⟩
    simp only [SortedStops, neonAbyss, List.pairwise_cons, List.mem_cons, List.mem_singleton,
      List.not_mem_nil, forall_eq_or_imp, forall_eq, List.Pairwise.nil]
    norm_num
  · refine ⟨?_, by decide, by decide⟩
    simp only [SortedStops, goldVein, List.pairwise_cons, List.mem_cons, List.mem_singleton,
      List.not_mem_nil, forall_eq_or_imp, forall_eq, List.Pairwise.nil]
    norm_num

/-- Replacing the colour of the stop at index `i` keeps the positions. -/
theorem sorted_set_color (stops : List Stop) (i : Nat) (stop : Stop) (c : Color)
    (hi : stops[i]? = some stop) (hs : SortedStops stops) :
    SortedStops (stops.set i { stop with color := c }) := by
  obtain ⟨hlt, hget⟩ := List.getElem?_eq_some.mp hi
  have hmap : (stops.set i { stop with color := c }).map Stop.pos = stops.map Stop.pos := by
    rw [List.map_set]
    have : (stops.map Stop.pos)[i]? = some stop.pos := by
      rw [List.getElem?_map, hi]
      rfl
    apply List.ext_getElem?
    intro j
    by_cases hij : i = j
    · subst hij
      rw [List.getElem?_set, if_pos rfl, if_pos (by simpa using hlt), this]
    · rw [List.getElem?_set_ne hij]
  have key : ∀ l : List Stop, SortedStops l ↔ (l.map Stop.pos).Pairwise (fun x y => x ≤ y) := by
    intro l
    unfold SortedStops
    rw [List.pairwise_map]
  rw [key, hmap, ← key]
  exact hs

theorem init_customInv : CustomInv (initCustomStops initialState) := by
  refine ⟨crimsonNight, ?_, crimsonNight_valid.sorted, by decide, by decide⟩
  simp [initCustomStops, deepCopyPalette_eq]

/-- Every handler preserves the custom-palette invariant. -/
theorem applyEdit_customInv (s : State) (e : Edit) (h : CustomInv s) :
    CustomInv (applyEdit s e) := by
  obtain ⟨stops, hst, hsorted, h2, h5⟩ := h
  cases e with
  | add =>
    simp only [applyEdit, addStop, hst]
    split_ifs with hlen
    · exact ⟨stops, hst, hsorted, h2, h5⟩
    · refine ⟨_, rfl, sortStops_sorted _, ?_, ?_⟩
      · rw [sortStops_length, List.length_append]
        simp only [List.length_singleton]
        omega
      · rw [sortStops_length, List.length_append]
        simp only [List.length_singleton]
        omega
  | remove i =>
    simp only [applyEdit, removeStop, hst]
    split_ifs with hi hlen
    · exact ⟨stops, hst, hsorted, h2, h5⟩
    · refine ⟨_, rfl, List.Pairwise.eraseIdx i hsorted, ?_, ?_⟩
      · rw [List.length_eraseIdx_of_lt hi]
        omega
      · rw [List.length_eraseIdx_of_lt hi]
        omega
    · exact ⟨stops, hst, hsorted, h2, h5⟩
  | move i k =>
    simp only [applyEdit, moveStop, hst]
    cases hget : stops[i]? with
    | none => exact ⟨stops, hst, hsorted, h2, h5⟩
    | some stop =>
      refine ⟨_, rfl, sortStops_sorted _, ?_, ?_⟩
      · rw [sortStops_length, List.length_set]
        exact h2
      · rw [sortStops_length, List.length_set]
        exact h5
  | recolor i c =>
    simp only [applyEdit, recolorStop, hst]
    cases hget : stops[i]? with
    | none => exact ⟨stops, hst, hsorted, h2, h5⟩
    | some stop =>
      refine ⟨_, rfl, sorted_set_color stops i stop c hget hsorted, ?_, ?_⟩
      · rw [List.length_set]
        exact h2
      · rw [List.length_set]
        exact h5
  | select key =>
    simp only [applyEdit, selectPalette]
    split_ifs with hk
    · cases hp : PALETTES key with
      | none => exact ⟨stops, hst, hsorted, h2, h5⟩
      | some p =>
        obtain ⟨hs, hp2, hp5⟩ := PALETTES_shape key p hp
        exact ⟨p, by simp [deepCopyPalette_eq], hs, hp2, hp5⟩
    · exact ⟨stops, hst, hsorted, h2, h5⟩

theorem foldl_customInv (edits : List Edit) :
    ∀ s, CustomInv s → CustomInv (edits.foldl applyEdit s) := by
  induction edits with
  | nil => exact fun s h => h
  | cons e rest ih => exact fun s h => ih (applyEdit s e) (applyEdit_customInv s e h)

/-- C6: starting from `initCustomStops`, after every sequence of custom-gradient
operations (add stop, remove stop, move stop to a position `k/100` with `k` in
`0..100`, recolor stop, select a palette), `state.customStops` is sorted
ascending by position and contains at least 2 and at most 5 stops. -/
theorem customStops_invariant (edits : List Edit) :
    ∃ stops, (runEdits edits).customStops = some stops ∧ SortedStops stops ∧
      2 ≤ stops.length ∧ stops.length ≤ 5 :=
  foldl_customInv edits (initCustomStops initialState) init_customInv

/-- C7: add-stop on a custom palette that already has 5 stops, and remove-stop
on a custom palette that has exactly 2 stops, leave the whole application state
unchanged; on a palette with fewer than 5 stops, add-stop inserts exactly one
stop with position `0.5` and colour `(255, 0, 0)`, keeps all previous stops,
and switches the selected palette to `'custom'`. -/
theorem blocked_edits_noop (s : State) (stops : List Stop)
    (h : s.customStops = some stops) :
    (stops.length = 5 → addStop s = s) ∧
      (stops.length = 2 → ∀ i, removeStop i s = s) ∧
      (stops.length < 5 → ∃ stops', (addStop s).customStops = some stops' ∧
        stops'.Perm (addedStop :: stops) ∧ stops'.length = stops.length + 1 ∧
        (addStop s).palette = "custom") := by
  refine ⟨?_, ?_, ?_⟩
  · intro h5
    simp [addStop, h, h5]
  · intro h2 i
    simp only [removeStop, h]
    split_ifs with hi hlen
    · rfl
    · omega
    · rfl
  · intro hlt
    have hge : ¬ stops.length ≥ 5 := by omega
    refine ⟨sortStops (stops ++ [addedStop]), ?_, ?_, ?_, ?_⟩
    · simp only [addStop, h, if_neg hge, addedStop]
    · exact (sortStops_perm _).trans (List.perm_append_singleton addedStop stops)
    · rw [sortStops_length, List.length_append]
      rfl
    · simp only [addStop, h, if_neg hge]

theorem blocked_edits_noop_witness :
    addStop (initCustomStops initialState) = initCustomStops initialState ∧
      (∀ i, removeStop i twoStopState = twoStopState) ∧
      (∃ stops', (addStop twoStopState).customStops = some stops' ∧
        stops'.Perm [addedStop, { pos := 0, color := ⟨0, 0, 0⟩ },
          { pos := 1, color := ⟨9, 9, 9⟩ }] ∧
        stops'.length = 2 + 1 ∧ (addStop twoStopState).palette = "custom") :=
  ⟨(blocked_edits_noop (initCustomStops initialState) (deepCopyPalette crimsonNight) rfl).1
      (by decide),
    (blocked_edits_noop twoStopState _ rfl).2.1 (by decide),
    (blocked_edits_noop twoStopState _ rfl).2.2 (by decide)⟩

/-! ## The escape-time loop (C8, C9, C10) -/

theorem escapeLoop_exit (cReal cImag : ℚ) (maxIter : Nat) (s : EscState)
    (h : ¬ (s.zrSq + s.ziSq ≤ 4 ∧ s.iter < maxIter)) :
    escapeLoop cReal cImag maxIter s = s := by
  rw [escapeLoop, if_neg h]

theorem escapeLoop_step (cReal cImag : ℚ) (maxIter : Nat) (s : EscState)
    (h : s.zrSq + s.ziSq ≤ 4 ∧ s.iter < maxIter) :
    escapeLoop cReal cImag maxIter s =
      escapeLoop cReal cImag maxIter (escapeBody cReal cImag s) := by
  rw [escapeLoop, if_pos h]

/-- Invariant rule for the `while` loop: a property that holds on entry and is
kept by every iteration taken holds on exit, and the loop test is false there. -/
theorem escapeLoop_invariant (cReal cImag : ℚ) (maxIter : Nat) (P : EscState → Prop)
    (hstep : ∀ s, P s → s.zrSq + s.ziSq ≤ 4 → s.iter < maxIter →
      P (escapeBody cReal cImag s)) :
    ∀ (n : Nat) (s : EscState), maxIter - s.iter = n → P s →
      P (escapeLoop cReal cImag maxIter s) ∧
      ¬ ((escapeLoop cReal cImag maxIter s).zrSq + (escapeLoop cReal cImag maxIter s).ziSq ≤ 4 ∧
        (escapeLoop cReal cImag maxIter s).iter < maxIter) := by
  intro n
  induction n with
  | zero =>
    intro s hn hP
    have hc : ¬ (s.zrSq + s.ziSq ≤ 4 ∧ s.iter < maxIter) := by
      intro hc
      omega
    rw [escapeLoop_exit _ _ _ _ hc]
    exact ⟨hP, hc⟩
  | succ n ih =>
    intro s hn hP
    by_cases hc : s.zrSq + s.ziSq ≤ 4 ∧ s.iter < maxIter
    · rw [escapeLoop_step _ _ _ _ hc]
      apply ih
      · simp only [escapeBody]
        omega
      · exact hstep s hP hc.1 hc.2
    · rw [escapeLoop_exit _ _ _ _ hc]
      exact ⟨hP, hc⟩

theorem orbitInv_step (cReal cImag zr zi : ℚ) (maxIter : Nat) (s : EscState)
    (h : OrbitInv cReal cImag zr zi maxIter s) (h4 : s.zrSq + s.ziSq ≤ 4)
    (hlt : s.iter < maxIter) :
    OrbitInv cReal cImag zr zi maxIter (escapeBody cReal cImag s) := by
  obtain ⟨horb, hr, hi, _, hprev⟩ := h
  refine ⟨?_, rfl, rfl, hlt, ?_⟩
  · simp only [escapeBody, orbit, ← horb, hr, hi]
  · intro k hk
    simp only [escapeBody] at hk
    by_cases hks : k = s.iter
    · subst hks
      rw [← horb]
      simp only [normSq]
      rw [← hr, ← hi]
      exact h4
    · exact hprev k (by omega)

theorem juliaPixel_orbitInv (cReal cImag zr zi : ℚ) (maxIter : Nat) :
    OrbitInv cReal cImag zr zi maxIter (juliaPixel cReal cImag maxIter zr zi) ∧
      ¬ ((juliaPixel cReal cImag maxIter zr zi).zrSq +
          (juliaPixel cReal cImag maxIter zr zi).ziSq ≤ 4 ∧
        (juliaPixel cReal cImag maxIter zr zi).iter < maxIter) := by
  unfold juliaPixel
  apply escapeLoop_invariant cReal cImag maxIter (OrbitInv cReal cImag zr zi maxIter)
    (orbitInv_step cReal cImag zr zi maxIter) (maxIter - 0) _ rfl
  exact ⟨rfl, rfl, rfl, Nat.zero_le _, fun k hk => absurd hk (Nat.not_lt_zero k)⟩

/-- C8, amended: when the pixel loop is evaluated in exact arithmetic, for
every parameter `c`, start point `z0` and `maxIter ≥ 0` it terminates (it is a
total function and its test is false in the returned state) with
`0 ≤ iter ≤ maxIter`, with `|z_k|² ≤ 4` for every `k < iter` along the orbit
`z_{k+1} = z_k² + c`, `z_0 = z0`, with the final `z` equal to `z_iter`, and, if
`iter < maxIter`, with `|z_iter|² > 4`, so that the modulus exceeds `2` and
`log(modulus)` is positive. -/
theorem juliaPixel_postcondition (cReal cImag zr zi : ℚ) (maxIter : Nat) :
    ∃ r, juliaPixel cReal cImag maxIter zr zi = r ∧
      0 ≤ r.iter ∧ r.iter ≤ maxIter ∧
      (r.zrCur, r.ziCur) = orbit cReal cImag zr zi r.iter ∧
      (∀ k, k < r.iter → normSq (orbit cReal cImag zr zi k) ≤ 4) ∧
      (r.iter < maxIter →
        4 < normSq (orbit cReal cImag zr zi r.iter) ∧ 4 < r.zrSq + r.ziSq ∧
        2 < Real.sqrt ((r.zrSq + r.ziSq : ℚ) : ℝ) ∧
        0 < Real.log (Real.sqrt ((r.zrSq + r.ziSq : ℚ) : ℝ))) ∧
      ¬ (r.zrSq + r.ziSq ≤ 4 ∧ r.iter < maxIter) := by
  obtain ⟨⟨horb, hr, hi, hle, hprev⟩, hexit⟩ :=
    juliaPixel_orbitInv cReal cImag zr zi maxIter
  refine ⟨_, rfl, Nat.zero_le _, hle, horb, hprev, ?_, hexit⟩
  intro hlt
  have h4 : 4 < (juliaPixel cReal cImag maxIter zr zi).zrSq +
      (juliaPixel cReal cImag maxIter zr zi).ziSq := by
    by_contra hcon
    exact hexit ⟨not_lt.mp hcon, hlt⟩
  have h4r : (4 : ℝ) < (((juliaPixel cReal cImag maxIter zr zi).zrSq +
      (juliaPixel cReal cImag maxIter zr zi).ziSq : ℚ) : ℝ) := by
    exact_mod_cast h4
  have hsq : (2 : ℝ) < Real.sqrt (((juliaPixel cReal cImag maxIter zr zi).zrSq +
      (juliaPixel cReal cImag maxIter zr zi).ziSq : ℚ) : ℝ) := by
    apply Real.lt_sqrt_of_sq_lt
    calc (2 : ℝ) ^ 2 = 4 := by norm_num
      _ < _ := h4r
  refine ⟨?_, h4, hsq, Real.log_pos (by linarith)⟩
  rw [← horb]
  simp only [normSq]
  rw [← hr, ← hi]
  exact h4

theorem juliaPixel_postcondition_witness :
    ∃ r, juliaPixel 0 0 2 2 0 = r ∧
      0 ≤ r.iter ∧ r.iter ≤ 2 ∧
      (r.zrCur, r.ziCur) = orbit 0 0 2 0 r.iter ∧
      (∀ k, k < r.iter → normSq (orbit 0 0 2 0 k) ≤ 4) ∧
      (r.iter < 2 →
        4 < normSq (orbit 0 0 2 0 r.iter) ∧ 4 < r.zrSq + r.ziSq ∧
        2 < Real.sqrt ((r.zrSq + r.ziSq : ℚ) : ℝ) ∧
        0 < Real.log (Real.sqrt ((r.zrSq + r.ziSq : ℚ) : ℝ))) ∧
      ¬ (r.zrSq + r.ziSq ≤ 4 ∧ r.iter < 2) :=
  juliaPixel_postcondition 0 0 2 0 2

/-- The run of the pixel loop for `c = 0`, `z0 = 2`, `maxIter = 2`: one
iteration is taken (`|z0|² = 4 ≤ 4`), then `z = 4` fails the test. -/
theorem juliaPixel_two : juliaPixel 0 0 2 2 0 =
    { zrCur := 4, ziCur := 0, zrSq := 16, ziSq := 0, iter := 1 } := by
  have h1 : escapeBody 0 0 { zrCur := 2, ziCur := 0, zrSq := 2 * 2, ziSq := 0 * 0, iter := 0 } =
      { zrCur := 4, ziCur := 0, zrSq := 16, ziSq := 0, iter := 1 } := by
    simp only [escapeBody]
    norm_num
  rw [juliaPixel, escapeLoop_step _ _ _ _ (by norm_num), h1,
    escapeLoop_exit _ _ _ _ (by norm_num)]

/-- C9, as stated, fails: for `c = 0`, `z0 = 2` (so `|z0| ≤ 2`) and
`maxIter = 2` the loop returns `iter = 1`, not `maxIter`. -/
theorem juliaPixel_radius_two_escapes :
    normSq ((2 : ℚ), (0 : ℚ)) ≤ 4 ∧ (juliaPixel 0 0 2 2 0).iter = 1 ∧
      (juliaPixel 0 0 2 2 0).iter ≠ 2 := by
  rw [juliaPixel_two]
  refine ⟨?_, rfl, by decide⟩
  simp only [normSq]
  norm_num

theorem unitDiskInv_step (maxIter : Nat) (s : EscState) (h : UnitDiskInv maxIter s)
    (_h4 : s.zrSq + s.ziSq ≤ 4) (hlt : s.iter < maxIter) :
    UnitDiskInv maxIter (escapeBody 0 0 s) := by
  obtain ⟨hr, hi, h1, _⟩ := h
  refine ⟨rfl, rfl, ?_, hlt⟩
  simp only [escapeBody, hr, hi]
  rw [hr, hi] at h1
  have h0 : 0 ≤ s.zrCur * s.zrCur + s.ziCur * s.ziCur :=
    add_nonneg (mul_self_nonneg _) (mul_self_nonneg _)
  have hsq : (s.zrCur * s.zrCur - s.ziCur * s.ziCur + 0) *
      (s.zrCur * s.zrCur - s.ziCur * s.ziCur + 0) +
      (2 * s.zrCur * s.ziCur + 0) * (2 * s.zrCur * s.ziCur + 0) =
      (s.zrCur * s.zrCur + s.ziCur * s.ziCur) * (s.zrCur * s.zrCur + s.ziCur * s.ziCur) := by
    ring
  rw [hsq]
  calc (s.zrCur * s.zrCur + s.ziCur * s.ziCur) * (s.zrCur * s.zrCur + s.ziCur * s.ziCur)
      ≤ 1 * 1 := mul_le_mul h1 h1 h0 (by norm_num)
    _ = 1 := by norm_num

/-- C9, amended: for `c = 0`, every start point `z0` with `|z0| ≤ 1` and every
iteration cap `maxIter ≥ 0`, the loop never escapes: it returns
`iter = maxIter`. -/
theorem juliaPixel_unit_disk_interior (zr zi : ℚ) (maxIter : Nat)
    (h : normSq (zr, zi) ≤ 1) : (juliaPixel 0 0 maxIter zr zi).iter = maxIter := by
  have key := escapeLoop_invariant 0 0 maxIter (UnitDiskInv maxIter)
    (unitDiskInv_step maxIter) (maxIter - 0)
    { zrCur := zr, ziCur := zi, zrSq := zr * zr, ziSq := zi * zi, iter := 0 } rfl
    ⟨rfl, rfl, h, Nat.zero_le _⟩
  obtain ⟨⟨_, _, h1, hle⟩, hexit⟩ := key
  unfold juliaPixel
  by_contra hne
  apply hexit
  exact ⟨by linarith, lt_of_le_of_ne hle hne⟩

theorem juliaPixel_unit_disk_interior_witness :
    normSq ((3 / 5 : ℚ), (4 / 5 : ℚ)) ≤ 1 ∧ (juliaPixel 0 0 50 (3 / 5) (4 / 5)).iter = 50 :=
  ⟨by simp only [normSq]; norm_num,
    juliaPixel_unit_disk_interior (3 / 5) (4 / 5) 50 (by simp only [normSq]; norm_num)⟩

/-- C10, as stated, fails: for `c = 0`, `z0 = 3` (so `|z0| > 2`) and
`maxIter = 2` the loop test is false at once and the returned count is `0`,
not `1`. -/
theorem juliaPixel_outside_not_one :
    4 < normSq ((3 : ℚ), (0 : ℚ)) ∧ 2 ≤ 2 ∧ (juliaPixel 0 0 2 3 0).iter = 0 ∧
      (juliaPixel 0 0 2 3 0).iter ≠ 1 := by
  have h : juliaPixel 0 0 2 3 0 =
      { zrCur := 3, ziCur := 0, zrSq := 3 * 3, ziSq := 0 * 0, iter := 0 } := by
    rw [juliaPixel, escapeLoop_exit _ _ _ _ (by norm_num)]
  rw [h]
  refine ⟨?_, le_refl 2, rfl, by decide⟩
  simp only [normSq]
  norm_num

/-- C10, amended: for `c = 0` (indeed for every `c`), every start point `z0`
with `|z0| > 2` and every iteration cap, the loop test fails before the first
iteration: no step of `z → z² + c` is executed and the returned iteration
count is `0`. -/
theorem juliaPixel_outside_zero (cReal cImag zr zi : ℚ) (maxIter : Nat)
    (h : 4 < normSq (zr, zi)) :
    (juliaPixel cReal cImag maxIter zr zi).iter = 0 ∧
      juliaPixel cReal cImag maxIter zr zi =
        { zrCur := zr, ziCur := zi, zrSq := zr * zr, ziSq := zi * zi, iter := 0 } := by
  have hc : ¬ ((zr * zr + zi * zi ≤ 4) ∧ 0 < maxIter) := by
    intro hc
    simp only [normSq] at h
    linarith [hc.1]
  have he : juliaPixel cReal cImag maxIter zr zi =
      { zrCur := zr, ziCur := zi, zrSq := zr * zr, ziSq := zi * zi, iter := 0 } := by
    rw [juliaPixel, escapeLoop_exit _ _ _ _ hc]
  rw [he]
  exact ⟨rfl, rfl⟩

theorem juliaPixel_outside_zero_witness :
    4 < normSq ((3 : ℚ), (0 : ℚ)) ∧ (juliaPixel 0 0 200 3 0).iter = 0 ∧
      juliaPixel 0 0 200 3 0 =
        { zrCur := 3, ziCur := 0, zrSq := 3 * 3, ziSq := 0 * 0, iter := 0 } :=
  ⟨by simp only [normSq]; norm_num,
    juliaPixel_outside_zero 0 0 3 0 200 (by simp only [normSq]; norm_num)⟩

/-! ## Pixel colouring (C11) -/

/-- Concatenating `n` chunks of equal length `m`: the length is `n * m` and
element `i * m + k` is element `k` of chunk `i`. -/
theorem flatMap_range_chunks {α : Type} (m : Nat) (f : Nat → List α)
    (hf : ∀ i, (f i).length = m) :
    ∀ n, ((List.range n).flatMap f).length = n * m ∧
      ∀ i k, i < n → k < m → ((List.range n).flatMap f)[i * m + k]? = (f i)[k]? := by
  intro n
  induction n with
  | zero => exact ⟨by simp, fun i k hi _ => absurd hi (Nat.not_lt_zero i)⟩
  | succ n ih =>
    obtain ⟨hlen, hget⟩ := ih
    rw [List.range_succ, List.flatMap_append, List.flatMap_singleton]
    constructor
    · rw [List.length_append, hlen, hf, Nat.succ_mul]
    · intro i k hi hk
      by_cases hin : i < n
      · have h1 : (i + 1) * m ≤ n * m := Nat.mul_le_mul_right m hin
        rw [Nat.succ_mul] at h1
        have h2 : i * m + k < ((List.range n).flatMap f).length := by
          rw [hlen]
          omega
        rw [List.getElem?_append_left h2]
        exact hget i k hin hk
      · have hi' : i = n := by omega
        subst hi'
        have h2 : ((List.range i).flatMap f).length ≤ i * m + k := by
          rw [hlen]
          omega
        rw [List.getElem?_append_right h2, hlen]
        congr 1
        omega

/-- The byte `k` of pixel `(px, py)` sits at index `(py * width + px) * 4 + k`
of the image, and the image has `width * height * 4` bytes. -/
theorem fillImage_get (width height : Nat) (pixel : Nat → Nat → List Nat)
    (hp : ∀ px py, (pixel px py).length = 4) :
    (fillImage width height pixel).length = width * height * 4 ∧
      ∀ px py k, px < width → py < height → k < 4 →
        (fillImage width height pixel)[(py * width + px) * 4 + k]? = (pixel px py)[k]? := by
  have hrow : ∀ py, ((List.range width).flatMap (fun px => pixel px py)).length = width * 4 :=
    fun py => (flatMap_range_chunks 4 (fun px => pixel px py) (fun px => hp px py) width).1
  have himg := flatMap_range_chunks (width * 4)
    (fun py => (List.range width).flatMap (fun px => pixel px py)) hrow height
  unfold fillImage
  constructor
  · rw [himg.1]
    ring
  · intro px py k hpx hpy hk
    have hidx : (py * width + px) * 4 + k = py * (width * 4) + (px * 4 + k) := by ring
    have hlt : px * 4 + k < width * 4 := by omega
    rw [hidx, himg.2 py (px * 4 + k) hpy hlt]
    exact (flatMap_range_chunks 4 (fun px => pixel px py) (fun px => hp px py) width).2
      px k hpx hk

theorem shadePixel_length (logLog : ℚ → ℚ) (lutSize : Nat) (colorLUT : List Nat)
    (maxIter iter : Nat) (zrSq ziSq : ℚ) :
    (shadePixel logLog lutSize colorLUT maxIter iter zrSq ziSq).length = 4 := by
  unfold shadePixel
  split_ifs <;> rfl

theorem shadePixel_interior (logLog : ℚ → ℚ) (lutSize : Nat) (colorLUT : List Nat)
    (maxIter : Nat) (zrSq ziSq : ℚ) :
    shadePixel logLog lutSize colorLUT maxIter maxIter zrSq ziSq = [5, 2, 2, 255] := by
  unfold shadePixel
  rw [if_pos rfl]

theorem shadePixel_alpha (logLog : ℚ → ℚ) (lutSize : Nat) (colorLUT : List Nat)
    (maxIter iter : Nat) (zrSq ziSq : ℚ) :
    (shadePixel logLog lutSize colorLUT maxIter iter zrSq ziSq)[3]? = some 255 := by
  unfold shadePixel
  split_ifs <;> rfl

/-- The bytes of one pixel in an image filled with `shadePixel` results. -/
theorem fillImage_shade (width height : Nat) (pixel : Nat → Nat → List Nat)
    (hp : ∀ px py, (pixel px py).length = 4) (px py : Nat) (hpx : px < width)
    (hpy : py < height) :
    ((pixel px py = [5, 2, 2, 255]) →
      (fillImage width height pixel)[(py * width + px) * 4]? = some 5 ∧
      (fillImage width height pixel)[(py * width + px) * 4 + 1]? = some 2 ∧
      (fillImage width height pixel)[(py * width + px) * 4 + 2]? = some 2 ∧
      (fillImage width height pixel)[(py * width + px) * 4 + 3]? = some 255) ∧
    ((pixel px py)[3]? = some 255 →
      (fillImage width height pixel)[(py * width + px) * 4 + 3]? = some 255) := by
  have hget := (fillImage_get width height pixel hp).2 px py
  constructor
  · intro h
    have h0 := hget 0 hpx hpy (by decide)
    have h1 := hget 1 hpx hpy (by decide)
    have h2 := hget 2 hpx hpy (by decide)
    have h3 := hget 3 hpx hpy (by decide)
    rw [h] at h0 h1 h2 h3
    rw [Nat.add_zero] at h0
    exact ⟨h0, h1, h2, h3⟩
  · intro h
    rw [hget 3 hpx hpy (by decide), h]

/-- On a palette with at least two stops, `buildColorLUT` with a size other
than `1` returns a table. -/
theorem buildColorLUT_some (palette : List Stop) (size : Nat) (h2 : 2 ≤ palette.length)
    (hsize : size ≠ 1) : ∃ lut, buildColorLUT palette size = some lut := by
  have hs : ∀ i, i < size → ∃ c, sampleAtSlot palette size i = Sampled.rgb c := by
    intro i _
    obtain ⟨_, _, _, c, _, _, hc, _⟩ :=
      samplePalette_adjacent palette ((i : ℚ) / ((size : ℚ) - 1)) h2
    exact ⟨c, by simp [sampleAtSlot, hsize, hc]⟩
  obtain ⟨lut, hfold, _⟩ := buildColorLUT_prefix palette size hs size (le_refl _)
  exact ⟨lut, hfold⟩

/-- For `c = 0` a loop state inside the closed unit disk runs to `maxIter`. -/
theorem escapeLoop_unit_disk (maxIter : Nat) (s : EscState) (h : UnitDiskInv maxIter s) :
    (escapeLoop 0 0 maxIter s).iter = maxIter := by
  obtain ⟨⟨_, _, h1, hle⟩, hexit⟩ := escapeLoop_invariant 0 0 maxIter (UnitDiskInv maxIter)
    (unitDiskInv_step maxIter) (maxIter - s.iter) s rfl h
  by_contra hne
  exact hexit ⟨by linarith, lt_of_le_of_ne hle hne⟩

/-- On a non-empty palette every sample at a number is a colour. -/
theorem samplePalette_rgb (stops : List Stop) (t : ℚ) (hne : stops ≠ []) :
    ∃ c, samplePalette stops t = Sampled.rgb c := by
  by_cases h2 : 2 ≤ stops.length
  · obtain ⟨_, _, _, c, _, _, hc, _⟩ := samplePalette_adjacent stops t h2
    exact ⟨c, hc⟩
  · match stops, hne, h2 with
    | [s], _, _ =>
      by_cases hle : t ≤ s.pos
      · exact ⟨s.color, by simp [samplePalette, hle]⟩
      · exact ⟨s.color, by simp [samplePalette, hle, le_of_lt (not_le.mp hle)]⟩
    | _ :: _ :: _, _, h2 => exact absurd (by simp) h2

/-- On a non-empty palette, `buildColorLUT` with a size other than `1` returns
a table: no exception is thrown. -/
theorem buildColorLUT_of_ne_nil (palette : List Stop) (size : Nat) (hne : palette ≠ [])
    (hsize : size ≠ 1) : ∃ lut, buildColorLUT palette size = some lut := by
  have hs : ∀ i, i < size → ∃ c, sampleAtSlot palette size i = Sampled.rgb c := by
    intro i _
    obtain ⟨c, hc⟩ := samplePalette_rgb palette ((i : ℚ) / ((size : ℚ) - 1)) hne
    exact ⟨c, by simp [sampleAtSlot, hsize, hc]⟩
  obtain ⟨lut, hfold, _⟩ := buildColorLUT_prefix palette size hs size (le_refl _)
  exact ⟨lut, hfold⟩

/-- On the empty palette `buildColorLUT` throws (reading `stops[0].pos` of
`undefined`), whatever the size of the table. -/
theorem buildColorLUT_nil (size : Nat) (hsize : 0 < size) : buildColorLUT [] size = none := by
  obtain ⟨k, rfl⟩ : ∃ k, size = k + 1 := ⟨size - 1, by omega⟩
  have hs : sampleAtSlot [] (k + 1) k = Sampled.typeError := by
    unfold sampleAtSlot
    split_ifs <;> rfl
  unfold buildColorLUT
  rw [List.range_succ, List.foldl_append]
  simp only [List.foldl_cons, List.foldl_nil]
  generalize (List.range k).foldl (lutStep [] (k + 1))
    (some (List.replicate ((k + 1) * 3) 0)) = acc
  cases acc with
  | none => rfl
  | some lut => simp only [lutStep, hs]

/-- C11: interior pixels always receive the fixed interior colour regardless of
palette: for every state whose active palette is not empty (with an empty one
`buildColorLUT` throws before any pixel is written), `renderJulia` on a canvas
of non-zero size, `renderJuliaThumbnail` and `renderMandelbrot` each produce an
image of `width * height * 4` bytes in which every pixel whose iteration count
equals `maxIter` holds the four bytes `(5, 2, 2, 255)`, and every pixel,
interior or not, has alpha `255`. -/
theorem interior_pixels_fixed_colour (logLog : ℚ → ℚ) (s : State)
    (hpal : getActivePalette s ≠ []) :
    (∀ width height, width ≠ 0 → height ≠ 0 →
      ∃ data, (renderJulia logLog s width height).image = some data ∧
        data.length = width * height * 4 ∧
        ∀ px py, px < width → py < height →
          ((juliaPixel s.cReal s.cImag s.maxIter (juliaPlanePoint s width height px py).1
              (juliaPlanePoint s width height px py).2).iter = s.maxIter →
            data[(py * width + px) * 4]? = some 5 ∧
            data[(py * width + px) * 4 + 1]? = some 2 ∧
            data[(py * width + px) * 4 + 2]? = some 2 ∧
            data[(py * width + px) * 4 + 3]? = some 255) ∧
          data[(py * width + px) * 4 + 3]? = some 255) ∧
    (∀ w h cReal cImag,
      ∃ data, renderJuliaThumbnail logLog s w h cReal cImag = some data ∧
        data.length = w * h * 4 ∧
        ∀ px py, px < w → py < h →
          ((juliaPixel cReal cImag 80 (thumbnailPlanePoint w h px py).1
              (thumbnailPlanePoint w h px py).2).iter = 80 →
            data[(py * w + px) * 4]? = some 5 ∧ data[(py * w + px) * 4 + 1]? = some 2 ∧
            data[(py * w + px) * 4 + 2]? = some 2 ∧
            data[(py * w + px) * 4 + 3]? = some 255) ∧
          data[(py * w + px) * 4 + 3]? = some 255) ∧
    (∀ w h,
      ∃ data, renderMandelbrot logLog s w h = some data ∧
        data.length = w * h * 4 ∧
        ∀ px py, px < w → py < h →
          ((mandelbrotPixel (mandelbrotPlanePoint w h px py).1
              (mandelbrotPlanePoint w h px py).2 100).iter = 100 →
            data[(py * w + px) * 4]? = some 5 ∧ data[(py * w + px) * 4 + 1]? = some 2 ∧
            data[(py * w + px) * 4 + 2]? = some 2 ∧
            data[(py * w + px) * 4 + 3]? = some 255) ∧
          data[(py * w + px) * 4 + 3]? = some 255) := by
  obtain ⟨lutBig, hbig⟩ := buildColorLUT_of_ne_nil (getActivePalette s) 1024 hpal (by decide)
  obtain ⟨lutSmall, hsmall⟩ := buildColorLUT_of_ne_nil (getActivePalette s) 256 hpal
    (by decide)
  refine ⟨?_, ?_, ?_⟩
  · intro width height hw hh
    refine ⟨fillImage width height (renderJuliaPixel logLog s lutBig width height), ?_,
      (fillImage_get width height _ (fun _ _ => shadePixel_length _ _ _ _ _ _ _)).1, ?_⟩
    · unfold renderJulia
      rw [if_neg (by simp [hw, hh]), hbig]
    · intro px py hpx hpy
      have hsh := fillImage_shade width height
        (renderJuliaPixel logLog s lutBig width height)
        (fun _ _ => shadePixel_length _ _ _ _ _ _ _) px py hpx hpy
      refine ⟨fun hiter => hsh.1 ?_, hsh.2 (shadePixel_alpha _ _ _ _ _ _ _)⟩
      simp only [renderJuliaPixel]
      rw [hiter]
      exact shadePixel_interior _ _ _ _ _ _
  · intro w h cReal cImag
    refine ⟨fillImage w h (renderJuliaThumbnailPixel logLog lutSmall cReal cImag w h), ?_,
      (fillImage_get w h _ (fun _ _ => shadePixel_length _ _ _ _ _ _ _)).1, ?_⟩
    · unfold renderJuliaThumbnail
      rw [hsmall]
    · intro px py hpx hpy
      have hsh := fillImage_shade w h
        (renderJuliaThumbnailPixel logLog lutSmall cReal cImag w h)
        (fun _ _ => shadePixel_length _ _ _ _ _ _ _) px py hpx hpy
      refine ⟨fun hiter => hsh.1 ?_, hsh.2 (shadePixel_alpha _ _ _ _ _ _ _)⟩
      simp only [renderJuliaThumbnailPixel]
      rw [hiter]
      exact shadePixel_interior _ _ _ _ _ _
  · intro w h
    refine ⟨fillImage w h (renderMandelbrotPixel logLog lutSmall w h), ?_,
      (fillImage_get w h _ (fun _ _ => shadePixel_length _ _ _ _ _ _ _)).1, ?_⟩
    · unfold renderMandelbrot
      rw [hsmall]
    · intro px py hpx hpy
      have hsh := fillImage_shade w h (renderMandelbrotPixel logLog lutSmall w h)
        (fun _ _ => shadePixel_length _ _ _ _ _ _ _) px py hpx hpy
      refine ⟨fun hiter => hsh.1 ?_, hsh.2 (shadePixel_alpha _ _ _ _ _ _ _)⟩
      simp only [renderMandelbrotPixel]
      rw [hiter]
      exact shadePixel_interior _ _ _ _ _ _

theorem originState_palette : getActivePalette originState = crimsonNight := by
  simp [getActivePalette, originState, initCustomStops, initialState, PALETTES]

theorem originState_centre : juliaPlanePoint originState 2 2 1 1 = (0, 0) := by
  simp only [juliaPlanePoint, originState, initCustomStops, initialState]
  norm_num

/-! ## The navigator round trip (C12) -/

/-- The digits of `toFixed(4)` from the two inequalities that define them. -/
theorem toFixed4Digits_eq (x : ℚ) (n : Nat) (h1 : (n : ℚ) ≤ |x| * 10000 + 1 / 2)
    (h2 : |x| * 10000 + 1 / 2 < (n : ℚ) + 1) : toFixed4Digits x = n := by
  unfold toFixed4Digits
  have hf : ⌊|x| * 10000 + 1 / 2⌋ = (n : Int) := by
    rw [Int.floor_eq_iff]
    constructor
    · exact_mod_cast h1
    · exact_mod_cast h2
  rw [hf]
  exact Int.toNat_natCast n

/-- Rounding to four decimals moves a number by at most `0.00005`. -/
theorem roundTo4_error (x : ℚ) : |roundTo4 x - x| ≤ 1 / 20000 := by
  have hnn : (0 : ℚ) ≤ |x| * 10000 + 1 / 2 := by
    have := abs_nonneg x
    linarith
  have hfl : (0 : Int) ≤ ⌊|x| * 10000 + 1 / 2⌋ := Int.floor_nonneg.mpr hnn
  have hcast : ((toFixed4Digits x : Nat) : ℚ) = ((⌊|x| * 10000 + 1 / 2⌋ : Int) : ℚ) := by
    unfold toFixed4Digits
    have : (((⌊|x| * 10000 + 1 / 2⌋).toNat : Nat) : Int) = ⌊|x| * 10000 + 1 / 2⌋ :=
      Int.toNat_of_nonneg hfl
    exact_mod_cast congrArg (fun z : Int => (z : ℚ)) this
  have hlo := Int.floor_le (|x| * 10000 + 1 / 2)
  have hhi := Int.lt_floor_add_one (|x| * 10000 + 1 / 2)
  unfold roundTo4
  rw [hcast]
  split_ifs with hneg
  · rw [abs_of_neg hneg] at hlo hhi ⊢
    rw [abs_le]
    constructor <;> linarith
  · rw [abs_of_nonneg (not_lt.mp hneg)] at hlo hhi ⊢
    rw [abs_le]
    constructor <;> linarith

/-- The navigator click followed by the crosshair mapping, for a click at
pixel `(px, py)`. -/
theorem roundTrip_eq (px py : ℚ) (w h : Nat) (s : State) (hw : 0 < w) (hh : 0 < h) :
    (drawMandelbrotCrosshair (handleMandelbrotClick px py w h s) w h).1 - px =
        (roundTo4 (-22 / 10 + px / (w : ℚ) * (8 / 10 - -22 / 10)) -
          (-22 / 10 + px / (w : ℚ) * (8 / 10 - -22 / 10))) / 3 * (w : ℚ) ∧
      (drawMandelbrotCrosshair (handleMandelbrotClick px py w h s) w h).2 - py =
        (roundTo4 (-12 / 10 + py / (h : ℚ) * (12 / 10 - -12 / 10)) -
          (-12 / 10 + py / (h : ℚ) * (12 / 10 - -12 / 10))) * (5 / 12) * (h : ℚ) := by
  have hw' : (w : ℚ) ≠ 0 := by exact_mod_cast (Nat.pos_iff_ne_zero.mp hw)
  have hh' : (h : ℚ) ≠ 0 := by exact_mod_cast (Nat.pos_iff_ne_zero.mp hh)
  simp only [drawMandelbrotCrosshair, handleMandelbrotClick]
  constructor
  · field_simp
    ring
  · field_simp
    ring

theorem roundTo4_click_x : roundTo4 (-701 / 320) = -21906 / 10000 := by
  have habs : |(-701 / 320 : ℚ)| = 701 / 320 := by
    rw [abs_of_neg (by norm_num)]
    norm_num
  have hd : toFixed4Digits (-701 / 320) = 21906 := by
    apply toFixed4Digits_eq
    · rw [habs]
      norm_num
    · rw [habs]
      norm_num
  unfold roundTo4
  rw [if_pos (by norm_num), hd]
  norm_num

/-- C12, as stated, fails: on a `320 × 240` canvas a click at pixel `(1, 1)`
gives `cReal = -2.190625`, stored as `-2.1906` by `toFixed(4)`, and the
crosshair maps it back to `px = 376/375 ≈ 1.00267`, which is not within the
relative tolerance `1e-9` of `1`. -/
theorem roundTrip_not_within_tolerance :
    0 < 320 ∧ 0 < 240 ∧ (0 : ℚ) ≤ 1 ∧ (1 : ℚ) ≤ 320 ∧ (1 : ℚ) ≤ 240 ∧
      (drawMandelbrotCrosshair (handleMandelbrotClick 1 1 320 240 initialState) 320 240).1 =
        376 / 375 ∧
      ¬ WithinRelTol
        (drawMandelbrotCrosshair (handleMandelbrotClick 1 1 320 240 initialState) 320 240).1
        1 := by
  have hx : (drawMandelbrotCrosshair (handleMandelbrotClick 1 1 320 240 initialState)
      320 240).1 = 376 / 375 := by
    simp only [drawMandelbrotCrosshair, handleMandelbrotClick]
    have hc : (-22 / 10 + (1 : ℚ) / ((320 : Nat) : ℚ) * (8 / 10 - -22 / 10)) = -701 / 320 := by
      norm_num
    rw [hc, roundTo4_click_x]
    norm_num
  refine ⟨by decide, by decide, by norm_num, by norm_num, by norm_num, hx, ?_⟩
  rw [hx]
  unfold WithinRelTol
  have h1 : |(376 / 375 : ℚ) - 1| = 1 / 375 := by
    rw [abs_of_nonneg (by norm_num)]
    norm_num
  rw [h1, abs_one]
  norm_num

/-- C12, amended: when both mappings are evaluated in exact arithmetic, for
every canvas size `w, h > 0` and every pixel `(px, py)`, mapping the clicked
pixel to a Julia parameter with `handleMandelbrotClick` (which rounds both
components to four decimals) and mapping that parameter back with the
crosshair formula yields a pixel within `w / 60000` of `px` and within
`h / 48000` of `py`. -/
theorem roundTrip_within_rounding (px py : ℚ) (w h : Nat) (s : State) (hw : 0 < w)
    (hh : 0 < h) :
    |(drawMandelbrotCrosshair (handleMandelbrotClick px py w h s) w h).1 - px| ≤
        (w : ℚ) / 60000 ∧
      |(drawMandelbrotCrosshair (handleMandelbrotClick px py w h s) w h).2 - py| ≤
        (h : ℚ) / 48000 := by
  obtain ⟨hx, hy⟩ := roundTrip_eq px py w h s hw hh
  have hwq : (0 : ℚ) < (w : ℚ) := by exact_mod_cast hw
  have hhq : (0 : ℚ) < (h : ℚ) := by exact_mod_cast hh
  constructor
  · rw [hx]
    have he := roundTo4_error (-22 / 10 + px / (w : ℚ) * (8 / 10 - -22 / 10))
    rw [abs_le] at he ⊢
    constructor
    · have := mul_le_mul_of_nonneg_right he.1 (le_of_lt hwq)
      linarith
    · have := mul_le_mul_of_nonneg_right he.2 (le_of_lt hwq)
      linarith
  · rw [hy]
    have he := roundTo4_error (-12 / 10 + py / (h : ℚ) * (12 / 10 - -12 / 10))
    rw [abs_le] at he ⊢
    constructor
    · have := mul_le_mul_of_nonneg_right he.1 (le_of_lt hhq)
      linarith
    · have := mul_le_mul_of_nonneg_right he.2 (le_of_lt hhq)
      linarith

theorem roundTrip_within_rounding_witness :
    0 < 320 ∧ 0 < 240 ∧
      |(drawMandelbrotCrosshair (handleMandelbrotClick 1 1 320 240 initialState) 320 240).1
          - 1| ≤ ((320 : Nat) : ℚ) / 60000 ∧
      |(drawMandelbrotCrosshair (handleMandelbrotClick 1 1 320 240 initialState) 320 240).2
          - 1| ≤ ((240 : Nat) : ℚ) / 48000 :=
  ⟨by decide, by decide,
    roundTrip_within_rounding 1 1 320 240 initialState (by decide) (by decide)⟩

/-! ## The render scheduler (C13, C14) -/

theorem cancelHandle_live (handle : Option Nat) (live : List Nat)
    (h : live = [] ∨ ∃ t, t ≠ 0 ∧ live = [t] ∧ handle = some t) :
    cancelHandle handle live = [] := by
  rcases h with h | ⟨t, ht, hl, hh⟩
  · subst h
    unfold cancelHandle
    cases handle with
    | none => rfl
    | some id => simp
  · subst hl hh
    simp [cancelHandle, ht]

theorem init_schedInv (app : State) (width height : Nat) :
    SchedInv (Scheduler.init app width height) :=
  ⟨Or.inl rfl, Or.inl rfl, Nat.succ_ne_zero 0⟩

theorem scheduleJuliaRender_spec (σ : Scheduler) (h : SchedInv σ) :
    SchedInv (scheduleJuliaRender σ) ∧ (scheduleJuliaRender σ).timers = [σ.nextId] ∧
      (scheduleJuliaRender σ).frames = σ.frames ∧
      (scheduleJuliaRender σ).renders = σ.renders ∧ (scheduleJuliaRender σ).app = σ.app := by
  obtain ⟨ht, hf, hn⟩ := h
  have hc := cancelHandle_live σ.renderTimeout σ.timers ht
  refine ⟨⟨Or.inr ⟨σ.nextId, hn, ?_, rfl⟩, hf, Nat.succ_ne_zero _⟩, ?_, rfl, rfl, rfl⟩
  · simp [scheduleJuliaRender, hc]
  · simp [scheduleJuliaRender, hc]

theorem timeoutCallback_spec (σ : Scheduler)
    (hf : σ.frames = [] ∨ ∃ f, f ≠ 0 ∧ σ.frames = [f] ∧ σ.renderRequestId = some f) :
    (timeoutCallback σ).frames = [σ.nextId] ∧
      (timeoutCallback σ).renderRequestId = some σ.nextId ∧
      (timeoutCallback σ).timers = σ.timers ∧
      (timeoutCallback σ).renderTimeout = σ.renderTimeout ∧
      (timeoutCallback σ).renders = σ.renders ∧ (timeoutCallback σ).app = σ.app ∧
      (timeoutCallback σ).nextId ≠ 0 := by
  have hc := cancelHandle_live σ.renderRequestId σ.frames hf
  refine ⟨?_, rfl, rfl, rfl, rfl, rfl, Nat.succ_ne_zero _⟩
  simp [timeoutCallback, hc]

/-- Every event keeps the scheduler invariant. -/
theorem schedStep_inv (logLog : ℚ → ℚ) (σ : Scheduler) (e : SchedEvent) (h : SchedInv σ) :
    SchedInv (schedStep logLog σ e) := by
  cases e with
  | change write =>
    exact (scheduleJuliaRender_spec { σ with app := write σ.app } h).1
  | timerFires id =>
    simp only [schedStep]
    split_ifs with hid
    · obtain ⟨ht, hf, hn⟩ := h
      have hsp := timeoutCallback_spec { σ with timers := σ.timers.erase id } hf
      obtain ⟨h1, h2, h3, _, _, _, h7⟩ := hsp
      refine ⟨Or.inl ?_, Or.inr ⟨σ.nextId, hn, h1, h2⟩, h7⟩
      rw [h3]
      rcases ht with ht | ⟨t, _, ht, _⟩
      · rw [ht] at hid
        cases hid
      · rw [ht] at hid ⊢
        have : id = t := by simpa using hid
        subst this
        simp
    · exact h
  | frameFires id =>
    simp only [schedStep]
    split_ifs with hid
    · obtain ⟨ht, hf, hn⟩ := h
      refine ⟨ht, Or.inl ?_, hn⟩
      rcases hf with hf | ⟨f, _, hf, _⟩
      · rw [hf] at hid
        cases hid
      · show σ.frames.erase id = []
        rw [hf] at hid ⊢
        have : id = f := by simpa using hid
        subst this
        simp
    · exact h

theorem schedRun_inv (logLog : ℚ → ℚ) (events : List SchedEvent) :
    ∀ σ, SchedInv σ → SchedInv (schedRun logLog events σ) := by
  induction events with
  | nil => exact fun σ h => h
  | cons e rest ih => exact fun σ h => ih (schedStep logLog σ e) (schedStep_inv logLog σ e h)

/-- A run of parameter changes only touches `state` and the debounce timer. -/
theorem schedRun_changes (logLog : ℚ → ℚ) (writes : List (State → State)) :
    ∀ σ, SchedInv σ →
      (schedRun logLog (writes.map SchedEvent.change) σ).frames = σ.frames ∧
      (schedRun logLog (writes.map SchedEvent.change) σ).renderRequestId =
        σ.renderRequestId ∧
      (schedRun logLog (writes.map SchedEvent.change) σ).renders = σ.renders ∧
      (schedRun logLog (writes.map SchedEvent.change) σ).app = applyWrites writes σ.app := by
  induction writes with
  | nil => exact fun σ _ => ⟨rfl, rfl, rfl, rfl⟩
  | cons w rest ih =>
    intro σ h
    have hstep := schedStep_inv logLog σ (SchedEvent.change w) h
    obtain ⟨h1, h2, h3, h4⟩ := ih (schedStep logLog σ (SchedEvent.change w)) hstep
    exact ⟨h1, h2, h3, h4⟩

/-- After at least one parameter change exactly one debounce timer is live. -/
theorem schedRun_changes_timer (logLog : ℚ → ℚ) (writes : List (State → State))
    (hne : writes ≠ []) (σ : Scheduler) (h : SchedInv σ) :
    ∃ T, (schedRun logLog (writes.map SchedEvent.change) σ).timers = [T] := by
  rcases List.eq_nil_or_concat writes with hnil | ⟨ws, w, hw⟩
  · exact absurd hnil hne
  · rw [List.concat_eq_append] at hw
    subst hw
    have hinv := schedRun_inv logLog (ws.map SchedEvent.change) σ h
    refine ⟨(schedRun logLog (ws.map SchedEvent.change) σ).nextId, ?_⟩
    have hrun : schedRun logLog ((ws ++ [w]).map SchedEvent.change) σ =
        schedStep logLog (schedRun logLog (ws.map SchedEvent.change) σ)
          (SchedEvent.change w) := by
      simp [schedRun]
    rw [hrun]
    exact (scheduleJuliaRender_spec
      { schedRun logLog (ws.map SchedEvent.change) σ with
        app := w (schedRun logLog (ws.map SchedEvent.change) σ).app } hinv).2.1

/-- C13: from any reachable scheduler state, any `N ≥ 1` parameter changes
(each calling `scheduleJuliaRender`) with no timer firing between them leave
exactly one live timer; when it fires exactly one animation frame is
requested; when that frame runs, `renderJulia` has been executed exactly once
since the first change, reading the `state` written by the last change, and
nothing is pending any more. -/
theorem render_coalescing (logLog : ℚ → ℚ) (app : State) (width height : Nat)
    (history : List SchedEvent) (writes : List (State → State)) (hne : writes ≠ []) :
    ∃ σ0 σ1 T F,
      σ0 = schedRun logLog history (Scheduler.init app width height) ∧
      σ1 = schedRun logLog (writes.map SchedEvent.change) σ0 ∧
      σ1.timers = [T] ∧ σ1.renders = σ0.renders ∧
      (schedStep logLog σ1 (SchedEvent.timerFires T)).frames = [F] ∧
      (schedStep logLog σ1 (SchedEvent.timerFires T)).renders = σ0.renders ∧
      (schedRun logLog [SchedEvent.timerFires T, SchedEvent.frameFires F] σ1).renders =
        σ0.renders ++ [applyWrites writes σ0.app] ∧
      pendingRenders
        (schedRun logLog [SchedEvent.timerFires T, SchedEvent.frameFires F] σ1) = 0 := by
  have hinv0 := schedRun_inv logLog history _ (init_schedInv app width height)
  have hinv1 := schedRun_inv logLog (writes.map SchedEvent.change) _ hinv0
  obtain ⟨T, hT⟩ := schedRun_changes_timer logLog writes hne _ hinv0
  obtain ⟨_, _, hren, happ⟩ := schedRun_changes logLog writes _ hinv0
  refine ⟨schedRun logLog history (Scheduler.init app width height),
    schedRun logLog (writes.map SchedEvent.change)
      (schedRun logLog history (Scheduler.init app width height)), T,
    (schedRun logLog (writes.map SchedEvent.change)
      (schedRun logLog history (Scheduler.init app width height))).nextId, rfl, rfl, hT, hren, ?_⟩
  generalize schedRun logLog history (Scheduler.init app width height) = σ0 at *
  generalize schedRun logLog (writes.map SchedEvent.change) σ0 = σ1 at *
  obtain ⟨_, hf1, _⟩ := hinv1
  have hmem : T ∈ σ1.timers := by
    rw [hT]
    exact List.mem_singleton.mpr rfl
  obtain ⟨hfr, _, htm, _, hrn, hap, _⟩ :=
    timeoutCallback_spec { σ1 with timers := σ1.timers.erase T } hf1
  have hstep : schedStep logLog σ1 (SchedEvent.timerFires T) =
      timeoutCallback { σ1 with timers := σ1.timers.erase T } := by
    simp only [schedStep, if_pos hmem]
  have hfr' : (timeoutCallback { σ1 with timers := σ1.timers.erase T }).frames =
      [σ1.nextId] := hfr
  have hmemF : σ1.nextId ∈
      (timeoutCallback { σ1 with timers := σ1.timers.erase T }).frames := by
    rw [hfr']
    exact List.mem_singleton.mpr rfl
  have hrun : schedRun logLog
      [SchedEvent.timerFires T, SchedEvent.frameFires σ1.nextId] σ1 =
      schedStep logLog (timeoutCallback { σ1 with timers := σ1.timers.erase T })
        (SchedEvent.frameFires σ1.nextId) := by
    simp only [schedRun, List.foldl_cons, List.foldl_nil, hstep]
  refine ⟨?_, ?_, ?_, ?_⟩
  · rw [hstep]
    exact hfr'
  · rw [hstep, hrn]
    exact hren
  · rw [hrun]
    simp only [schedStep, if_pos hmemF]
    rw [hrn, hap]
    show σ1.renders ++ [σ1.app] = σ0.renders ++ [applyWrites writes σ0.app]
    rw [hren, happ]
  · rw [hrun]
    simp only [schedStep, if_pos hmemF, pendingRenders]
    rw [hfr', htm]
    show (σ1.timers.erase T).length + ([σ1.nextId].erase σ1.nextId).length = 0
    rw [hT]
    simp

theorem render_coalescing_witness :
    ∃ σ0 σ1 T F,
      σ0 = schedRun (fun _ => 0) [] (Scheduler.init initialState 800 600) ∧
      σ1 = schedRun (fun _ => 0)
        ([fun s => { s with cReal := 1 / 10 }, fun s => { s with cReal := 2 / 10 }].map
          SchedEvent.change) σ0 ∧
      σ1.timers = [T] ∧ σ1.renders = σ0.renders ∧
      (schedStep (fun _ => 0) σ1 (SchedEvent.timerFires T)).frames = [F] ∧
      (schedStep (fun _ => 0) σ1 (SchedEvent.timerFires T)).renders = σ0.renders ∧
      (schedRun (fun _ => 0) [SchedEvent.timerFires T, SchedEvent.frameFires F] σ1).renders =
        σ0.renders ++
          [applyWrites [fun s => { s with cReal := 1 / 10 }, fun s => { s with cReal := 2 / 10 }]
            σ0.app] ∧
      pendingRenders
        (schedRun (fun _ => 0) [SchedEvent.timerFires T, SchedEvent.frameFires F] σ1) = 0 :=
  render_coalescing (fun _ => 0) initialState 800 600 []
    [fun s => { s with cReal := 1 / 10 }, fun s => { s with cReal := 2 / 10 }]
    (List.cons_ne_nil _ _)

/-- C14, as stated, fails: after a change, the timer firing, and another change
before the requested frame has run, a debounce timer and an animation-frame
request are pending at the same time. -/
theorem two_pending_renders :
    pendingRenders (schedRun (fun _ => 0)
      [SchedEvent.change (fun s => s), SchedEvent.timerFires 1,
        SchedEvent.change (fun s => s)] (Scheduler.init initialState 800 600)) = 2 ∧
    ¬ pendingRenders (schedRun (fun _ => 0)
      [SchedEvent.change (fun s => s), SchedEvent.timerFires 1,
        SchedEvent.change (fun s => s)] (Scheduler.init initialState 800 600)) ≤ 1 := by
  have h : pendingRenders (schedRun (fun _ => 0)
      [SchedEvent.change (fun s => s), SchedEvent.timerFires 1,
        SchedEvent.change (fun s => s)] (Scheduler.init initialState 800 600)) = 2 := by
    simp [pendingRenders, schedRun, schedStep, scheduleJuliaRender, timeoutCallback,
      cancelHandle, Scheduler.init]
  rw [h]
  exact ⟨rfl, by decide⟩

/-- C14, amended: in every state reachable by interleaving `scheduleJuliaRender`
calls, debounce-timer firings and animation-frame firings there is at most one
live debounce timer and at most one requested animation frame, so at most two
renders are pending (one of each kind). -/
theorem pending_renders_bound (logLog : ℚ → ℚ) (app : State) (width height : Nat)
    (events : List SchedEvent) :
    (schedRun logLog events (Scheduler.init app width height)).timers.length ≤ 1 ∧
      (schedRun logLog events (Scheduler.init app width height)).frames.length ≤ 1 ∧
      pendingRenders (schedRun logLog events (Scheduler.init app width height)) ≤ 2 := by
  obtain ⟨ht, hf, _⟩ := schedRun_inv logLog events _ (init_schedInv app width height)
  have h1 : (schedRun logLog events (Scheduler.init app width height)).timers.length ≤ 1 := by
    rcases ht with ht | ⟨t, _, ht, _⟩ <;> rw [ht] <;> simp
  have h2 : (schedRun logLog events (Scheduler.init app width height)).frames.length ≤ 1 := by
    rcases hf with hf | ⟨f, _, hf, _⟩ <;> rw [hf] <;> simp
  refine ⟨h1, h2, ?_⟩
  unfold pendingRenders
  omega

/-! ## `renderJulia`: degenerate canvas, determinism, viewport (C15 to C18) -/

/-- C15: when the Julia canvas has width `0` or height `0`, `renderJulia` is a
no-op: it returns without an exception, puts no image, and leaves the
application state (including `state.rendering`) exactly as it was. -/
theorem renderJulia_degenerate (logLog : ℚ → ℚ) (s : State) (width height : Nat)
    (h : width = 0 ∨ height = 0) :
    (renderJulia logLog s width height).state = s ∧
      (renderJulia logLog s width height).image = none ∧
      (renderJulia logLog s width height).threw = false := by
  unfold renderJulia
  rw [if_pos h]
  exact ⟨rfl, rfl, rfl⟩

theorem renderJulia_degenerate_witness :
    ((0 : Nat) = 0 ∨ (600 : Nat) = 0) ∧
      (renderJulia (fun _ => 0) rabbitState 0 600).state = rabbitState ∧
      (renderJulia (fun _ => 0) rabbitState 0 600).image = none ∧
      (renderJulia (fun _ => 0) rabbitState 0 600).threw = false :=
  ⟨Or.inl rfl, renderJulia_degenerate (fun _ => 0) rabbitState 0 600 (Or.inl rfl)⟩

/-- The image of `renderJulia` read off the request values only. -/
theorem renderJulia_image_eq (logLog : ℚ → ℚ) (s1 s2 : State) (width height : Nat)
    (hre : s1.cReal = s2.cReal) (him : s1.cImag = s2.cImag) (hmax : s1.maxIter = s2.maxIter)
    (hzoom : s1.zoom = s2.zoom) (hpx : s1.panX = s2.panX) (hpy : s1.panY = s2.panY)
    (hpal : getActivePalette s1 = getActivePalette s2) :
    (renderJulia logLog s1 width height).image =
      (renderJulia logLog s2 width height).image := by
  have hpix : ∀ lut, renderJuliaPixel logLog s1 lut width height =
      renderJuliaPixel logLog s2 lut width height := by
    intro lut
    funext px py
    simp only [renderJuliaPixel, juliaPlanePoint, hre, him, hmax, hzoom, hpx, hpy]
  unfold renderJulia
  rw [hpal]
  split_ifs with hzero
  · rfl
  · cases buildColorLUT (getActivePalette s2) 1024 with
    | none => rfl
    | some lut =>
      simp only
      rw [hpix lut]

/-- With a built-in palette selected, the active palette does not depend on
`customStops`. -/
theorem getActivePalette_builtin (s : State) (h : s.palette ≠ "custom") :
    getActivePalette s = (PALETTES s.palette).getD crimsonNight := by
  unfold getActivePalette
  cases s.customStops with
  | none => rfl
  | some stops => simp only [if_neg h]

/-- C16: the pixel buffer filled by `renderJulia` is a function of the render
request only (buffer width and height, `cReal`, `cImag`, `maxIter`, `zoom`,
`panX`, `panY` and the active palette's stops): two runs from states that agree
on these values produce identical buffers, whatever `activePreset` and
`rendering` are, and whatever `customStops` is when both states select the
same built-in palette. -/
theorem renderJulia_deterministic (logLog : ℚ → ℚ) (s1 s2 : State) (width height : Nat)
    (hre : s1.cReal = s2.cReal) (him : s1.cImag = s2.cImag) (hmax : s1.maxIter = s2.maxIter)
    (hzoom : s1.zoom = s2.zoom) (hpx : s1.panX = s2.panX) (hpy : s1.panY = s2.panY) :
    (getActivePalette s1 = getActivePalette s2 →
      (renderJulia logLog s1 width height).image =
        (renderJulia logLog s2 width height).image) ∧
    (s1.palette = s2.palette → s1.palette ≠ "custom" →
      (renderJulia logLog s1 width height).image =
        (renderJulia logLog s2 width height).image) := by
  refine ⟨renderJulia_image_eq logLog s1 s2 width height hre him hmax hzoom hpx hpy, ?_⟩
  intro hkey hne
  apply renderJulia_image_eq logLog s1 s2 width height hre him hmax hzoom hpx hpy
  rw [getActivePalette_builtin s1 hne, getActivePalette_builtin s2 (hkey ▸ hne), hkey]

theorem renderJulia_deterministic_witness :
    (renderJulia (fun _ => 0) rabbitState 4 3).image =
      (renderJulia (fun _ => 0)
        { rabbitState with activePreset := 0, rendering := true, customStops := some allAtOne }
        4 3).image :=
  (renderJulia_deterministic (fun _ => 0) rabbitState
    { rabbitState with activePreset := 0, rendering := true, customStops := some allAtOne }
    4 3 rfl rfl rfl rfl rfl rfl).2 rfl (by decide)

/-- The plane point of a pixel, with the bounds of the plane written out. -/
theorem juliaPlanePoint_eq (s : State) (w h px py : Nat) :
    juliaPlanePoint s w h px py =
      (s.panX - 2 / s.zoom + (px : ℚ) * 2 * (2 / s.zoom) / (w : ℚ),
        s.panY - 2 / s.zoom / ((w : ℚ) / (h : ℚ)) +
          (py : ℚ) * 2 * (2 / s.zoom / ((w : ℚ) / (h : ℚ))) / (h : ℚ)) := by
  simp only [juliaPlanePoint]
  refine Prod.ext ?_ ?_
  · show s.panX - 2 / s.zoom + (px : ℚ) * ((s.panX + 2 / s.zoom - (s.panX - 2 / s.zoom)) / (w : ℚ))
      = s.panX - 2 / s.zoom + (px : ℚ) * 2 * (2 / s.zoom) / (w : ℚ)
    ring
  · show s.panY - 2 / s.zoom / ((w : ℚ) / (h : ℚ)) + (py : ℚ) *
        ((s.panY + 2 / s.zoom / ((w : ℚ) / (h : ℚ)) -
          (s.panY - 2 / s.zoom / ((w : ℚ) / (h : ℚ)))) / (h : ℚ))
      = s.panY - 2 / s.zoom / ((w : ℚ) / (h : ℚ)) +
          (py : ℚ) * 2 * (2 / s.zoom / ((w : ℚ) / (h : ℚ))) / (h : ℚ)
    ring

/-- C17: with `c = (-0.1226, 0.7449)`, `maxIter = 200`, pan `(0, 0)`, zoom `1`
and any buffer with `width : height = 4 : 3`, `renderJulia` maps pixel `(0, 0)`
to the plane point `(-2, -1.5)` and classifies it as escaped (not interior)
with an iteration count below `10`. -/
theorem top_left_pixel_escapes (w h : Nat) (hw : 0 < w) (hh : 0 < h)
    (hratio : w * 3 = h * 4) :
    juliaPlanePoint rabbitState w h 0 0 = (-2, -3 / 2) ∧
      (juliaPixel rabbitState.cReal rabbitState.cImag rabbitState.maxIter
        (juliaPlanePoint rabbitState w h 0 0).1 (juliaPlanePoint rabbitState w h 0 0).2).iter
        < 10 ∧
      (juliaPixel rabbitState.cReal rabbitState.cImag rabbitState.maxIter
        (juliaPlanePoint rabbitState w h 0 0).1 (juliaPlanePoint rabbitState w h 0 0).2).iter
        ≠ rabbitState.maxIter := by
  have hwq : (w : ℚ) ≠ 0 := by exact_mod_cast (Nat.pos_iff_ne_zero.mp hw)
  have hhq : (h : ℚ) ≠ 0 := by exact_mod_cast (Nat.pos_iff_ne_zero.mp hh)
  have hr : (w : ℚ) * 3 = (h : ℚ) * 4 := by exact_mod_cast hratio
  have hasp : (w : ℚ) / (h : ℚ) = 4 / 3 := by
    rw [div_eq_div_iff hhq (by norm_num)]
    linarith
  have hpt : juliaPlanePoint rabbitState w h 0 0 = (-2, -3 / 2) := by
    rw [juliaPlanePoint_eq]
    simp only [rabbitState, initCustomStops, initialState, hasp]
    norm_num
  rw [hpt]
  have hexit : juliaPixel rabbitState.cReal rabbitState.cImag rabbitState.maxIter (-2)
      (-3 / 2) =
      { zrCur := -2, ziCur := -3 / 2, zrSq := -2 * -2, ziSq := -3 / 2 * (-3 / 2), iter := 0 } := by
    rw [juliaPixel, escapeLoop_exit _ _ _ _ (by norm_num)]
  rw [hexit]
  exact ⟨rfl, by decide, by decide⟩

theorem top_left_pixel_escapes_witness :
    0 < 800 ∧ 0 < 600 ∧ 800 * 3 = 600 * 4 ∧
      juliaPlanePoint rabbitState 800 600 0 0 = (-2, -3 / 2) ∧
      (juliaPixel rabbitState.cReal rabbitState.cImag rabbitState.maxIter
        (juliaPlanePoint rabbitState 800 600 0 0).1
        (juliaPlanePoint rabbitState 800 600 0 0).2).iter < 10 ∧
      (juliaPixel rabbitState.cReal rabbitState.cImag rabbitState.maxIter
        (juliaPlanePoint rabbitState 800 600 0 0).1
        (juliaPlanePoint rabbitState 800 600 0 0).2).iter ≠ rabbitState.maxIter :=
  ⟨by decide, by decide, by decide,
    top_left_pixel_escapes 800 600 (by decide) (by decide) (by decide)⟩

/-- C18, amended: when the viewport mapping is evaluated in exact arithmetic,
for every zoom `> 0`, pan and buffer size `w, h > 0`, `renderJulia` maps pixel
`(px, py)` to `(panX - halfW + px*2*halfW/w, panY - halfH + py*2*halfH/h)` with
`halfW = 2/zoom` and `halfH = halfW/(w/h)`; hence for even `w` and `h` the
centre pixel `(w/2, h/2)` maps to `(panX, panY)`, its loop is the escape-time
loop run on the viewport centre, and so are its iteration count and bytes. -/
theorem viewport_mapping (logLog : ℚ → ℚ) (s : State) (w h px py : Nat)
    (hzoom : 0 < s.zoom) (hw : 0 < w) (hh : 0 < h) :
    juliaPlanePoint s w h px py =
        (s.panX - 2 / s.zoom + (px : ℚ) * 2 * (2 / s.zoom) / (w : ℚ),
          s.panY - 2 / s.zoom / ((w : ℚ) / (h : ℚ)) +
            (py : ℚ) * 2 * (2 / s.zoom / ((w : ℚ) / (h : ℚ))) / (h : ℚ)) ∧
      (w % 2 = 0 → h % 2 = 0 →
        juliaPlanePoint s w h (w / 2) (h / 2) = (s.panX, s.panY) ∧
        (juliaPixel s.cReal s.cImag s.maxIter (juliaPlanePoint s w h (w / 2) (h / 2)).1
          (juliaPlanePoint s w h (w / 2) (h / 2)).2).iter =
          (juliaPixel s.cReal s.cImag s.maxIter s.panX s.panY).iter ∧
        ∀ lut, renderJuliaPixel logLog s lut w h (w / 2) (h / 2) =
          shadePixel logLog 1024 lut s.maxIter
            (juliaPixel s.cReal s.cImag s.maxIter s.panX s.panY).iter
            (juliaPixel s.cReal s.cImag s.maxIter s.panX s.panY).zrSq
            (juliaPixel s.cReal s.cImag s.maxIter s.panX s.panY).ziSq) := by
  refine ⟨juliaPlanePoint_eq s w h px py, ?_⟩
  intro hwe hhe
  have hwq : (w : ℚ) ≠ 0 := by exact_mod_cast (Nat.pos_iff_ne_zero.mp hw)
  have hhq : (h : ℚ) ≠ 0 := by exact_mod_cast (Nat.pos_iff_ne_zero.mp hh)
  have hzq : s.zoom ≠ 0 := ne_of_gt hzoom
  have hw2 : ((w / 2 : Nat) : ℚ) = (w : ℚ) / 2 := by
    have : w = 2 * (w / 2) := by omega
    have hc : (w : ℚ) = 2 * ((w / 2 : Nat) : ℚ) := by exact_mod_cast this
    linarith
  have hh2 : ((h / 2 : Nat) : ℚ) = (h : ℚ) / 2 := by
    have : h = 2 * (h / 2) := by omega
    have hc : (h : ℚ) = 2 * ((h / 2 : Nat) : ℚ) := by exact_mod_cast this
    linarith
  have hpt : juliaPlanePoint s w h (w / 2) (h / 2) = (s.panX, s.panY) := by
    rw [juliaPlanePoint_eq, hw2, hh2]
    refine Prod.ext ?_ ?_
    · show s.panX - 2 / s.zoom + (w : ℚ) / 2 * 2 * (2 / s.zoom) / (w : ℚ) = s.panX
      field_simp
      ring
    · show s.panY - 2 / s.zoom / ((w : ℚ) / (h : ℚ)) +
        (h : ℚ) / 2 * 2 * (2 / s.zoom / ((w : ℚ) / (h : ℚ))) / (h : ℚ) = s.panY
      field_simp
      ring
  refine ⟨hpt, by rw [hpt], ?_⟩
  intro lut
  simp only [renderJuliaPixel, hpt]

theorem viewport_mapping_witness :
    (0 : ℚ) < rabbitState.zoom ∧ 0 < 800 ∧ 0 < 600 ∧
      juliaPlanePoint rabbitState 800 600 400 300 = (rabbitState.panX, rabbitState.panY) :=
  ⟨by simp [rabbitState, initCustomStops, initialState], by decide, by decide,
    ((viewport_mapping (fun _ => 0) rabbitState 800 600 0 0
      (by simp [rabbitState, initCustomStops, initialState]) (by decide) (by decide)).2
      (by decide) (by decide)).1⟩

/-! ## The built-in palettes (C19) -/

theorem inferno_valid : ValidPalette inferno := by
  refine ⟨by decide, ?_, ?_, ?_⟩
  · intro s hs
    simp only [inferno, List.mem_cons, List.mem_singleton, List.not_mem_nil, or_false] at hs
    rcases hs with rfl | rfl | rfl | rfl | rfl <;> norm_num
  · simp only [SortedStops, inferno, List.pairwise_cons, List.mem_cons, List.mem_singleton,
      List.not_mem_nil, forall_eq_or_imp, forall_eq, List.Pairwise.nil]
    norm_num
  · intro s hs
    simp only [inferno, List.mem_cons, List.mem_singleton, List.not_mem_nil, or_false] at hs
    rcases hs with rfl | rfl | rfl | rfl | rfl <;> simp [Color.InRange]

theorem iceFire_valid : ValidPalette iceFire := by
  refine ⟨by decide, ?_, ?_, ?_⟩
  · intro s hs
    simp only [iceFire, List.mem_cons, List.mem_singleton, List.not_mem_nil, or_false] at hs
    rcases hs with rfl | rfl | rfl | rfl | rfl <;> norm_num
  · simp only [SortedStops, iceFire, List.pairwise_cons, List.mem_cons, List.mem_singleton,
      List.not_mem_nil, forall_eq_or_imp, forall_eq, List.Pairwise.nil]
    norm_num
  · intro s hs
    simp only [iceFire, List.mem_cons, List.mem_singleton, List.not_mem_nil, or_false] at hs
    rcases hs with rfl | rfl | rfl | rfl | rfl <;> simp [Color.InRange]

theorem monochrome_valid : ValidPalette monochrome := by
  refine ⟨by decide, ?_, ?_, ?_⟩
  · intro s hs
    simp only [monochrome, List.mem_cons, List.mem_singleton, List.not_mem_nil, or_false] at hs
    rcases hs with rfl | rfl | rfl <;> norm_num
  · simp only [SortedStops, monochrome, List.pairwise_cons, List.mem_cons, List.mem_singleton,
      List.not_mem_nil, forall_eq_or_imp, forall_eq, List.Pairwise.nil]
    norm_num
  · intro s hs
    simp only [monochrome, List.mem_cons, List.mem_singleton, List.not_mem_nil, or_false] at hs
    rcases hs with rfl | rfl | rfl <;> simp [Color.InRange]

theorem neonAbyss_valid : ValidPalette neonAbyss := by
  refine ⟨by decide, ?_, ?_, ?_⟩
  · intro s hs
    simp only [neonAbyss, List.mem_cons, List.mem_singleton, List.not_mem_nil, or_false] at hs
    rcases hs with rfl | rfl | rfl | rfl <;> norm_num
  · simp only [SortedStops, neonAbyss, List.pairwise_cons, List.mem_cons, List.mem_singleton,
      List.not_mem_nil, forall_eq_or_imp, forall_eq, List.Pairwise.nil]
    norm_num
  · intro s hs
    simp only [neonAbyss, List.mem_cons, List.mem_singleton, List.not_mem_nil, or_false] at hs
    rcases hs with rfl | rfl | rfl | rfl <;> simp [Color.InRange]

theorem goldVein_valid : ValidPalette goldVein := by
  refine ⟨by decide, ?_, ?_, ?_⟩
  · intro s hs
    simp only [goldVein, List.mem_cons, List.mem_singleton, List.not_mem_nil, or_false] at hs
    rcases hs with rfl | rfl | rfl | rfl <;> norm_num
  · simp only [SortedStops, goldVein, List.pairwise_cons, List.mem_cons, List.mem_singleton,
      List.not_mem_nil, forall_eq_or_imp, forall_eq, List.Pairwise.nil]
    norm_num
  · intro s hs
    simp only [goldVein, List.mem_cons, List.mem_singleton, List.not_mem_nil, or_false] at hs
    rcases hs with rfl | rfl | rfl | rfl <;> simp [Color.InRange]

/-- C19: every stop list of the built-in palette catalog `PALETTES` (inferno,
crimson-night, ice-fire, monochrome, neon-abyss, gold-vein) satisfies the
palette invariants: at least 2 stops, every position in `[0, 1]`, positions
sorted ascending, every colour channel an integer in `0..255`. -/
theorem builtin_palettes_valid :
    (∀ key p, PALETTES key = some p → ValidPalette p) ∧
      PALETTES "inferno" = some inferno ∧ PALETTES "crimson-night" = some crimsonNight ∧
      PALETTES "ice-fire" = some iceFire ∧ PALETTES "monochrome" = some monochrome ∧
      PALETTES "neon-abyss" = some neonAbyss ∧ PALETTES "gold-vein" = some goldVein := by
  refine ⟨?_, by simp [PALETTES], by simp [PALETTES], by simp [PALETTES], by simp [PALETTES],
    by simp [PALETTES], by simp [PALETTES]⟩
  intro key p h
  unfold PALETTES at h
  split_ifs at h <;> cases h
  · exact inferno_valid
  · exact crimsonNight_valid
  · exact iceFire_valid
  · exact monochrome_valid
  · exact neonAbyss_valid
  · exact goldVein_valid

theorem builtin_palettes_valid_witness :
    PALETTES "gold-vein" = some goldVein ∧ ValidPalette goldVein :=
  ⟨builtin_palettes_valid.2.2.2.2.2.2,
    builtin_palettes_valid.1 "gold-vein" goldVein builtin_palettes_valid.2.2.2.2.2.2⟩

/-! ## The exported file name (C20) -/

theorem toFixed4_rabbit_real : toFixed4 (-1226 / 10000) = "-0.1226" := by
  have habs : |(-1226 / 10000 : ℚ)| = 1226 / 10000 := by
    rw [abs_of_neg (by norm_num)]
    norm_num
  have hd : toFixed4Digits (-1226 / 10000) = 1226 := by
    apply toFixed4Digits_eq
    · rw [habs]
      norm_num
    · rw [habs]
      norm_num
  unfold toFixed4
  rw [hd, if_pos (by norm_num)]
  decide

theorem toFixed4_rabbit_imag : toFixed4 (7449 / 10000) = "0.7449" := by
  have habs : |(7449 / 10000 : ℚ)| = 7449 / 10000 := abs_of_nonneg (by norm_num)
  have hd : toFixed4Digits (7449 / 10000) = 7449 := by
    apply toFixed4Digits_eq
    · rw [habs]
      norm_num
    · rw [habs]
      norm_num
  unfold toFixed4
  rw [hd, if_neg (by norm_num)]
  decide

theorem exportPNG_rabbit : exportPNG rabbitState = "julia-set--0.1226-0.7449.png" := by
  have h : exportPNG rabbitState =
      "julia-set-" ++ toFixed4 (-1226 / 10000) ++ "-" ++ toFixed4 (7449 / 10000) ++ ".png" := rfl
  rw [h, toFixed4_rabbit_real, toFixed4_rabbit_imag]
  decide

/-- C20, as stated, fails: for `c = (-0.1226, 0.7449)` the download name is
`julia-set--0.1226-0.7449.png`; the template of `exportPNG` has no
parentheses. -/
theorem exportPNG_no_parentheses :
    rabbitState.cReal = -1226 / 10000 ∧ rabbitState.cImag = 7449 / 10000 ∧
      exportPNG rabbitState ≠ "julia-set-(-0.1226)-(0.7449).png" := by
  refine ⟨rfl, rfl, ?_⟩
  rw [exportPNG_rabbit]
  decide

/-- C20, amended: the exported file name encodes the current parameter to 4
decimal places, the two components separated by a hyphen and not wrapped in
parentheses: it is `"julia-set-" + cReal.toFixed(4) + "-" + cImag.toFixed(4) +
".png"`, and for `c = (-0.1226, 0.7449)` it is `julia-set--0.1226-0.7449.png`. -/
theorem exportPNG_name (s : State) :
    exportPNG s = "julia-set-" ++ toFixed4 s.cReal ++ "-" ++ toFixed4 s.cImag ++ ".png" ∧
      toFixed4 (-1226 / 10000) = "-0.1226" ∧ toFixed4 (7449 / 10000) = "0.7449" ∧
      exportPNG { s with cReal := -1226 / 10000, cImag := 7449 / 10000 } =
        "julia-set--0.1226-0.7449.png" := by
  refine ⟨rfl, toFixed4_rabbit_real, toFixed4_rabbit_imag, ?_⟩
  have h : exportPNG { s with cReal := -1226 / 10000, cImag := 7449 / 10000 } =
      "julia-set-" ++ toFixed4 (-1226 / 10000) ++ "-" ++ toFixed4 (7449 / 10000) ++ ".png" := rfl
  rw [h, toFixed4_rabbit_real, toFixed4_rabbit_imag]
  decide

/-! ## The Mandelbrot loop (C22) -/

theorem mandelbrotBody_eq (cr ci : ℚ) (s : EscState) :
    mandelbrotBody cr ci s = escapeBody cr ci s := rfl

theorem mandelbrotLoop_eq (cr ci : ℚ) (maxIter : Nat) :
    ∀ (n : Nat) (s : EscState), maxIter - s.iter = n →
      mandelbrotLoop cr ci maxIter s = escapeLoop cr ci maxIter s := by
  intro n
  induction n with
  | zero =>
    intro s hn
    have hc : ¬ (s.zrSq + s.ziSq ≤ 4 ∧ s.iter < maxIter) := by
      intro hc
      omega
    rw [mandelbrotLoop, if_neg hc, escapeLoop_exit _ _ _ _ hc]
  | succ n ih =>
    intro s hn
    by_cases hc : s.zrSq + s.ziSq ≤ 4 ∧ s.iter < maxIter
    · rw [mandelbrotLoop, if_pos hc, escapeLoop_step _ _ _ _ hc, mandelbrotBody_eq]
      apply ih
      simp only [escapeBody]
      omega
    · rw [mandelbrotLoop, if_neg hc, escapeLoop_exit _ _ _ _ hc]

/-- C22: Mandelbrot mode uses the same evaluator: for every pixel coordinate
`c = (cr, ci)` and every `maxIter ≥ 0`, the loop of `renderMandelbrot` ends in
the same state (iteration count, final `z`, final squares) as the Julia
escape-time loop of `renderJulia` run with parameter `c` and start point
`z0 = 0`. -/
theorem mandelbrot_is_julia_at_zero (cr ci : ℚ) (maxIter : Nat) :
    mandelbrotPixel cr ci maxIter = juliaPixel cr ci maxIter 0 0 ∧
      (mandelbrotPixel cr ci maxIter).iter = (juliaPixel cr ci maxIter 0 0).iter ∧
      ((mandelbrotPixel cr ci maxIter).zrCur, (mandelbrotPixel cr ci maxIter).ziCur) =
        ((juliaPixel cr ci maxIter 0 0).zrCur, (juliaPixel cr ci maxIter 0 0).ziCur) := by
  have h : mandelbrotPixel cr ci maxIter = juliaPixel cr ci maxIter 0 0 := by
    unfold mandelbrotPixel juliaPixel
    rw [mandelbrotLoop_eq cr ci maxIter (maxIter - 0) _ rfl]
    norm_num
  exact ⟨h, by rw [h], by rw [h]⟩

/-! ## The lookup index (C23) -/

/-- Inside the signed 32-bit range `x | 0` is truncation towards zero. -/
theorem toInt32_eq_trunc (x : ℚ) (hlo : -2147483648 ≤ x) (hhi : x < 2147483648) :
    toInt32 x = truncQ x := by
  have hn : -2147483648 ≤ truncQ x ∧ truncQ x < 2147483648 := by
    unfold truncQ
    split_ifs with h0
    · constructor
      · have : (0 : Int) ≤ ⌊x⌋ := Int.floor_nonneg.mpr h0
        omega
      · rw [Int.floor_lt]
        exact_mod_cast hhi
    · constructor
      · have : ((-2147483648 : Int) : ℚ) ≤ x := by exact_mod_cast hlo
        exact Int.le_ceil_iff.mpr (by
          have h1 : (((-2147483648 : Int) : ℚ)) - 1 < x := by linarith
          exact_mod_cast h1)
      · have : ⌈x⌉ ≤ 0 := Int.ceil_le.mpr (by
          have := le_of_lt (not_le.mp h0)
          exact_mod_cast this)
        omega
  have ht : toInt32 x =
      (if truncQ x % 4294967296 ≥ 2147483648 then truncQ x % 4294967296 - 4294967296
        else truncQ x % 4294967296) := rfl
  rw [ht]
  split_ifs <;> omega

/-- C23: the lookup index `lutIdx = max(0, min(LUT_SIZE-1, (t*LUT_SIZE)|0))` always
satisfies `0 ≤ lutIdx ≤ LUT_SIZE-1`, so the three reads
`colorLUT[3*lutIdx .. 3*lutIdx+2]` lie inside the `3*LUT_SIZE`-entry table; and
for the values of `t` of an escaped pixel, where `t * LUT_SIZE` is inside the
signed 32-bit range, `| 0` is truncation, `t ≤ 0` selects entry `0` and `t ≥ 1`
selects entry `LUT_SIZE-1`. -/
theorem lutIndex_in_bounds (lutSize : Nat) (t : ℚ) (hsize : 1 ≤ lutSize) :
    0 ≤ lutIndex lutSize t ∧ lutIndex lutSize t ≤ (lutSize : Int) - 1 ∧
      (lutIndex lutSize t).toNat * 3 + 2 < 3 * lutSize ∧
      (∀ lut : List Nat, lut.length = 3 * lutSize → ∀ k, k < 3 →
        ∃ v, lut[(lutIndex lutSize t).toNat * 3 + k]? = some v) ∧
      (-2147483648 ≤ t * (lutSize : ℚ) → t * (lutSize : ℚ) < 2147483648 →
        lutIndex lutSize t = max 0 (min ((lutSize : Int) - 1) (truncQ (t * (lutSize : ℚ)))) ∧
        (t ≤ 0 → lutIndex lutSize t = 0) ∧
        (1 ≤ t → lutIndex lutSize t = (lutSize : Int) - 1)) := by
  have hs : (1 : Int) ≤ (lutSize : Int) := by exact_mod_cast hsize
  have h0 : 0 ≤ lutIndex lutSize t := le_max_left _ _
  have h1 : lutIndex lutSize t ≤ (lutSize : Int) - 1 := by
    unfold lutIndex
    apply max_le
    · omega
    · exact min_le_left _ _
  have h2 : (lutIndex lutSize t).toNat * 3 + 2 < 3 * lutSize := by omega
  have hq : (0 : ℚ) < (lutSize : ℚ) := by exact_mod_cast hsize
  refine ⟨h0, h1, h2, ?_, ?_⟩
  · intro lut hlen k hk
    have hlt : (lutIndex lutSize t).toNat * 3 + k < lut.length := by omega
    exact ⟨lut[(lutIndex lutSize t).toNat * 3 + k], List.getElem?_eq_getElem hlt⟩
  · intro hlo hhi
    have hidx : lutIndex lutSize t =
        max 0 (min ((lutSize : Int) - 1) (truncQ (t * (lutSize : ℚ)))) := by
      unfold lutIndex
      rw [toInt32_eq_trunc _ hlo hhi]
    refine ⟨hidx, ?_, ?_⟩
    · intro ht
      have hx : t * (lutSize : ℚ) ≤ 0 := mul_nonpos_of_nonpos_of_nonneg ht (le_of_lt hq)
      have htr : truncQ (t * (lutSize : ℚ)) ≤ 0 := by
        unfold truncQ
        split_ifs with hnn
        · have h0' : t * (lutSize : ℚ) = 0 := le_antisymm hx hnn
          rw [h0']
          simp
        · exact Int.ceil_le.mpr (by exact_mod_cast hx)
      rw [hidx]
      have hmin : min ((lutSize : Int) - 1) (truncQ (t * (lutSize : ℚ))) ≤ 0 :=
        le_trans (min_le_right _ _) htr
      exact max_eq_left hmin
    · intro ht
      have hx : (lutSize : ℚ) ≤ t * (lutSize : ℚ) := by
        have := mul_le_mul_of_nonneg_right ht (le_of_lt hq)
        linarith
      have hnn : 0 ≤ t * (lutSize : ℚ) := le_trans (le_of_lt hq) hx
      have htr : (lutSize : Int) ≤ truncQ (t * (lutSize : ℚ)) := by
        unfold truncQ
        rw [if_pos hnn]
        exact Int.le_floor.mpr (by exact_mod_cast hx)
      rw [hidx]
      have hmin : min ((lutSize : Int) - 1) (truncQ (t * (lutSize : ℚ))) = (lutSize : Int) - 1 :=
        min_eq_left (by omega)
      rw [hmin]
      exact max_eq_right (by omega)

theorem lutIndex_in_bounds_witness :
    1 ≤ 1024 ∧ (-2147483648 : ℚ) ≤ 3 / 2 * ((1024 : Nat) : ℚ) ∧
      (3 / 2 : ℚ) * ((1024 : Nat) : ℚ) < 2147483648 ∧ (1 : ℚ) ≤ 3 / 2 ∧
      lutIndex 1024 (3 / 2) = ((1024 : Nat) : Int) - 1 :=
  ⟨by decide, by norm_num, by norm_num, by norm_num,
    ((lutIndex_in_bounds 1024 (3 / 2) (by decide)).2.2.2.2 (by norm_num) (by norm_num)).2.2
      (by norm_num)⟩

/-! ## The closed unit disk (C24) -/

/-- With at least `maxIter - iter` unrollings the double-arithmetic loop has
run to its end: the loop test is false in the returned state. -/
theorem escapeLoopF64_exit (cReal cImag : ℚ) (maxIter : Nat) :
    ∀ (fuel : Nat) (s : EscState), maxIter - s.iter ≤ fuel →
      ¬ (fl64 ((escapeLoopF64 cReal cImag maxIter fuel s).zrSq +
            (escapeLoopF64 cReal cImag maxIter fuel s).ziSq) ≤ 4 ∧
          (escapeLoopF64 cReal cImag maxIter fuel s).iter < maxIter) := by
  intro fuel
  induction fuel with
  | zero =>
    intro s hs
    simp only [escapeLoopF64]
    intro hc
    omega
  | succ fuel ih =>
    intro s hs
    simp only [escapeLoopF64]
    split_ifs with hc
    · apply ih
      simp only [escapeBodyF64]
      omega
    · exact hc

set_option maxRecDepth 100000 in
/-- The run of the double-arithmetic loop from the start point
`(nearCircleRe, nearCircleIm)` with `c = 0` and `maxIter = 200`. -/
theorem juliaPixelF64_nearCircle :
    juliaPixelF64 0 0 200 nearCircleRe nearCircleIm =
      { zrCur := 4180192558227477 / 1125899906842624
        ziCur := -3798323217486981 / 4503599627370496
        zrSq := 7760019215590387 / 562949953421312
        ziSq := 3203495083537045 / 4503599627370496
        iter := 56 } := by
  decide!

set_option maxRecDepth 100000 in
theorem nearCircle_binary64 :
    fl64 nearCircleRe = nearCircleRe ∧ fl64 nearCircleIm = nearCircleIm := by
  decide!

/-- C24, as stated, fails on the program's double arithmetic: the start point
`z0 = (0.9999124487923244, 0.013232337289274018)` is a pair of binary64 numbers
with `|z0|² ≤ 1` (it is `1 - 4.8e-17`), yet with `c = 0` and `maxIter = 200`
the loop leaves after `56` iterations with `zrSq + ziSq > 4`: rounding carries
the iterates across the unit circle. -/
theorem unit_disk_point_escapes_in_doubles :
    fl64 nearCircleRe = nearCircleRe ∧ fl64 nearCircleIm = nearCircleIm ∧
      normSq (nearCircleRe, nearCircleIm) ≤ 1 ∧
      (juliaPixelF64 0 0 200 nearCircleRe nearCircleIm).iter = 56 ∧
      (juliaPixelF64 0 0 200 nearCircleRe nearCircleIm).iter ≠ 200 ∧
      4 < (juliaPixelF64 0 0 200 nearCircleRe nearCircleIm).zrSq +
        (juliaPixelF64 0 0 200 nearCircleRe nearCircleIm).ziSq ∧
      ¬ (fl64 ((juliaPixelF64 0 0 200 nearCircleRe nearCircleIm).zrSq +
            (juliaPixelF64 0 0 200 nearCircleRe nearCircleIm).ziSq) ≤ 4 ∧
          (juliaPixelF64 0 0 200 nearCircleRe nearCircleIm).iter < 200) := by
  refine ⟨nearCircle_binary64.1, nearCircle_binary64.2, ?_, ?_, ?_, ?_,
    escapeLoopF64_exit 0 0 200 200 _ (by simp)⟩
  · simp only [normSq, nearCircleRe, nearCircleIm]
    norm_num
  · rw [juliaPixelF64_nearCircle]
  · rw [juliaPixelF64_nearCircle]
    decide
  · rw [juliaPixelF64_nearCircle]
    norm_num

/-- For `c = 0` the squared modulus is squared in every step of the orbit. -/
theorem normSq_orbit_succ (zr zi : ℚ) (k : Nat) :
    normSq (orbit 0 0 zr zi (k + 1)) =
      normSq (orbit 0 0 zr zi k) * normSq (orbit 0 0 zr zi k) := by
  simp only [orbit, normSq]
  ring

theorem normSq_orbit_le_one (zr zi : ℚ) (h : normSq (zr, zi) ≤ 1) :
    ∀ k, normSq (orbit 0 0 zr zi k) ≤ 1 := by
  intro k
  induction k with
  | zero => exact h
  | succ k ih =>
    rw [normSq_orbit_succ]
    have h0 : 0 ≤ normSq (orbit 0 0 zr zi k) := by
      simp only [normSq]
      exact add_nonneg (mul_self_nonneg _) (mul_self_nonneg _)
    calc normSq (orbit 0 0 zr zi k) * normSq (orbit 0 0 zr zi k) ≤ 1 * 1 :=
          mul_le_mul ih ih h0 (by norm_num)
      _ = 1 := by norm_num

/-- C24, amended: when the loop is evaluated in exact arithmetic, for `c = 0`,
every start point `z0` with `|z0| ≤ 1` and every iteration cap `maxIter ≥ 0`,
the escape-time loop of `renderJulia` runs the full `maxIter` iterations
without escaping (every iterate keeps `|z_k| ≤ 1`, so `|z_k|² ≤ 4`) and returns
`iter = maxIter` with the final `z` equal to `z_maxIter`. -/
theorem unit_disk_runs_full (zr zi : ℚ) (maxIter : Nat) (h : normSq (zr, zi) ≤ 1) :
    (juliaPixel 0 0 maxIter zr zi).iter = maxIter ∧
      (∀ k, normSq (orbit 0 0 zr zi k) ≤ 1 ∧ normSq (orbit 0 0 zr zi k) ≤ 4) ∧
      ((juliaPixel 0 0 maxIter zr zi).zrCur, (juliaPixel 0 0 maxIter zr zi).ziCur) =
        orbit 0 0 zr zi maxIter ∧
      (juliaPixel 0 0 maxIter zr zi).zrSq + (juliaPixel 0 0 maxIter zr zi).ziSq ≤ 1 := by
  have hiter : (juliaPixel 0 0 maxIter zr zi).iter = maxIter :=
    escapeLoop_unit_disk maxIter _ ⟨rfl, rfl, h, Nat.zero_le _⟩
  obtain ⟨⟨horb, hr, hi, _, _⟩, _⟩ := juliaPixel_orbitInv 0 0 zr zi maxIter
  have hle := normSq_orbit_le_one zr zi h
  refine ⟨hiter, fun k => ⟨hle k, le_trans (hle k) (by norm_num)⟩, ?_, ?_⟩
  · rw [horb, hiter]
  · have := hle (juliaPixel 0 0 maxIter zr zi).iter
    rw [← horb] at this
    simp only [normSq] at this
    rw [hr, hi]
    exact this

theorem unit_disk_runs_full_witness :
    normSq (nearCircleRe, nearCircleIm) ≤ 1 ∧
      (juliaPixel 0 0 200 nearCircleRe nearCircleIm).iter = 200 :=
  ⟨by simp only [normSq, nearCircleRe, nearCircleIm]; norm_num,
    (unit_disk_runs_full nearCircleRe nearCircleIm 200
      (by simp only [normSq, nearCircleRe, nearCircleIm]; norm_num)).1⟩

/-! ## Thumbnail and full-size lookup tables (C21) -/

/-- Comparing `i / n` with `num / den` in integers. -/
theorem frac_le_iff (i n : Nat) (s : FracStop) (hn : 0 < n) (hd : 0 < s.den) :
    ((i : ℚ) / (n : ℚ) ≤ s.toStop.pos ↔ (i : Int) * (s.den : Int) ≤ s.num * (n : Int)) ∧
      (s.toStop.pos ≤ (i : ℚ) / (n : ℚ) ↔ s.num * (n : Int) ≤ (i : Int) * (s.den : Int)) := by
  have hnq : (0 : ℚ) < (n : ℚ) := by exact_mod_cast hn
  have hdq : (0 : ℚ) < (s.den : ℚ) := by exact_mod_cast hd
  simp only [FracStop.toStop]
  constructor
  · rw [div_le_div_iff₀ hnq hdq]
    constructor
    · intro h
      exact_mod_cast h
    · intro h
      exact_mod_cast h
  · rw [div_le_div_iff₀ hdq hnq]
    constructor
    · intro h
      exact_mod_cast h
    · intro h
      exact_mod_cast h

/-- One channel of the interpolation in integers. -/
theorem lerpChannel_int (a b N D : Int) (hD : 0 < D) :
    lerpChannel a b ((N : ℚ) / (D : ℚ)) = lerpChannelInt a b N D := by
  have hDq : (D : ℚ) ≠ 0 := by
    have : (0 : ℚ) < (D : ℚ) := by exact_mod_cast hD
    exact ne_of_gt this
  have h2 : ((2 * D).toNat : Int) = 2 * D := Int.toNat_of_nonneg (by omega)
  have hq : (a : ℚ) + ((b : ℚ) - (a : ℚ)) * ((N : ℚ) / (D : ℚ)) + 1 / 2 =
      ((2 * a * D + 2 * (b - a) * N + D : Int) : ℚ) / (((2 * D).toNat : Nat) : ℚ) := by
    have hc : ((((2 * D).toNat : Nat) : Int) : ℚ) = ((2 * D : Int) : ℚ) := by rw [h2]
    have hc' : (((2 * D).toNat : Nat) : ℚ) = 2 * (D : ℚ) := by
      have := hc
      push_cast at this
      exact this
    rw [hc']
    push_cast
    field_simp
    ring
  unfold lerpChannel mathRound lerpChannelInt
  rw [hq, Rat.floor_intCast_div_natCast, h2]

/-- The interpolation branch at `t = i / n` in integers. -/
theorem interpolate_int (s0 s1 : FracStop) (i n : Nat) (hn : 0 < n) (hd0 : 0 < s0.den)
    (hd1 : 0 < s1.den) (h0 : s0.toStop.pos ≤ (i : ℚ) / (n : ℚ))
    (h1 : (i : ℚ) / (n : ℚ) ≤ s1.toStop.pos) :
    interpolate s0.toStop s1.toStop ((i : ℚ) / (n : ℚ)) = interpolateInt s0 s1 i n := by
  have hnq : (0 : ℚ) < (n : ℚ) := by exact_mod_cast hn
  have hd0q : (0 : ℚ) < (s0.den : ℚ) := by exact_mod_cast hd0
  have hd1q : (0 : ℚ) < (s1.den : ℚ) := by exact_mod_cast hd1
  have hdiff : s1.toStop.pos - s0.toStop.pos =
      ((s1.num * (s0.den : Int) - s0.num * (s1.den : Int) : Int) : ℚ) /
        ((s0.den : ℚ) * (s1.den : ℚ)) := by
    simp only [FracStop.toStop]
    push_cast
    field_simp
    ring
  have hprod : (0 : ℚ) < (s0.den : ℚ) * (s1.den : ℚ) := mul_pos hd0q hd1q
  by_cases hz : s1.num * (s0.den : Int) - s0.num * (s1.den : Int) = 0
  · have hzq : s1.toStop.pos - s0.toStop.pos = 0 := by
      rw [hdiff, hz]
      simp
    simp only [interpolate, interpolateInt, if_pos hzq, if_pos hz]
  · have hle : s0.toStop.pos ≤ s1.toStop.pos := le_trans h0 h1
    have hne : s1.toStop.pos - s0.toStop.pos ≠ 0 := by
      rw [hdiff]
      intro h
      rcases div_eq_zero_iff.mp h with h | h
      · exact hz (by exact_mod_cast h)
      · exact (ne_of_gt hprod) h
    have hposq : 0 < s1.toStop.pos - s0.toStop.pos :=
      lt_of_le_of_ne (by linarith) (Ne.symm hne)
    have hpos : 0 < s1.num * (s0.den : Int) - s0.num * (s1.den : Int) := by
      rw [hdiff] at hposq
      have := (div_pos_iff_of_pos_right hprod).mp hposq
      exact_mod_cast this
    have hD : 0 < (n : Int) * (s1.num * (s0.den : Int) - s0.num * (s1.den : Int)) :=
      mul_pos (by exact_mod_cast hn) hpos
    have hlocal : ((i : ℚ) / (n : ℚ) - s0.toStop.pos) / (s1.toStop.pos - s0.toStop.pos) =
        ((((i : Int) * (s0.den : Int) - s0.num * (n : Int)) * (s1.den : Int) : Int) : ℚ) /
          (((n : Int) * (s1.num * (s0.den : Int) - s0.num * (s1.den : Int)) : Int) : ℚ) := by
      have hposq' : ((s1.num : ℚ) * (s0.den : ℚ) - (s0.num : ℚ) * (s1.den : ℚ)) ≠ 0 := by
        have : (0 : ℚ) < ((s1.num * (s0.den : Int) - s0.num * (s1.den : Int) : Int) : ℚ) := by
          exact_mod_cast hpos
        push_cast at this
        exact ne_of_gt this
      rw [hdiff]
      simp only [FracStop.toStop]
      push_cast
      field_simp
      ring
    simp only [interpolate, interpolateInt, if_neg hne, if_neg hz]
    rw [hlocal, lerpChannel_int _ _ _ _ hD, lerpChannel_int _ _ _ _ hD,
      lerpChannel_int _ _ _ _ hD]
    rfl

/-- The loop at `t = i / n` in integers. -/
theorem sampleLoop_int (lc : Color) (i n : Nat) (hn : 0 < n) :
    ∀ stops : List FracStop, (∀ s ∈ stops, 0 < s.den) →
      sampleLoop lc (stops.map FracStop.toStop) ((i : ℚ) / (n : ℚ)) =
        sampleLoopInt lc stops i n := by
  intro stops
  induction stops with
  | nil => exact fun _ => rfl
  | cons s0 rest ih =>
    intro hden
    cases rest with
    | nil => rfl
    | cons s1 rest =>
      have hd0 : 0 < s0.den := hden s0 (List.mem_cons_self _ _)
      have hd1 : 0 < s1.den := hden s1 (List.mem_cons_of_mem _ (List.mem_cons_self _ _))
      have hrest := ih (fun s hs => hden s (List.mem_cons_of_mem _ hs))
      simp only [List.map_cons] at hrest ⊢
      simp only [sampleLoop, sampleLoopInt]
      by_cases hc : s0.toStop.pos ≤ (i : ℚ) / (n : ℚ) ∧ (i : ℚ) / (n : ℚ) ≤ s1.toStop.pos
      · have hci : s0.num * (n : Int) ≤ (i : Int) * (s0.den : Int) ∧
            (i : Int) * (s1.den : Int) ≤ s1.num * (n : Int) :=
          ⟨(frac_le_iff i n s0 hn hd0).2.mp hc.1, (frac_le_iff i n s1 hn hd1).1.mp hc.2⟩
        rw [if_pos hc, if_pos hci]
        exact interpolate_int s0 s1 i n hn hd0 hd1 hc.1 hc.2
      · have hci : ¬ (s0.num * (n : Int) ≤ (i : Int) * (s0.den : Int) ∧
            (i : Int) * (s1.den : Int) ≤ s1.num * (n : Int)) := by
          intro h
          exact hc ⟨(frac_le_iff i n s0 hn hd0).2.mpr h.1,
            (frac_le_iff i n s1 hn hd1).1.mpr h.2⟩
        rw [if_neg hc, if_neg hci]
        exact hrest

/-- The function `samplePalette` at `t = i / n` in integers. -/
theorem samplePalette_int (stops : List FracStop) (i n : Nat) (hn : 0 < n)
    (hden : ∀ s ∈ stops, 0 < s.den) :
    samplePalette (stops.map FracStop.toStop) ((i : ℚ) / (n : ℚ)) =
      samplePaletteInt stops i n := by
  unfold samplePalette samplePaletteInt
  rw [List.head?_map, List.getLast?_map]
  cases hh : stops.head? with
  | none => rfl
  | some first =>
    cases hl : stops.getLast? with
    | none => rfl
    | some last =>
      have hf : first ∈ stops := List.mem_of_mem_head? hh
      have hlm : last ∈ stops := List.mem_of_mem_getLast? hl
      simp only [Option.map_some']
      have e1 := (frac_le_iff i n first hn (hden first hf)).1
      have e2 := (frac_le_iff i n last hn (hden last hlm)).2
      by_cases c1 : (i : ℚ) / (n : ℚ) ≤ first.toStop.pos
      · rw [if_pos c1, if_pos (e1.mp c1)]
        rfl
      · rw [if_neg c1, if_neg (fun h => c1 (e1.mpr h))]
        by_cases c2 : last.toStop.pos ≤ (i : ℚ) / (n : ℚ)
        · rw [if_pos c2, if_pos (e2.mp c2)]
          rfl
        · rw [if_neg c2, if_neg (fun h => c2 (e2.mpr h))]
          exact sampleLoop_int _ i n hn stops hden

/-- A slot of a lookup table in integers. -/
theorem sampleAtSlot_int (stops : List FracStop) (size i : Nat) (hsize : 2 ≤ size)
    (hden : ∀ s ∈ stops, 0 < s.den) :
    sampleAtSlot (stops.map FracStop.toStop) size i = samplePaletteInt stops i (size - 1) := by
  have hne : size ≠ 1 := by omega
  have hcast : (size : ℚ) - 1 = ((size - 1 : Nat) : ℚ) := by
    rw [Nat.cast_sub (by omega), Nat.cast_one]
  unfold sampleAtSlot
  rw [if_neg hne, hcast]
  exact samplePalette_int stops i (size - 1) (by omega) hden

theorem slotGap_int (stops : List FracStop) (j : Nat) (hden : ∀ s ∈ stops, 0 < s.den) :
    slotGap (stops.map FracStop.toStop) j = slotGapInt stops j := by
  unfold slotGap slotGapInt
  rw [sampleAtSlot_int stops 256 (j / 4) (by decide) hden,
    sampleAtSlot_int stops 1024 j (by decide) hden]

theorem inferno_frac : inferno = infernoFrac.map FracStop.toStop := by
  simp only [inferno, infernoFrac, FracStop.toStop, List.map_cons, List.map_nil]
  norm_num

set_option maxRecDepth 1000000 in
theorem infernoFrac_gap : ∀ j, j < 1024 → slotGapInt infernoFrac j ≤ 2 := by decide!

theorem inferno_gap : ∀ j, j < 1024 → slotGap inferno j ≤ 2 := by
  intro j hj
  have hden : ∀ s ∈ infernoFrac, 0 < s.den := by
    intro s hs
    simp only [infernoFrac, List.mem_cons, List.mem_singleton, List.not_mem_nil, or_false] at hs
    rcases hs with rfl | rfl | rfl | rfl | rfl <;> decide
  rw [inferno_frac, slotGap_int _ j hden]
  exact infernoFrac_gap j hj

theorem crimsonNight_frac : crimsonNight = crimsonNightFrac.map FracStop.toStop := by
  simp only [crimsonNight, crimsonNightFrac, FracStop.toStop, List.map_cons, List.map_nil]
  norm_num

set_option maxRecDepth 1000000 in
theorem crimsonNightFrac_gap : ∀ j, j < 1024 → slotGapInt crimsonNightFrac j ≤ 3 := by decide!

theorem crimsonNight_gap : ∀ j, j < 1024 → slotGap crimsonNight j ≤ 3 := by
  intro j hj
  have hden : ∀ s ∈ crimsonNightFrac, 0 < s.den := by
    intro s hs
    simp only [crimsonNightFrac, List.mem_cons, List.mem_singleton, List.not_mem_nil, or_false] at hs
    rcases hs with rfl | rfl | rfl | rfl | rfl <;> decide
  rw [crimsonNight_frac, slotGap_int _ j hden]
  exact crimsonNightFrac_gap j hj

theorem iceFire_frac : iceFire = iceFireFrac.map FracStop.toStop := by
  simp only [iceFire, iceFireFrac, FracStop.toStop, List.map_cons, List.map_nil]
  norm_num

set_option maxRecDepth 1000000 in
theorem iceFireFrac_gap : ∀ j, j < 1024 → slotGapInt iceFireFrac j ≤ 2 := by decide!

theorem iceFire_gap : ∀ j, j < 1024 → slotGap iceFire j ≤ 2 := by
  intro j hj
  have hden : ∀ s ∈ iceFireFrac, 0 < s.den := by
    intro s hs
    simp only [iceFireFrac, List.mem_cons, List.mem_singleton, List.not_mem_nil, or_false] at hs
    rcases hs with rfl | rfl | rfl | rfl | rfl <;> decide
  rw [iceFire_frac, slotGap_int _ j hden]
  exact iceFireFrac_gap j hj

theorem monochrome_frac : monochrome = monochromeFrac.map FracStop.toStop := by
  simp only [monochrome, monochromeFrac, FracStop.toStop, List.map_cons, List.map_nil]
  norm_num

set_option maxRecDepth 1000000 in
theorem monochromeFrac_gap : ∀ j, j < 1024 → slotGapInt monochromeFrac j ≤ 1 := by decide!

theorem monochrome_gap : ∀ j, j < 1024 → slotGap monochrome j ≤ 1 := by
  intro j hj
  have hden : ∀ s ∈ monochromeFrac, 0 < s.den := by
    intro s hs
    simp only [monochromeFrac, List.mem_cons, List.mem_singleton, List.not_mem_nil, or_false] at hs
    rcases hs with rfl | rfl | rfl <;> decide
  rw [monochrome_frac, slotGap_int _ j hden]
  exact monochromeFrac_gap j hj

theorem neonAbyss_frac : neonAbyss = neonAbyssFrac.map FracStop.toStop := by
  simp only [neonAbyss, neonAbyssFrac, FracStop.toStop, List.map_cons, List.map_nil]
  norm_num

set_option maxRecDepth 1000000 in
theorem neonAbyssFrac_gap : ∀ j, j < 1024 → slotGapInt neonAbyssFrac j ≤ 2 := by decide!

theorem neonAbyss_gap : ∀ j, j < 1024 → slotGap neonAbyss j ≤ 2 := by
  intro j hj
  have hden : ∀ s ∈ neonAbyssFrac, 0 < s.den := by
    intro s hs
    simp only [neonAbyssFrac, List.mem_cons, List.mem_singleton, List.not_mem_nil, or_false] at hs
    rcases hs with rfl | rfl | rfl | rfl <;> decide
  rw [neonAbyss_frac, slotGap_int _ j hden]
  exact neonAbyssFrac_gap j hj

theorem goldVein_frac : goldVein = goldVeinFrac.map FracStop.toStop := by
  simp only [goldVein, goldVeinFrac, FracStop.toStop, List.map_cons, List.map_nil]
  norm_num

set_option maxRecDepth 1000000 in
theorem goldVeinFrac_gap : ∀ j, j < 1024 → slotGapInt goldVeinFrac j ≤ 2 := by decide!

theorem goldVein_gap : ∀ j, j < 1024 → slotGap goldVein j ≤ 2 := by
  intro j hj
  have hden : ∀ s ∈ goldVeinFrac, 0 < s.den := by
    intro s hs
    simp only [goldVeinFrac, List.mem_cons, List.mem_singleton, List.not_mem_nil, or_false] at hs
    rcases hs with rfl | rfl | rfl | rfl <;> decide
  rw [goldVein_frac, slotGap_int _ j hden]
  exact goldVeinFrac_gap j hj

/-- The table built on a palette with at least two stops, slot by slot. -/
theorem buildColorLUT_slots (palette : List Stop) (size : Nat) (h2 : 2 ≤ palette.length)
    (hsize : size ≠ 1) :
    ∃ lut, buildColorLUT palette size = some lut ∧ lut.length = size * 3 ∧
      ∀ i, i < size → ∃ c, sampleAtSlot palette size i = Sampled.rgb c ∧
        lut[i * 3]? = some (toUint8 c.r) ∧ lut[i * 3 + 1]? = some (toUint8 c.g) ∧
        lut[i * 3 + 2]? = some (toUint8 c.b) := by
  have hs : ∀ i, i < size → ∃ c, sampleAtSlot palette size i = Sampled.rgb c := by
    intro i _
    obtain ⟨_, _, _, c, _, _, hc, _⟩ :=
      samplePalette_adjacent palette ((i : ℚ) / ((size : ℚ) - 1)) h2
    exact ⟨c, by simp [sampleAtSlot, hsize, hc]⟩
  exact buildColorLUT_prefix palette size hs size (le_refl _)

/-- For `t` in `[0, 1]` the index into the 1024-entry table is
`min(1023, ⌊1024 t⌋)`, the index into the 256-entry table is
`min(255, ⌊256 t⌋)`, and the second is a quarter of the first. -/
theorem lutIndex_quarter (t : ℚ) (h0 : 0 ≤ t) (h1 : t ≤ 1) :
    lutIndex 1024 t = min 1023 ⌊1024 * t⌋ ∧ lutIndex 256 t = min 255 ⌊256 * t⌋ ∧
      0 ≤ lutIndex 1024 t ∧ lutIndex 1024 t < 1024 ∧
      (lutIndex 256 t).toNat = (lutIndex 1024 t).toNat / 4 := by
  have hn0 : (0 : Int) ≤ ⌊1024 * t⌋ := Int.floor_nonneg.mpr (by linarith)
  have hm0 : (0 : Int) ≤ ⌊256 * t⌋ := Int.floor_nonneg.mpr (by linarith)
  have hn1 : ⌊1024 * t⌋ ≤ 1024 := by
    have : ⌊1024 * t⌋ < 1024 + 1 := Int.floor_lt.mpr (by push_cast; linarith)
    omega
  have hlo : 4 * ⌊256 * t⌋ ≤ ⌊1024 * t⌋ := by
    apply Int.le_floor.mpr
    have := Int.floor_le (256 * t)
    push_cast
    linarith
  have hhi : ⌊1024 * t⌋ < 4 * ⌊256 * t⌋ + 4 := by
    apply Int.floor_lt.mpr
    have := Int.lt_floor_add_one (256 * t)
    push_cast
    linarith
  have e1 : lutIndex 1024 t = min 1023 ⌊1024 * t⌋ := by
    have hx : t * ((1024 : Nat) : ℚ) = 1024 * t := by push_cast; ring
    unfold lutIndex
    rw [toInt32_eq_trunc _ (by rw [hx]; linarith) (by rw [hx]; linarith), hx]
    unfold truncQ
    rw [if_pos (by linarith)]
    push_cast
    omega
  have e2 : lutIndex 256 t = min 255 ⌊256 * t⌋ := by
    have hx : t * ((256 : Nat) : ℚ) = 256 * t := by push_cast; ring
    unfold lutIndex
    rw [toInt32_eq_trunc _ (by rw [hx]; linarith) (by rw [hx]; linarith), hx]
    unfold truncQ
    rw [if_pos (by linarith)]
    push_cast
    omega
  refine ⟨e1, e2, ?_, ?_, ?_⟩
  · rw [e1]
    omega
  · rw [e1]
    omega
  · rw [e1, e2]
    omega

/-- The gap table of every built-in palette. -/
theorem builtin_gap (key : String) (p : List Stop) (hp : PALETTES key = some p) :
    (∀ j, j < 1024 → slotGap p j ≤ lutGapBound key) ∧ lutGapBound key ≤ 3 := by
  have hb : lutGapBound key ≤ 3 := by
    unfold lutGapBound
    split_ifs <;> decide
  refine ⟨?_, hb⟩
  unfold PALETTES at hp
  split_ifs at hp with h1 h2 h3 h4 h5 h6 <;> cases hp
  · subst h1
    exact inferno_gap
  · subst h2
    exact crimsonNight_gap
  · subst h3
    exact iceFire_gap
  · subst h4
    exact monochrome_gap
  · subst h5
    exact neonAbyss_gap
  · subst h6
    exact goldVein_gap

set_option maxRecDepth 100000 in
theorem crimsonNight_near_one :
    lutIndex 256 (255 / 256) = 255 ∧ lutIndex 1024 (255 / 256) = 1020 ∧
      sampleAtSlot crimsonNight 256 255 = Sampled.rgb ⟨255, 200, 200⟩ ∧
      sampleAtSlot crimsonNight 1024 1020 = Sampled.rgb ⟨255, 197, 197⟩ := by
  decide!

/-- C21, as stated, fails: with the palette `crimson-night` and `t = 255/256`
the 256-entry table is read at index `255`, where the green channel is `200`,
and the 1024-entry table at index `1020`, where it is `197`: three units
apart. -/
theorem lut_colours_three_apart :
    PALETTES "crimson-night" = some crimsonNight ∧ (0 : ℚ) ≤ 255 / 256 ∧
      (255 / 256 : ℚ) ≤ 1 ∧
      lutIndex 256 (255 / 256) = 255 ∧ lutIndex 1024 (255 / 256) = 1020 ∧
      ∃ lut256 lut1024, buildColorLUT crimsonNight 256 = some lut256 ∧
        buildColorLUT crimsonNight 1024 = some lut1024 ∧
        lut256[255 * 3 + 1]? = some 200 ∧ lut1024[1020 * 3 + 1]? = some 197 := by
  obtain ⟨hi, hj, hs256, hs1024⟩ := crimsonNight_near_one
  obtain ⟨lut256, hb256, _, hslot256⟩ :=
    buildColorLUT_slots crimsonNight 256 crimsonNight_valid.two_le (by decide)
  obtain ⟨lut1024, hb1024, _, hslot1024⟩ :=
    buildColorLUT_slots crimsonNight 1024 crimsonNight_valid.two_le (by decide)
  refine ⟨by simp [PALETTES], by norm_num, by norm_num, hi, hj, lut256, lut1024, hb256,
    hb1024, ?_, ?_⟩
  · obtain ⟨c, hc, _, hg, _⟩ := hslot256 255 (by decide)
    rw [hs256] at hc
    cases hc
    exact hg
  · obtain ⟨c, hc, _, hg, _⟩ := hslot1024 1020 (by decide)
    rw [hs1024] at hc
    cases hc
    exact hg

/-- C21, amended: for every built-in palette and every `t` in `[0, 1]`, the
colour read from the 256-entry table at index `min(255, ⌊256 t⌋)` and the
colour read from the 1024-entry table at index `min(1023, ⌊1024 t⌋)` differ by
at most `3` units of the `0..255` channel value in each channel: by at most
`3` for crimson-night, `1` for monochrome and `2` for the other palettes. -/
theorem lut_colours_close (key : String) (p : List Stop) (hp : PALETTES key = some p)
    (t : ℚ) (h0 : 0 ≤ t) (h1 : t ≤ 1) :
    ∃ (lut256 lut1024 : List Nat) (i j r256 g256 b256 r1024 g1024 b1024 : Nat),
      buildColorLUT p 256 = some lut256 ∧ buildColorLUT p 1024 = some lut1024 ∧
      lutIndex 256 t = (i : Int) ∧ lutIndex 1024 t = (j : Int) ∧
      (i : Int) = min 255 ⌊256 * t⌋ ∧ (j : Int) = min 1023 ⌊1024 * t⌋ ∧
      lut256[i * 3]? = some r256 ∧ lut256[i * 3 + 1]? = some g256 ∧
      lut256[i * 3 + 2]? = some b256 ∧
      lut1024[j * 3]? = some r1024 ∧ lut1024[j * 3 + 1]? = some g1024 ∧
      lut1024[j * 3 + 2]? = some b1024 ∧
      ((r256 : Int) - (r1024 : Int)).natAbs ≤ lutGapBound key ∧
      ((g256 : Int) - (g1024 : Int)).natAbs ≤ lutGapBound key ∧
      ((b256 : Int) - (b1024 : Int)).natAbs ≤ lutGapBound key ∧
      lutGapBound key ≤ 3 := by
  obtain ⟨_, hp2, _⟩ := PALETTES_shape key p hp
  obtain ⟨hgap, hb3⟩ := builtin_gap key p hp
  obtain ⟨e1, e2, hj0, hj1, hquarter⟩ := lutIndex_quarter t h0 h1
  obtain ⟨lut256, hb256, _, hslot256⟩ := buildColorLUT_slots p 256 hp2 (by decide)
  obtain ⟨lut1024, hb1024, _, hslot1024⟩ := buildColorLUT_slots p 1024 hp2 (by decide)
  have hjlt : (lutIndex 1024 t).toNat < 1024 := by omega
  have hilt : (lutIndex 256 t).toNat < 256 := by omega
  have hi0 : 0 ≤ lutIndex 256 t := by
    rw [e2]
    have : (0 : Int) ≤ ⌊256 * t⌋ := Int.floor_nonneg.mpr (by linarith)
    omega
  obtain ⟨c, hc, hr, hg, hbl⟩ := hslot256 _ hilt
  obtain ⟨c', hc', hr', hg', hbl'⟩ := hslot1024 _ hjlt
  have hg1 := hgap _ hjlt
  unfold slotGap at hg1
  rw [← hquarter, hc, hc'] at hg1
  simp only [channelGap] at hg1
  refine ⟨lut256, lut1024, (lutIndex 256 t).toNat, (lutIndex 1024 t).toNat, toUint8 c.r,
    toUint8 c.g, toUint8 c.b, toUint8 c'.r, toUint8 c'.g, toUint8 c'.b, hb256, hb1024,
    (Int.toNat_of_nonneg hi0).symm, (Int.toNat_of_nonneg hj0).symm, ?_, ?_, hr, hg, hbl,
    hr', hg', hbl', ?_, ?_, ?_, hb3⟩
  · rw [Int.toNat_of_nonneg hi0]
    exact e2
  · rw [Int.toNat_of_nonneg hj0]
    exact e1
  · exact le_trans (le_trans (le_max_left _ _) (le_max_left _ _)) hg1
  · exact le_trans (le_trans (le_max_right _ _) (le_max_left _ _)) hg1
  · exact le_trans (le_max_right _ _) hg1

theorem lut_colours_close_witness :
    PALETTES "crimson-night" = some crimsonNight ∧ (0 : ℚ) ≤ 255 / 256 ∧
      (255 / 256 : ℚ) ≤ 1 ∧
      ∃ (lut256 lut1024 : List Nat) (i j r256 g256 b256 r1024 g1024 b1024 : Nat),
        buildColorLUT crimsonNight 256 = some lut256 ∧
        buildColorLUT crimsonNight 1024 = some lut1024 ∧
        lutIndex 256 (255 / 256) = (i : Int) ∧ lutIndex 1024 (255 / 256) = (j : Int) ∧
        (i : Int) = min 255 ⌊256 * (255 / 256 : ℚ)⌋ ∧
        (j : Int) = min 1023 ⌊1024 * (255 / 256 : ℚ)⌋ ∧
        lut256[i * 3]? = some r256 ∧ lut256[i * 3 + 1]? = some g256 ∧
        lut256[i * 3 + 2]? = some b256 ∧
        lut1024[j * 3]? = some r1024 ∧ lut1024[j * 3 + 1]? = some g1024 ∧
        lut1024[j * 3 + 2]? = some b1024 ∧
        ((r256 : Int) - (r1024 : Int)).natAbs ≤ lutGapBound "crimson-night" ∧
        ((g256 : Int) - (g1024 : Int)).natAbs ≤ lutGapBound "crimson-night" ∧
        ((b256 : Int) - (b1024 : Int)).natAbs ≤ lutGapBound "crimson-night" ∧
        lutGapBound "crimson-night" ≤ 3 :=
  ⟨by simp [PALETTES], by norm_num, by norm_num,
    lut_colours_close "crimson-night" crimsonNight (by simp [PALETTES]) (255 / 256)
      (by norm_num) (by norm_num)⟩

/-! ## Interior pixels in the three renderers (C11) -/

theorem thumbnail_centre : thumbnailPlanePoint 2 2 1 1 = (0, 0) := by
  simp only [thumbnailPlanePoint]
  norm_num

theorem mandelbrot_origin_pixel : mandelbrotPlanePoint 15 2 11 1 = (0, 0) := by
  simp only [mandelbrotPlanePoint]
  norm_num

theorem interior_pixels_fixed_colour_witness :
    getActivePalette originState ≠ [] ∧
      (∃ data, (renderJulia (fun _ => 0) originState 2 2).image = some data ∧
        data[(1 * 2 + 1) * 4]? = some 5 ∧ data[(1 * 2 + 1) * 4 + 1]? = some 2 ∧
        data[(1 * 2 + 1) * 4 + 2]? = some 2 ∧ data[(1 * 2 + 1) * 4 + 3]? = some 255) ∧
      (∃ data, renderJuliaThumbnail (fun _ => 0) originState 2 2 0 0 = some data ∧
        data[(1 * 2 + 1) * 4]? = some 5 ∧ data[(1 * 2 + 1) * 4 + 1]? = some 2 ∧
        data[(1 * 2 + 1) * 4 + 2]? = some 2 ∧ data[(1 * 2 + 1) * 4 + 3]? = some 255) ∧
      (∃ data, renderMandelbrot (fun _ => 0) originState 15 2 = some data ∧
        data[(1 * 15 + 11) * 4]? = some 5 ∧ data[(1 * 15 + 11) * 4 + 1]? = some 2 ∧
        data[(1 * 15 + 11) * 4 + 2]? = some 2 ∧
        data[(1 * 15 + 11) * 4 + 3]? = some 255) := by
  have hne : getActivePalette originState ≠ [] := by
    rw [originState_palette]
    simp [crimsonNight]
  obtain ⟨hj, ht, hm⟩ := interior_pixels_fixed_colour (fun _ => 0) originState hne
  refine ⟨hne, ?_, ?_, ?_⟩
  · obtain ⟨data, himg, _, hpix⟩ := hj 2 2 (by decide) (by decide)
    refine ⟨data, himg, (hpix 1 1 (by decide) (by decide)).1 ?_⟩
    rw [originState_centre]
    exact escapeLoop_unit_disk 200 _ ⟨rfl, rfl, by norm_num, Nat.zero_le _⟩
  · obtain ⟨data, himg, _, hpix⟩ := ht 2 2 0 0
    refine ⟨data, himg, (hpix 1 1 (by decide) (by decide)).1 ?_⟩
    rw [thumbnail_centre]
    exact escapeLoop_unit_disk 80 _ ⟨rfl, rfl, by norm_num, Nat.zero_le _⟩
  · obtain ⟨data, himg, _, hpix⟩ := hm 15 2
    refine ⟨data, himg, (hpix 11 1 (by decide) (by decide)).1 ?_⟩
    rw [mandelbrot_origin_pixel]
    unfold mandelbrotPixel
    rw [mandelbrotLoop_eq 0 0 100 (100 - 0) _ rfl]
    exact escapeLoop_unit_disk 100 _ ⟨by norm_num, by norm_num, by norm_num, Nat.zero_le _⟩

/-! ## Palette sampling in double arithmetic (C3) -/

set_option maxRecDepth 100000 in
/-- The positions of `inferno` and the sample point `nearTieT` are binary64
numbers. -/
theorem inferno_binary64 :
    (∀ s ∈ inferno, fl64 s.pos = s.pos) ∧ fl64 nearTieT = nearTieT := by
  decide!

set_option maxRecDepth 100000 in
/-- The sample of `inferno` at `nearTieT` as the program computes it: the
product `80 * localT` is `1.5 - 2^(-52) * 0.3...` before rounding and `1.5`
after it, and `Math.round(1.5)` is `2`. -/
theorem samplePaletteF64_nearTie :
    samplePaletteF64 inferno nearTieT = Sampled.rgb ⟨2, 0, 2⟩ := by
  decide!

set_option maxRecDepth 100000 in
/-- The sample of `inferno` at `nearTieT` in exact arithmetic. -/
theorem samplePalette_nearTie :
    samplePalette inferno nearTieT = Sampled.rgb ⟨1, 0, 2⟩ := by
  decide!

/-- The first index of `inferno` that brackets `nearTieT` is `0`. -/
theorem inferno_firstBracket : FirstBracket inferno nearTieT 0 := by
  refine ⟨⟨{ pos := 0, color := ⟨0, 0, 0⟩ }, { pos := 25 / 100, color := ⟨80, 18, 123⟩ },
    rfl, rfl, ?_, ?_⟩, fun j hj => absurd hj (Nat.not_lt_zero j)⟩
  · show (0 : ℚ) ≤ nearTieT
    norm_num [nearTieT]
  · show nearTieT ≤ (25 / 100 : ℚ)
    norm_num [nearTieT]

/-- The exact interpolation of the red channel at `nearTieT` is below `1.5`:
`2` is not its rounding. -/
theorem nearTie_not_rounding : ¬ IsRounding 2 (linearAt 0 80 0 (25 / 100) nearTieT) := by
  unfold IsRounding linearAt nearTieT
  norm_num

/-- C3, as stated, fails on the program's double arithmetic: `inferno` is a
valid palette with binary64 positions and `t = 0.0046875 - 2^(-60)` is a
binary64 number strictly between its first and last position; the first
bracketing index is `0`, the exact interpolation of the red channel between
`stops[0]` and `stops[1]` is `320 * t < 1.5`, which rounds to `1`, but the
program rounds the product to the double `1.5` first and returns red `2`.  No
index makes the returned red channel the rounding of the interpolation on the
first bracketing pair. -/
theorem samplePalette_rounds_computed_double :
    ValidPalette inferno ∧ (∀ s ∈ inferno, fl64 s.pos = s.pos) ∧
      fl64 nearTieT = nearTieT ∧ 0 < nearTieT ∧ nearTieT < 1 ∧
      samplePaletteF64 inferno nearTieT = Sampled.rgb ⟨2, 0, 2⟩ ∧
      samplePalette inferno nearTieT = Sampled.rgb ⟨1, 0, 2⟩ ∧
      FirstBracket inferno nearTieT 0 ∧
      ¬ IsRounding 2 (linearAt 0 80 0 (25 / 100) nearTieT) ∧
      ¬ ∃ i a b c, inferno[i]? = some a ∧ inferno[i + 1]? = some b ∧
        samplePaletteF64 inferno nearTieT = Sampled.rgb c ∧
        FirstBracket inferno nearTieT i ∧
        IsRounding c.r (linearAt a.color.r b.color.r a.pos b.pos nearTieT) := by
  refine ⟨inferno_valid, inferno_binary64.1, inferno_binary64.2, by norm_num [nearTieT],
    by norm_num [nearTieT], samplePaletteF64_nearTie, samplePalette_nearTie,
    inferno_firstBracket, nearTie_not_rounding, ?_⟩
  rintro ⟨i, a, b, c, ha, hb, hc, hfb, hr⟩
  have hi : i = 0 := by
    by_contra hne
    exact hfb.2 0 (Nat.pos_of_ne_zero hne) inferno_firstBracket.1
  subst hi
  rw [samplePaletteF64_nearTie] at hc
  simp only [inferno, List.getElem?_cons_zero, List.getElem?_cons_succ, Option.some.injEq,
    zero_add] at ha hb
  simp only [Sampled.rgb.injEq] at hc
  subst ha
  subst hb
  subst hc
  exact nearTie_not_rounding hr

/-! ## The pixel loop and the viewport in double arithmetic (C8, C18) -/

set_option maxRecDepth 100000 in
/-- The numbers `edgeRe`, `edgeIm` and `edgeImBelow` are binary64 numbers, and
so are the default parameter and the pan of `pannedState`. -/
theorem edge_binary64 :
    fl64 edgeRe = edgeRe ∧ fl64 edgeIm = edgeIm ∧ fl64 edgeImBelow = edgeImBelow := by
  decide!

set_option maxRecDepth 100000 in
/-- In the default view on an `800 × 600` canvas, pixel `(720, 60)` has the
plane point `(1.6, -1.2)`. -/
theorem juliaPlanePointF64_edge :
    juliaPlanePointF64 initialStateF64 800 600 720 60 = (edgeRe, edgeIm) := by
  decide!

set_option maxRecDepth 100000 in
/-- The computed `zrSq + ziSq` of the start point `(1.6, -1.2)` is exactly
`4.0`. -/
theorem edge_computed_sum :
    fl64 (fl64 (edgeRe * edgeRe) + fl64 (edgeIm * edgeIm)) = 4 := by
  decide!

set_option maxRecDepth 100000 in
/-- The run of the double-arithmetic loop from `(1.6, -1.2)` with the default
parameter: one iteration, then `zrSq + ziSq = 12.92`. -/
theorem juliaPixelF64_edge :
    juliaPixelF64 initialStateF64.cReal initialStateF64.cImag 200 edgeRe edgeIm =
      { zrCur := 1891511843495611 / 4503599627370496
        ziCur := -8038925334856335 / 2251799813685248
        zrSq := 3177739897072631 / 18014398509481984
        ziSq := 7174740861359279 / 562949953421312
        iter := 1 } := by
  decide!

set_option maxRecDepth 100000 in
/-- The run of the double-arithmetic loop from `(1.6, -1.2000000000000002)`
with the default parameter: the first test fails. -/
theorem juliaPixelF64_edgeBelow :
    (juliaPixelF64 initialStateF64.cReal initialStateF64.cImag 200 edgeRe edgeImBelow).iter =
      0 := by
  decide!

/-- The exact squared modulus of `(1.6, -1.2)`, as binary64 numbers, is above
`4`. -/
theorem edge_normSq : 4 < normSq (edgeRe, edgeIm) := by
  simp only [normSq, edgeRe, edgeIm]
  norm_num

/-- C8, as stated, fails on the program's double arithmetic: in the default
view on an `800 × 600` canvas the pixel `(720, 60)` has the start point
`z0 = (1.6, -1.2)` (binary64), whose exact `|z0|²` exceeds `4`; the loop
computes `zrSq + ziSq = 4.0`, passes the test and returns `iter = 1`, so
`|z_k|² ≤ 4` fails for `k = 0 < iter`.  Run in exact arithmetic the loop
returns `iter = 0`. -/
theorem loop_passes_radius_in_doubles :
    juliaPlanePointF64 initialStateF64 800 600 720 60 = (edgeRe, edgeIm) ∧
      fl64 edgeRe = edgeRe ∧ fl64 edgeIm = edgeIm ∧
      fl64 (fl64 (edgeRe * edgeRe) + fl64 (edgeIm * edgeIm)) = 4 ∧
      (juliaPixelF64 initialStateF64.cReal initialStateF64.cImag 200 edgeRe edgeIm).iter = 1 ∧
      4 < normSq (orbit initialStateF64.cReal initialStateF64.cImag edgeRe edgeIm 0) ∧
      ¬ (∀ k, k < (juliaPixelF64 initialStateF64.cReal initialStateF64.cImag 200
            edgeRe edgeIm).iter →
          normSq (orbit initialStateF64.cReal initialStateF64.cImag edgeRe edgeIm k) ≤ 4) ∧
      (juliaPixel initialStateF64.cReal initialStateF64.cImag 200 edgeRe edgeIm).iter = 0 := by
  have horb : 4 < normSq (orbit initialStateF64.cReal initialStateF64.cImag edgeRe edgeIm 0) :=
    edge_normSq
  refine ⟨juliaPlanePointF64_edge, edge_binary64.1, edge_binary64.2.1, edge_computed_sum,
    by rw [juliaPixelF64_edge], horb, ?_, ?_⟩
  · intro hall
    have h0 := hall 0 (by rw [juliaPixelF64_edge]; exact Nat.zero_lt_one)
    exact absurd h0 (not_le.mpr horb)
  · rw [juliaPixel, escapeLoop_exit]
    intro hc
    have h4 : 4 < edgeRe * edgeRe + edgeIm * edgeIm := edge_normSq
    exact absurd hc.1 (not_le.mpr h4)

set_option maxRecDepth 100000 in
/-- With the pan `(1.6, -1.2)` on an `800 × 600` canvas the centre pixel
`(400, 300)` has the plane point `(1.6, -1.2000000000000002)`. -/
theorem juliaPlanePointF64_centre :
    juliaPlanePointF64 pannedState 800 600 (800 / 2) (600 / 2) = (edgeRe, edgeImBelow) := by
  decide!

/-- C18, as stated, fails on the program's double arithmetic: with zoom `1`,
the pan `(1.6, -1.2)` (binary64), the default parameter and an `800 × 600`
buffer, `renderJulia` maps the centre pixel `(400, 300)` to
`(1.6, -1.2000000000000002)`, not to `(panX, panY)`, and its iteration count is
`0` while the loop run on `(panX, panY)` returns `1`. -/
theorem centre_pixel_off_centre_in_doubles :
    0 < pannedState.zoom ∧ 0 < 800 ∧ 0 < 600 ∧ 800 % 2 = 0 ∧ 600 % 2 = 0 ∧
      fl64 pannedState.panX = pannedState.panX ∧ fl64 pannedState.panY = pannedState.panY ∧
      juliaPlanePointF64 pannedState 800 600 (800 / 2) (600 / 2) = (edgeRe, edgeImBelow) ∧
      juliaPlanePointF64 pannedState 800 600 (800 / 2) (600 / 2) ≠
        (pannedState.panX, pannedState.panY) ∧
      (juliaPixelF64 pannedState.cReal pannedState.cImag pannedState.maxIter
        (juliaPlanePointF64 pannedState 800 600 (800 / 2) (600 / 2)).1
        (juliaPlanePointF64 pannedState 800 600 (800 / 2) (600 / 2)).2).iter = 0 ∧
      (juliaPixelF64 pannedState.cReal pannedState.cImag pannedState.maxIter
        pannedState.panX pannedState.panY).iter = 1 := by
  refine ⟨by norm_num [pannedState, initialStateF64, initialState], by decide, by decide,
    by decide, by decide, edge_binary64.1, edge_binary64.2.1, juliaPlanePointF64_centre,
    ?_, ?_, ?_⟩
  · rw [juliaPlanePointF64_centre]
    intro h
    have h2 : edgeImBelow = edgeIm := congrArg Prod.snd h
    revert h2
    norm_num [edgeImBelow, edgeIm]
  · rw [juliaPlanePointF64_centre]
    exact juliaPixelF64_edgeBelow
  · show (juliaPixelF64 initialStateF64.cReal initialStateF64.cImag 200 edgeRe edgeIm).iter = 1
    rw [juliaPixelF64_edge]

/-! ## The navigator round trip in double arithmetic (C12) -/

set_option maxRecDepth 100000 in
/-- A click at `x = 146` on a `320 × 240` navigator in double arithmetic:
`cReal` is computed as `-0.8312500000000003`, stored as `-0.8313`, and the
crosshair is drawn at `145.99466666666666`. -/
theorem roundTripF64_click_146 :
    (handleMandelbrotClickF64 146 1 320 240 initialState).cReal = fl64 (-8313 / 10000) ∧
      (drawMandelbrotCrosshairF64 (handleMandelbrotClickF64 146 1 320 240 initialState)
        320 240).1 = 2568365337492499 / 17592186044416 := by
  decide!

set_option maxRecDepth 100000 in
/-- A click at `x = 226` on a `320 × 240` navigator: the exact `cReal` is
`-0.08125`, a tie that `toFixed(4)` rounds away from zero, while the double is
`-0.08124999999999982` and is stored as `-0.0812`. -/
theorem roundTripF64_click_226 :
    (handleMandelbrotClickF64 226 1 320 240 initialState).cReal = fl64 (-812 / 10000) ∧
      (handleMandelbrotClick 226 1 320 240 initialState).cReal = -813 / 10000 := by
  decide!

/-- In double arithmetic the round trip can leave the bound `w / 60000` of the
exact computation by a few units of rounding: for the click at `x = 146` on a
`320 × 240` navigator the crosshair is `6.5e-15` outside it. -/
theorem roundTrip_beyond_bound_in_doubles :
    ((320 : Nat) : ℚ) / 60000 <
      |(drawMandelbrotCrosshairF64 (handleMandelbrotClickF64 146 1 320 240 initialState)
        320 240).1 - 146| ∧
      |(drawMandelbrotCrosshairF64 (handleMandelbrotClickF64 146 1 320 240 initialState)
        320 240).1 - 146| < ((320 : Nat) : ℚ) / 60000 + 1 / 100000000000000 := by
  rw [roundTripF64_click_146.2]
  have h : |(2568365337492499 / 17592186044416 : ℚ) - 146| =
      146 - 2568365337492499 / 17592186044416 := by
    rw [abs_of_neg (by norm_num)]
    ring
  rw [h]
  constructor <;> norm_num

end JuliaSet
